import Mathlib

/-!
# OPERA: the polarimetry module `operaPolar`

A shallow embedding of `src/core-espadons/operaPolar.cpp`.

* C++ `double` values are modelled by rationals (`ℚ`). The one computation
  that `main` makes itself on such values, the accumulation of the
  cross-correlation, rounds the result of every operation to a `double`
  (`roundToDouble`); the formulas of the engine, which are taken from its
  documentation, are statements in exact arithmetic.
* The classes of the OPERA spectral library (`operaFluxVector`,
  `operaSpectralElements`, `operaSpectralOrder`, `operaPolarimetry`, ...) are
  not among the sources; they are modelled as plain records holding the data
  that `main` reads and writes through their accessors.
* The library routines that `main` only calls are gathered in the record
  `Library` and stay abstract; the statements about `main` hold for every
  library.
* The polarimetry engine (`operaPolarimetry::calculateStokesParameter`) is
  modelled from the formulas documented in the header comment of `main`.
* Library calls are total functions: an exception raised inside the library is
  not modelled, only the `throw` statements of `main` itself are. An access
  outside a vector reads 0, a pointer that was never assigned points to an
  empty object, and order numbers are unbounded integers.
-/

namespace Opera

/-! ## Data model -/

/-- A flux vector (`operaFluxVector`): fluxes and variances of the spectral
elements of one beam. -/
structure operaFluxVector where
  fluxes : List ℚ
  variances : List ℚ
deriving DecidableEq, Repr, Inhabited

namespace operaFluxVector

/-- Number of elements, `getlength()`. -/
def getlength (v : operaFluxVector) : Nat := v.fluxes.length

/-- Flux of one element, `getflux(index)`; an index outside the vector reads 0. -/
def getflux (v : operaFluxVector) (index : Nat) : ℚ := v.fluxes.getD index 0

/-- The constructor `operaFluxVector(fluxes, variances, length)`: a new vector
holding a copy of the first `length` fluxes and variances of the two arrays. -/
def new (fluxes variances : List ℚ) (length : Nat) : operaFluxVector :=
  { fluxes := fluxes.take length, variances := variances.take length }

/-- The constructor `operaFluxVector(length)`: a vector of `length` elements,
every flux and variance holding the value `fill`. -/
def create (length : Nat) (fill : ℚ) : operaFluxVector :=
  { fluxes := List.replicate length fill, variances := List.replicate length fill }

end operaFluxVector

/-- The per-element data of a spectral order that `main` touches
(`operaSpectralElements`). -/
structure operaSpectralElements where
  nSpectralElements : Nat
  XCorrelation : List ℚ
  distd : List ℚ
  wavelength : List ℚ
deriving DecidableEq, Repr, Inhabited

namespace operaSpectralElements

/-- Accessor `getXCorrelation(indexElem)`. -/
def getXCorrelation (e : operaSpectralElements) (indexElem : Nat) : ℚ :=
  e.XCorrelation.getD indexElem 0

/-- Mutator `setXCorrelation(value, indexElem)`. -/
def setXCorrelation (e : operaSpectralElements) (value : ℚ) (indexElem : Nat) :
    operaSpectralElements :=
  { e with XCorrelation := e.XCorrelation.set indexElem value }

/-- Accessor `getdistd(index)`. -/
def getdistd (e : operaSpectralElements) (index : Nat) : ℚ := e.distd.getD index 0

/-- Accessor `getwavelength(index)`. -/
def getwavelength (e : operaSpectralElements) (index : Nat) : ℚ :=
  e.wavelength.getD index 0

end operaSpectralElements

/-- A wavelength solution (`operaWavelength`); only the library looks inside. -/
structure operaWavelength where
  coefficients : List ℚ
deriving DecidableEq, Repr, Inhabited

/-- The Stokes parameters; `--stokesparameter` takes 0, 1, 2, 3 for I, Q, U, V. -/
inductive stokes_parameter_t where
  | StokesI
  | StokesQ
  | StokesU
  | StokesV
deriving DecidableEq, Repr, Inhabited

/-- The calculation methods, "Difference=1, Ratio, DifferenceWithBeamSwapped". -/
inductive method_t where
  | Difference
  | Ratio
  | DifferenceWithBeamSwapped
deriving DecidableEq, Repr, Inhabited

/-- One flux vector per Stokes parameter (`operaStokesVector`). -/
structure operaStokesVector where
  I : operaFluxVector
  Q : operaFluxVector
  U : operaFluxVector
  V : operaFluxVector
deriving DecidableEq, Repr, Inhabited

namespace operaStokesVector

/-- Accessor of the vector of one Stokes parameter. -/
def get (s : operaStokesVector) : stokes_parameter_t → operaFluxVector
  | .StokesI => s.I
  | .StokesQ => s.Q
  | .StokesU => s.U
  | .StokesV => s.V

/-- Replace the vector of one Stokes parameter. -/
def set (s : operaStokesVector) (p : stokes_parameter_t) (v : operaFluxVector) :
    operaStokesVector :=
  match p with
  | .StokesI => { s with I := v }
  | .StokesQ => { s with Q := v }
  | .StokesU => { s with U := v }
  | .StokesV => { s with V := v }

/-- Four vectors of `length` elements holding `fill`. -/
def create (length : Nat) (fill : ℚ) : operaStokesVector :=
  { I := operaFluxVector.create length fill, Q := operaFluxVector.create length fill,
    U := operaFluxVector.create length fill, V := operaFluxVector.create length fill }

end operaStokesVector

/-- The polarimetry record of a spectral order (`operaPolarimetry`), as read by
`main` through `getStokesParameter`, `getDegreeOfPolarization`,
`getFirstNullPolarization` and `getSecondNullPolarization`. -/
structure operaPolarimetry where
  method : method_t
  stokesVector : operaStokesVector
  degreeOfPolarization : operaStokesVector
  firstNullPolarization : operaStokesVector
  secondNullPolarization : operaStokesVector
deriving DecidableEq, Repr, Inhabited

namespace operaPolarimetry

/-- Mutator `setmethod(method)`. -/
def setmethod (p : operaPolarimetry) (m : method_t) : operaPolarimetry :=
  { p with method := m }

/-- Accessor `getStokesParameter(StokesIndex)`. -/
def getStokesParameter (p : operaPolarimetry) (s : stokes_parameter_t) : operaFluxVector :=
  p.stokesVector.get s

/-- Accessor `getDegreeOfPolarization(StokesIndex)`. -/
def getDegreeOfPolarization (p : operaPolarimetry) (s : stokes_parameter_t) :
    operaFluxVector :=
  p.degreeOfPolarization.get s

/-- Accessor `getFirstNullPolarization(StokesIndex)`. -/
def getFirstNullPolarization (p : operaPolarimetry) (s : stokes_parameter_t) :
    operaFluxVector :=
  p.firstNullPolarization.get s

/-- Accessor `getSecondNullPolarization(StokesIndex)`. -/
def getSecondNullPolarization (p : operaPolarimetry) (s : stokes_parameter_t) :
    operaFluxVector :=
  p.secondNullPolarization.get s

end operaPolarimetry

/-- A spectral order (`operaSpectralOrder`): the flags, the spectral elements,
the wavelength solution, the flux vectors of the two beams (beam 0 is E, the
left beam, and beam 1 is A, the right beam) and the polarimetry record. -/
structure operaSpectralOrder where
  hasSpectralElements : Bool
  hasWavelength : Bool
  hasSpectralEnergyDistribution : Bool
  hasPolarimetry : Bool
  SpectralElements : operaSpectralElements
  Wavelength : operaWavelength
  BeamE : operaFluxVector
  BeamA : operaFluxVector
  Polarimetry : Option operaPolarimetry
deriving DecidableEq, Repr, Inhabited

namespace operaSpectralOrder

/-- The flux vector `getBeamElements(beam)->getFluxVector()`. -/
def getBeamFluxVector (so : operaSpectralOrder) (beam : Nat) : operaFluxVector :=
  if beam = 0 then so.BeamE else so.BeamA

end operaSpectralOrder

/-! ## The beam vectors handed to the engine (`iE`, `iA`) -/

/-- The two arrays `operaFluxVector *iE[4], *iA[4]`; a slot that was never
assigned holds `none`. -/
structure BeamSlots where
  iE : List (Option operaFluxVector)
  iA : List (Option operaFluxVector)
deriving DecidableEq, Repr, Inhabited

/-- The arrays as declared, before the populating loop. -/
def BeamSlots.unassigned : BeamSlots :=
  { iE := [none, none, none, none], iA := [none, none, none, none] }

/-- The expression
`new operaFluxVector(spectralOrder[i]->getBeamElements(beam)->getFluxVector()->getfluxes(),
 spectralOrder[i]->getBeamElements(beam)->getFluxVector()->getvariances(), length)`. -/
def copyBeam (so : operaSpectralOrder) (beam length : Nat) : operaFluxVector :=
  operaFluxVector.new (so.getBeamFluxVector beam).fluxes
    (so.getBeamFluxVector beam).variances length

/-- One iteration of the populating loop (the enabled `#else` branch): inputs 0
and 1 go to their own slot, input 2 goes to slot 3 and input 3 to slot 2. -/
def populateStep (spectralOrder : Nat → operaSpectralOrder) (length : Nat)
    (s : BeamSlots) (i : Nat) : BeamSlots :=
  if i = 0 ∨ i = 1 then
    { iE := s.iE.set i (some (copyBeam (spectralOrder i) 0 length)),
      iA := s.iA.set i (some (copyBeam (spectralOrder i) 1 length)) }
  else if i = 2 then
    { iE := s.iE.set 3 (some (copyBeam (spectralOrder i) 0 length)),
      iA := s.iA.set 3 (some (copyBeam (spectralOrder i) 1 length)) }
  else if i = 3 then
    { iE := s.iE.set 2 (some (copyBeam (spectralOrder i) 0 length)),
      iA := s.iA.set 2 (some (copyBeam (spectralOrder i) 1 length)) }
  else s

/-- The populating loop `for(unsigned i=0;i<NumberOfExposures;i++)`. -/
def populate (NumberOfExposures : Nat) (spectralOrder : Nat → operaSpectralOrder)
    (length : Nat) : BeamSlots :=
  (List.range NumberOfExposures).foldl (populateStep spectralOrder length)
    BeamSlots.unassigned

/-- One iteration of the disabled first variant of the loop (`#if 0`, "moved the
swap to the harness"): every input goes to its own slot. -/
def populateRawStep (spectralOrder : Nat → operaSpectralOrder) (length : Nat)
    (s : BeamSlots) (i : Nat) : BeamSlots :=
  { iE := s.iE.set i (some (copyBeam (spectralOrder i) 0 length)),
    iA := s.iA.set i (some (copyBeam (spectralOrder i) 1 length)) }

/-- The populating loop with the disabled first variant as its body: the beams
in raw acquisition order, without canonicalization. -/
def populateRaw (NumberOfExposures : Nat) (spectralOrder : Nat → operaSpectralOrder)
    (length : Nat) : BeamSlots :=
  (List.range NumberOfExposures).foldl (populateRawStep spectralOrder length)
    BeamSlots.unassigned

/-- The length of the base spectrum,
`spectralOrder[0]->getBeamElements(0)->getFluxVector()->getlength()`. -/
def baseLength (spectralOrder : Nat → operaSpectralOrder) : Nat :=
  ((spectralOrder 0).getBeamFluxVector 0).getlength

/-- The data-model invariant on the beams of one order: every flux vector of
the first `NumberOfExposures` exposures has as many fluxes and as many
variances as the base spectrum has elements. -/
def BeamsAligned (NumberOfExposures : Nat) (spectralOrder : Nat → operaSpectralOrder) :
    Prop :=
  ∀ i, i < NumberOfExposures → ∀ beam, beam < 2 →
    ((spectralOrder i).getBeamFluxVector beam).fluxes.length = baseLength spectralOrder ∧
    ((spectralOrder i).getBeamFluxVector beam).variances.length = baseLength spectralOrder

/-- The exposures with the labels of raw exposures 3 and 4 exchanged. -/
def relabel34 (spectralOrder : Nat → operaSpectralOrder) : Nat → operaSpectralOrder :=
  fun i => if i = 2 then spectralOrder 3 else if i = 3 then spectralOrder 2 else spectralOrder i

/-! ## The library routines that `main` calls -/

/-- A spectral order vector (`operaSpectralOrderVector`): the orders by order
number, and the range of orders the spectrum provides. -/
structure operaSpectralOrderVector where
  orders : Int → operaSpectralOrder
  Minorder : Int
  Maxorder : Int
deriving Inhabited

namespace operaSpectralOrderVector

/-- Accessor `GetSpectralOrder(order)`. -/
def GetSpectralOrder (v : operaSpectralOrderVector) (order : Int) : operaSpectralOrder :=
  v.orders order

/-- The vector with the order of number `order` replaced by `so`. -/
def setSpectralOrder (v : operaSpectralOrderVector) (order : Int) (so : operaSpectralOrder) :
    operaSpectralOrderVector :=
  { v with orders := fun o => if o = order then so else v.orders o }

end operaSpectralOrderVector

/-- The routines of the spectral library that `main` calls and whose code is
not among the sources. They are parameters of the model. The engine
`calculateStokesParameter` receives the two arrays `iE` and `iA`, the number of
exposures and the polarimetry record it is called on, and gives the record
back; `getFormattedMessage` is the text of an exception thrown at a given line
of `operaPolar.cpp`. -/
structure Library where
  readSpectralOrderVector : String → operaSpectralOrderVector
  ReadSpectralOrders : String → operaSpectralOrderVector → operaSpectralOrderVector
  correctFlatField : String → Int → Int → operaSpectralOrderVector → operaSpectralOrderVector
  setwavelengthsFromCalibration : operaWavelength → operaSpectralElements → operaSpectralElements
  divideSpectralElementsBySEDElements : operaSpectralOrder → operaSpectralOrder
  createPolarimetry : Nat → operaPolarimetry
  calculateStokesParameter :
    stokes_parameter_t → BeamSlots → Nat → operaPolarimetry → operaPolarimetry
  getFormattedMessage : Nat → String

/-! ## The order loop of `main` -/

/-- The options of a run that the order loop reads. -/
structure Config where
  NumberOfExposures : Nat
  method : method_t
  StokesParameter : stokes_parameter_t
  inputFlatFluxCalibration : String
  generate3DPlot : Bool
  verbose : Bool

/-- One cell of a line of the tabular data file: an integer or a real number.
The numbers are kept exact; their formatting (`fixed`, six decimals) is not
modelled. -/
inductive DataCell where
  | int (n : Int)
  | real (x : ℚ)
deriving DecidableEq, Repr

/-- One line of the tabular data file: the header comment, a row of
tab-separated cells, or an empty line. -/
inductive DataLine where
  | header
  | row (cells : List DataCell)
  | blank
deriving DecidableEq, Repr

/-- The variables of `main` that live across the iterations of the order loop:
the output vector, the input vectors, the per-exposure pointer slots
`spectralOrder[4]`, `spectralElements[4]` and `wavelength[4]` (a pointer is
modelled by the order number it points to inside the input vector of the same
index, `none` before the first assignment; the arrays are indexed by the
exposure), the two output streams and the data file (`none` when `fdata` is
`NULL`). -/
structure LoopState where
  outputorderVector : operaSpectralOrderVector
  spectralOrdervector : Nat → operaSpectralOrderVector
  spectralOrder : Nat → Option Int
  spectralElements : Nat → Option Int
  wavelength : Nat → Option Int
  cout : List String
  cerr : List String
  fdata : Option (List DataLine)

namespace LoopState

/-- Dereference of the pointer `spectralOrder[i]`. -/
def derefSpectralOrder (st : LoopState) (i : Nat) : operaSpectralOrder :=
  match st.spectralOrder i with
  | some o => (st.spectralOrdervector i).GetSpectralOrder o
  | none => default

/-- Dereference of the pointer `spectralElements[i]`. -/
def derefSpectralElements (st : LoopState) (i : Nat) : operaSpectralElements :=
  match st.spectralElements i with
  | some o => ((st.spectralOrdervector i).GetSpectralOrder o).SpectralElements
  | none => default

/-- Replace one order of the input vector of index `i`. -/
def setInputOrder (st : LoopState) (i : Nat) (order : Int) (so : operaSpectralOrder) :
    LoopState :=
  { st with spectralOrdervector := fun j =>
      if j = i then (st.spectralOrdervector i).setSpectralOrder order so
      else st.spectralOrdervector j }

end LoopState

/-- The line printed on `cout` at the start of an iteration when verbose. -/
def processingMessage (order : Int) : String :=
  "operaPolar: Processing order number: " ++ toString order

/-- The line printed on `cerr` when an order is skipped and verbose is on. -/
def skipMessage (order : Int) : String :=
  "operaPolar: NOT all input spectra have spectralElements, skipping order "
    ++ toString order ++ "."

/-- One iteration of the gathering loop over the exposures: the pointer
`spectralOrder[i]` is assigned; when the order has spectral elements the
pointer `spectralElements[i]` is assigned and the counter
`spectralElementsTest` incremented, and when it also has a wavelength solution
the pointer `wavelength[i]` is assigned and the wavelengths of the elements are
set from the calibration. -/
def gatherStep (L : Library) (order : Int) (acc : LoopState × Nat) (i : Nat) :
    LoopState × Nat :=
  let st1 := { acc.1 with spectralOrder := Function.update acc.1.spectralOrder i (some order) }
  let so := (st1.spectralOrdervector i).GetSpectralOrder order
  if so.hasSpectralElements then
    let st2 :=
      { st1 with spectralElements := Function.update st1.spectralElements i (some order) }
    if so.hasWavelength then
      let st3 := { st2 with wavelength := Function.update st2.wavelength i (some order) }
      (st3.setInputOrder i order
        { so with SpectralElements :=
            L.setwavelengthsFromCalibration so.Wavelength so.SpectralElements },
       acc.2 + 1)
    else (st2, acc.2 + 1)
  else (st1, acc.2)

/-- The gathering loop `for(unsigned i=0;i<NumberOfExposures;i++)`, started
with `spectralElementsTest = 0`. -/
def gather (L : Library) (NumberOfExposures : Nat) (order : Int) (st : LoopState) :
    LoopState × Nat :=
  (List.range NumberOfExposures).foldl (gatherStep L order) (st, 0)

/-- The loop that counts how often a number can be halved before it falls
below 2. `fuel` bounds the number of iterations. -/
def floorLog2Loop : Nat → Nat → Nat
  | 0, _ => 0
  | fuel + 1, n => if 2 ≤ n then floorLog2Loop fuel (n / 2) + 1 else 0

/-- The position of the leading binary digit of a number: the greatest `k` with
`2 ^ k ≤ n` (0 for `n = 0`). -/
def floorLog2 (n : Nat) : Nat := floorLog2Loop n n

/-- The value of type `double` that an arithmetic operation of exact result `x`
gives: `x` rounded to the nearest number with a significand of 53 binary
digits, a tie going to the even significand, with gradual underflow (the last
place is never below `2 ^ (-1074)`). This is the arithmetic of IEEE 754
binary64 in its default rounding mode, without excess precision. The overflow
to infinity is left out: the numbers of the model are finite, and the function
stands for the operations whose rounded result is below `2 ^ 1024` in
magnitude. With `p / q` the magnitude of `x` in lowest
terms, `l` is the position of its leading binary digit, `e` the exponent of the
last place kept, and `n` the magnitude divided by `2 ^ e`, rounded. -/
def roundToDouble (x : ℚ) : ℚ :=
  if x = 0 then 0
  else
    let p : Nat := x.num.natAbs
    let q : Nat := x.den
    let l0 : Int := (floorLog2 p : Int) - (floorLog2 q : Int)
    let l : Int := if p * 2 ^ floorLog2 q < q * 2 ^ floorLog2 p then l0 - 1 else l0
    let e : Int := max (l - 52) (-1074)
    let P : Nat := if e < 0 then p * 2 ^ (-e).toNat else p
    let Q : Nat := if e < 0 then q else q * 2 ^ e.toNat
    let f : Nat := P / Q
    let r : Nat := P % Q
    let n : Nat :=
      if 2 * r < Q then f
      else if Q < 2 * r then f + 1
      else if f % 2 = 0 then f
      else f + 1
    (if x.num < 0 then -1 else 1) * (n : ℚ) * (2 : ℚ) ^ e

/-- The value `outputXCorrelation` of one element: starting from 0, the loop
over the exposures adds `spectralElements[i]->getXCorrelation(indexElem)`
divided by `(double)NumberOfExposures`. The variable is a `double`: the
quotient and the sum are each rounded to a `double`. The conversion of
`NumberOfExposures`, an `unsigned`, is exact. -/
def outputXCorrelation (NumberOfExposures : Nat)
    (spectralElements : Nat → operaSpectralElements) (indexElem : Nat) : ℚ :=
  (List.range NumberOfExposures).foldl
    (fun acc i =>
      roundToDouble
        (acc + roundToDouble
          ((spectralElements i).getXCorrelation indexElem / (NumberOfExposures : ℚ))))
    0

/-- The loop over `indexElem < outputspectralElements->getnSpectralElements()`
that stores the cross-correlation of every element of the output order. -/
def updateXCorrelation (NumberOfExposures : Nat)
    (spectralElements : Nat → operaSpectralElements)
    (outputspectralElements : operaSpectralElements) : operaSpectralElements :=
  (List.range outputspectralElements.nSpectralElements).foldl
    (fun e indexElem =>
      e.setXCorrelation (outputXCorrelation NumberOfExposures spectralElements indexElem)
        indexElem)
    outputspectralElements

namespace BeamSlots

/-- The value `iE[i]->getflux(index)`. -/
def getfluxE (s : BeamSlots) (i index : Nat) : ℚ :=
  match s.iE.getD i none with
  | some v => v.getflux index
  | none => 0

/-- The value `iA[i]->getflux(index)`. -/
def getfluxA (s : BeamSlots) (i index : Nat) : ℚ :=
  match s.iA.getD i none with
  | some v => v.getflux index
  | none => 0

end BeamSlots

/-- One row of the data file: the flag (0, or 1 for the second block written
when `generate3DPlot` is on), the order number, distance, wavelength, Stokes I,
the flux of the requested Stokes parameter, the degree of polarization, the
first and the second null polarization, then `iE[i]` and `iA[i]` for every
`i < NumberOfExposures`. -/
def dataRow (flag : Int) (cfg : Config) (order : Int)
    (outputspectralElements : operaSpectralElements) (Polarimetry : operaPolarimetry)
    (slots : BeamSlots) (index : Nat) : DataLine :=
  DataLine.row
    ([DataCell.int flag, DataCell.int order,
      DataCell.real (outputspectralElements.getdistd index),
      DataCell.real (outputspectralElements.getwavelength index),
      DataCell.real ((Polarimetry.getStokesParameter stokes_parameter_t.StokesI).getflux index),
      DataCell.real ((Polarimetry.getStokesParameter cfg.StokesParameter).getflux index),
      DataCell.real ((Polarimetry.getDegreeOfPolarization cfg.StokesParameter).getflux index),
      DataCell.real ((Polarimetry.getFirstNullPolarization cfg.StokesParameter).getflux index),
      DataCell.real ((Polarimetry.getSecondNullPolarization cfg.StokesParameter).getflux index)]
     ++ (List.range cfg.NumberOfExposures).flatMap
          (fun i => [DataCell.real (slots.getfluxE i index),
                     DataCell.real (slots.getfluxA i index)]))

/-- The lines written to the data file for one processed order: the header,
one row per element, an empty line, the rows again with flag 1 when
`generate3DPlot` is on, and two empty lines. -/
def dataLines (cfg : Config) (order : Int)
    (outputspectralElements : operaSpectralElements) (Polarimetry : operaPolarimetry)
    (slots : BeamSlots) (length : Nat) : List DataLine :=
  [DataLine.header]
    ++ (List.range length).map
        (dataRow 0 cfg order outputspectralElements Polarimetry slots)
    ++ [DataLine.blank]
    ++ (if cfg.generate3DPlot then
          (List.range length).map
            (dataRow 1 cfg order outputspectralElements Polarimetry slots)
        else [])
    ++ [DataLine.blank, DataLine.blank]

/-- The pointers handed to `delete` by the closing loop
`for(unsigned i=0;i<NumberOfExposures;i++) { delete iE[i]; delete iA[i]; }`,
in the order of the calls. -/
def deletedVectors (NumberOfExposures : Nat) (slots : BeamSlots) :
    List (Option operaFluxVector) :=
  (List.range NumberOfExposures).flatMap (fun i => [slots.iE.getD i none, slots.iA.getD i none])

/-- The polarimetry record of a processed order: created with the length of the
base spectrum, given the method, and handed to the engine together with the
populated arrays `iE` and `iA`. -/
def computedPolarimetry (L : Library) (cfg : Config)
    (spectralOrder : Nat → operaSpectralOrder) : operaPolarimetry :=
  let length := baseLength spectralOrder
  L.calculateStokesParameter cfg.StokesParameter
    (populate cfg.NumberOfExposures spectralOrder length) cfg.NumberOfExposures
    ((L.createPolarimetry length).setmethod cfg.method)

/-- The output order `out0` as `main` leaves it when all exposures have spectral
elements: the energy distribution is divided out when a flat-field calibration
is given, the wavelengths are set from the calibration, the polarimetry record
is deleted and created anew, the cross-correlations are updated, the engine
fills the record and the order is flagged as having polarimetry. -/
def processedOutputOrder (L : Library) (cfg : Config)
    (spectralOrder : Nat → operaSpectralOrder)
    (spectralElements : Nat → operaSpectralElements) (out0 : operaSpectralOrder) :
    operaSpectralOrder :=
  let out1 :=
    if cfg.inputFlatFluxCalibration ≠ "" ∧ out0.hasSpectralEnergyDistribution = true then
      L.divideSpectralElementsBySEDElements out0
    else out0
  let out2 :=
    if out1.hasWavelength then
      { out1 with SpectralElements :=
          L.setwavelengthsFromCalibration out1.Wavelength out1.SpectralElements }
    else out1
  { out2 with
    SpectralElements :=
      updateXCorrelation cfg.NumberOfExposures spectralElements out2.SpectralElements
    Polarimetry := some (computedPolarimetry L cfg spectralOrder)
    hasPolarimetry := true }

/-- The lines appended to the data file for a processed order. -/
def processedDataLines (L : Library) (cfg : Config) (order : Int)
    (spectralOrder : Nat → operaSpectralOrder)
    (spectralElements : Nat → operaSpectralElements) (out0 : operaSpectralOrder) :
    List DataLine :=
  dataLines cfg order (processedOutputOrder L cfg spectralOrder spectralElements out0).SpectralElements
    (computedPolarimetry L cfg spectralOrder)
    (populate cfg.NumberOfExposures spectralOrder (baseLength spectralOrder))
    (baseLength spectralOrder)

/-- The branch `spectralElementsTest == NumberOfExposures` of the order loop:
the output order is replaced by the processed one and, when the data file is
open, the lines of the order are appended to it. The exposures are read through
the pointers `spectralOrder[i]` and `spectralElements[i]`. -/
def processOrder (L : Library) (cfg : Config) (order : Int) (st : LoopState) : LoopState :=
  let out0 := st.outputorderVector.GetSpectralOrder order
  { st with
    outputorderVector :=
      st.outputorderVector.setSpectralOrder order
        (processedOutputOrder L cfg st.derefSpectralOrder st.derefSpectralElements out0)
    fdata := st.fdata.map (fun lines =>
      lines ++ processedDataLines L cfg order st.derefSpectralOrder
        st.derefSpectralElements out0) }

/-- One iteration of the order loop. -/
def orderStep (L : Library) (cfg : Config) (st : LoopState) (order : Int) : LoopState :=
  let st0 := if cfg.verbose then { st with cout := st.cout ++ [processingMessage order] } else st
  let g := gather L cfg.NumberOfExposures order st0
  if g.2 = cfg.NumberOfExposures then
    processOrder L cfg order g.1
  else if cfg.verbose then
    { g.1 with cerr := g.1.cerr ++ [skipMessage order] }
  else g.1

/-- The values taken by `order` in `for (int order=minorder; order<=maxorder; order++)`.
Order numbers are unbounded integers here. -/
def orderRange (minorder maxorder : Int) : List Int :=
  (List.range (maxorder + 1 - minorder).toNat).map (fun (k : Nat) => minorder + (k : Int))

/-- The order loop run over a list of order numbers. -/
def runOrders (L : Library) (cfg : Config) (orders : List Int) (st : LoopState) : LoopState :=
  orders.foldl (orderStep L cfg) st

/-- The order loop of `main`. -/
def orderLoop (L : Library) (cfg : Config) (minorder maxorder : Int) (st : LoopState) :
    LoopState :=
  runOrders L cfg (orderRange minorder maxorder) st

/-! ## `main` -/

/-- The value of `ordernumber` when `--ordernumber` is not given. -/
def NOTPROVIDED : Int := -999

/-- Exit status of a successful run. -/
def EXIT_SUCCESS : Nat := 0

/-- Exit status of a failed run. -/
def EXIT_FAILURE : Nat := 1

namespace stokes_parameter_t

/-- The integer of a Stokes parameter: 0, 1, 2, 3 for I, Q, U, V. -/
def toInt : stokes_parameter_t → Int
  | StokesI => 0
  | StokesQ => 1
  | StokesU => 2
  | StokesV => 3

/-- The cast `(stokes_parameter_t)atoi(optarg)` of a value that passed the
Stokes parameter check. -/
def ofInt (n : Int) : stokes_parameter_t :=
  if n = 1 then StokesQ else if n = 2 then StokesU else if n = 3 then StokesV else StokesI

end stokes_parameter_t

namespace method_t

/-- The integer of a method: "Difference=1, Ratio, DifferenceWithBeamSwapped". -/
def toInt : method_t → Int
  | Difference => 1
  | Ratio => 2
  | DifferenceWithBeamSwapped => 3

/-- The cast `(method_t)atoi(optarg)` of a value that passed the method check. -/
def ofInt (n : Int) : method_t :=
  if n = 1 then Difference else if n = 3 then DifferenceWithBeamSwapped else Ratio

end method_t

/-- The variables of `main` set by the option loop, with their initial values. -/
structure Options where
  input : List String := ["", "", "", ""]
  outputfilename : String := ""
  inputWaveFile : String := ""
  inputFlatFluxCalibration : String := ""
  method : Int := 2
  StokesParameter : Int := 0
  NumberOfExposures : Nat := 4
  ordernumber : Int := NOTPROVIDED
  minorder : Int := 22
  minorderprovided : Bool := false
  maxorder : Int := 62
  maxorderprovided : Bool := false
  interactive : Bool := false
  plotfilename : String := ""
  datafilename : String := ""
  scriptfilename : String := ""
  generate3DPlot : Bool := false
  plotContinuum : Bool := false
  plot : Bool := false
  verbose : Bool := false
  debug : Bool := false
  trace : Bool := false

namespace Options

/-- The options read by the order loop, after the checks. -/
def toConfig (opts : Options) : Config :=
  { NumberOfExposures := opts.NumberOfExposures
    method := method_t.ofInt opts.method
    StokesParameter := stokes_parameter_t.ofInt opts.StokesParameter
    inputFlatFluxCalibration := opts.inputFlatFluxCalibration
    generate3DPlot := opts.generate3DPlot
    verbose := opts.verbose }

/-- The name `input[i]`. -/
def getInput (opts : Options) (i : Nat) : String := opts.input.getD i ""

end Options

/-- The four checks at the start of the `try` block; the result is the line of
the `throw` that fires, if one does. -/
def checkOptions (opts : Options) : Option Nat :=
  if opts.StokesParameter ≠ stokes_parameter_t.StokesQ.toInt
      ∧ opts.StokesParameter ≠ stokes_parameter_t.StokesU.toInt
      ∧ opts.StokesParameter ≠ stokes_parameter_t.StokesV.toInt then some 390
  else if opts.method ≠ method_t.Difference.toInt ∧ opts.method ≠ method_t.Ratio.toInt
      ∧ opts.method ≠ method_t.DifferenceWithBeamSwapped.toInt then some 394
  else if opts.NumberOfExposures ≠ 2 ∧ opts.NumberOfExposures ≠ 4 then some 398
  else if opts.outputfilename = "" then some 402
  else none

/-- The lines printed on `cout` before the spectra are read, when verbose. -/
def verboseBanner (opts : Options) : List String :=
  ["operaPolar: NumberOfExposures = " ++ toString opts.NumberOfExposures]
    ++ (List.range opts.NumberOfExposures).map
        (fun i => "operaPolar: input " ++ toString (i + 1) ++ " = " ++ opts.getInput i)
    ++ ["operaPolar: outputfilename = " ++ opts.outputfilename,
        "operaPolar: StokesParameter = " ++ opts.inputWaveFile,
        "operaPolar: StokesParameter = " ++ toString opts.StokesParameter,
        "operaPolar: method = " ++ toString opts.method,
        "operaPolar: inputFlatFluxCalibration = " ++ opts.inputFlatFluxCalibration]
    ++ (if opts.ordernumber ≠ NOTPROVIDED then
          ["operaPolar: ordernumber = " ++ toString opts.ordernumber]
        else [])
    ++ ["operaPolar: plotfilename = " ++ opts.plotfilename,
        "operaPolar: scriptfilename = " ++ opts.scriptfilename,
        if opts.interactive then "operaPolar: interactive = YES"
        else "operaPolar: interactive = NO"]

/-- The output vector: the base spectrum `input[0]`, completed with the
flat-field calibration and the wavelength calibration when they are given. -/
def loadOutputVector (L : Library) (opts : Options) : operaSpectralOrderVector :=
  let v0 := L.readSpectralOrderVector (opts.getInput 0)
  let v1 :=
    if opts.inputFlatFluxCalibration ≠ "" then
      L.ReadSpectralOrders opts.inputFlatFluxCalibration v0
    else v0
  if opts.inputWaveFile ≠ "" then L.ReadSpectralOrders opts.inputWaveFile v1 else v1

/-- The value of `minorder` when the order loop starts. -/
def effectiveMinorder (opts : Options) (outputorderVector : operaSpectralOrderVector) : Int :=
  if opts.ordernumber ≠ NOTPROVIDED then opts.ordernumber
  else if opts.minorderprovided then opts.minorder
  else outputorderVector.Minorder

/-- The value of `maxorder` when the order loop starts. -/
def effectiveMaxorder (opts : Options) (outputorderVector : operaSpectralOrderVector) : Int :=
  if opts.ordernumber ≠ NOTPROVIDED then opts.ordernumber
  else if opts.maxorderprovided then opts.maxorder
  else outputorderVector.Maxorder

/-- The line printed on `cerr` before the spectra of the exposures are read,
when verbose. -/
def orderLimitsMessage (minorder maxorder : Int) : String :=
  "operaPolar: minorder = " ++ toString minorder ++ " maxorder = " ++ toString maxorder

/-- The input vector of index `i`: the spectrum `input[i]`, completed with the
wavelength calibration and corrected for the flat field when they are given. -/
def loadInputVector (L : Library) (opts : Options) (minorder maxorder : Int) (i : Nat) :
    operaSpectralOrderVector :=
  let v0 := L.readSpectralOrderVector (opts.getInput i)
  let v1 := if opts.inputWaveFile ≠ "" then L.ReadSpectralOrders opts.inputWaveFile v0 else v0
  if opts.inputFlatFluxCalibration ≠ "" then
    L.correctFlatField opts.inputFlatFluxCalibration minorder maxorder v1
  else v1

/-- The index of the first empty name among `input[0..NumberOfExposures-1]`,
at which the loop that reads the exposures throws. -/
def firstEmptyInput (opts : Options) : Option Nat :=
  (List.range opts.NumberOfExposures).find? (fun i => opts.getInput i = "")

/-- The call of a plotting routine at the end of `main`. -/
inductive PlotCall where
  | GeneratePolarization3DPlot (scriptfilename plotfilename datafilename : String)
      (plotContinuum interactive : Bool) (StokesParameter : stokes_parameter_t)
  | GeneratePolarimetryPlot (scriptfilename plotfilename datafilename : String)
      (interactive : Bool) (minorder maxorder : Int) (StokesParameter : stokes_parameter_t)
deriving DecidableEq, Repr

/-- What a run of `main` leaves behind: the exit status, the line of the
`throw` that ended it (if any), the two output streams, the data file (`none`
when it was never opened), the vector handed to `WriteSpectralOrders` (`none`
when the output file was not written) and the plotting call. -/
structure Outcome where
  status : Nat
  thrownAt : Option Nat
  cout : List String
  cerr : List String
  dataFile : Option (List DataLine)
  written : Option operaSpectralOrderVector
  plotCall : Option PlotCall

/-- The state in which the order loop starts. -/
def initialLoopState (L : Library) (opts : Options) : LoopState :=
  let outputorderVector := loadOutputVector L opts
  let minorder := effectiveMinorder opts outputorderVector
  let maxorder := effectiveMaxorder opts outputorderVector
  { outputorderVector := outputorderVector
    spectralOrdervector := fun i =>
      if i < opts.NumberOfExposures then loadInputVector L opts minorder maxorder i
      else default
    spectralOrder := fun _ => none
    spectralElements := fun _ => none
    wavelength := fun _ => none
    cout := if opts.verbose then verboseBanner opts else []
    cerr := if opts.verbose then [orderLimitsMessage minorder maxorder] else []
    fdata := if opts.datafilename ≠ "" then some [] else none }

/-- The state in which the order loop ends. -/
def finalLoopState (L : Library) (opts : Options) : LoopState :=
  let st := initialLoopState L opts
  orderLoop L opts.toConfig (effectiveMinorder opts st.outputorderVector)
    (effectiveMaxorder opts st.outputorderVector) st

/-- The program `operaPolar`. A failed check ends the run before anything is
opened; an empty input name ends it after the data file was opened and the
base spectrum read; otherwise the order loop runs, the output is written and
the plot is generated when a data file and a script file are given. -/
def main (L : Library) (opts : Options) : Outcome :=
  match checkOptions opts with
  | some line =>
    { status := EXIT_FAILURE, thrownAt := some line, cout := []
      cerr := ["operaPolar: " ++ L.getFormattedMessage line]
      dataFile := none, written := none, plotCall := none }
  | none =>
    let st0 := initialLoopState L opts
    match firstEmptyInput opts with
    | some _ =>
      { status := EXIT_FAILURE, thrownAt := some 468, cout := st0.cout
        cerr := st0.cerr ++ ["operaPolar: " ++ L.getFormattedMessage 468]
        dataFile := st0.fdata, written := none, plotCall := none }
    | none =>
      let st := finalLoopState L opts
      { status := EXIT_SUCCESS, thrownAt := none, cout := st.cout, cerr := st.cerr
        dataFile := st.fdata
        written := some st.outputorderVector
        plotCall :=
          if opts.datafilename ≠ "" ∧ opts.scriptfilename ≠ "" then
            if opts.generate3DPlot then
              some (PlotCall.GeneratePolarization3DPlot opts.scriptfilename opts.plotfilename
                opts.datafilename opts.plotContinuum opts.interactive
                (stokes_parameter_t.ofInt opts.StokesParameter))
            else
              some (PlotCall.GeneratePolarimetryPlot opts.scriptfilename opts.plotfilename
                opts.datafilename opts.interactive
                (effectiveMinorder opts (loadOutputVector L opts))
                (effectiveMaxorder opts (loadOutputVector L opts))
                (stokes_parameter_t.ofInt opts.StokesParameter))
          else none }

/-! ## The polarimetry engine, from the documented formulas -/

namespace Engine

/-- Modelled from the spec: the engine `operaPolarimetry::calculateStokesParameter`
is not among the sources. `PairOfExposures = N / 2` (1 for N=2, 2 for N=4). -/
def PairOfExposures (N : Nat) : Nat := N / 2

/-- Modelled from the spec: the engine `operaPolarimetry::calculateStokesParameter`
is not among the sources. STEP 1 of the Difference method,
`Gn = (inE - inA)/(inE + inA)`. -/
def G (iE iA : ℚ) : ℚ := (iE - iA) / (iE + iA)

/-- Modelled from the spec: the engine `operaPolarimetry::calculateStokesParameter`
is not among the sources. STEP 1 of the Ratio method, `rn = inE / inA`. -/
def r (iE iA : ℚ) : ℚ := iE / iA

/-- Modelled from the spec: the engine `operaPolarimetry::calculateStokesParameter`
is not among the sources. The three spectra the engine computes for one
spectral element; the two null spectra exist only with four exposures. -/
structure ElementPolarization where
  degreeOfPolarization : ℚ
  firstNull : Option ℚ
  secondNull : Option ℚ
deriving DecidableEq, Repr

/-- Modelled from the spec: the engine `operaPolarimetry::calculateStokesParameter`
is not among the sources. STEPS 2 to 5 of the Difference method, from the four
quantities `Gn`: with four exposures `D1 = G1 - G2`, `D2 = G3 - G4`,
`D1s = G1 - G4`, `D2s = G3 - G2`, `P/I = (D1 + D2) / (2.0 * PairOfExposures)`,
`N1 = (D1 - D2) / (2.0 * PairOfExposures)` and
`N2 = (D1s - D2s) / (2.0 * PairOfExposures)`; with two exposures only
`D1 = G1 - G2` exists, `P/I = D1 / (2.0 * PairOfExposures)` and there is no null
spectrum. -/
def combineDifferences (N : Nat) (G1 G2 G3 G4 : ℚ) : ElementPolarization :=
  if N = 4 then
    let D1 := G1 - G2
    let D2 := G3 - G4
    let D1s := G1 - G4
    let D2s := G3 - G2
    { degreeOfPolarization := (D1 + D2) / (2 * (PairOfExposures N : ℚ))
      firstNull := some ((D1 - D2) / (2 * (PairOfExposures N : ℚ)))
      secondNull := some ((D1s - D2s) / (2 * (PairOfExposures N : ℚ))) }
  else
    let D1 := G1 - G2
    { degreeOfPolarization := D1 / (2 * (PairOfExposures N : ℚ))
      firstNull := none
      secondNull := none }

/-- Modelled from the spec: the engine `operaPolarimetry::calculateStokesParameter`
is not among the sources. The Difference method for one spectral element;
`iE n` and `iA n` are the fluxes of the two beams of the exposure in slot `n` of
the arrays handed to the engine (slot 0 is exposure #1). -/
def difference (N : Nat) (iE iA : Nat → ℚ) : ElementPolarization :=
  combineDifferences N (G (iE 0) (iA 0)) (G (iE 1) (iA 1)) (G (iE 2) (iA 2)) (G (iE 3) (iA 3))

/-- Modelled from the spec: the engine `operaPolarimetry::calculateStokesParameter`
is not among the sources. The Difference method with beam swapped for one
spectral element: `G1 = (i1E - i2E)/(i1E + i2E)`, `G2 = (i1A - i2A)/(i1A + i2A)`,
`G3 = (i3E - i4E)/(i3E + i4E)`, `G4 = (i3A - i4A)/(i3A + i4A)`, then the steps of
the Difference method. -/
def differenceWithBeamSwapped (N : Nat) (iE iA : Nat → ℚ) : ElementPolarization :=
  combineDifferences N (G (iE 0) (iE 1)) (G (iA 0) (iA 1)) (G (iE 2) (iE 3)) (G (iA 2) (iA 3))

/-- Modelled from the spec: the engine `operaPolarimetry::calculateStokesParameter`
is not among the sources. The Ratio method for one spectral element; `Pow` is
the power function of the C library. With four exposures `R1 = r1 / r2`,
`R2 = r3 / r4`, `R1s = r1 / r4`, `R2s = r3 / r2`,
`R = Pow(R1 * R2, 1.0/(2.0 * PairOfExposures))`, `P/I = (R - 1.0) / (R + 1.0)`,
`RN1 = Pow(R1 / R2, 1.0/(2.0 * PairOfExposures))`, `N1 = (RN1 - 1.0) / (RN1 + 1.0)`,
`RN2 = Pow(R1s / R2s, 1.0/(2.0 * PairOfExposures))`, `N2 = (RN2 - 1.0) / (RN2 + 1.0)`;
with two exposures only `R1` exists, `R = Pow(R1, 1.0/(2.0 * PairOfExposures))`
and there is no null spectrum. -/
def ratio (Pow : ℚ → ℚ → ℚ) (N : Nat) (iE iA : Nat → ℚ) : ElementPolarization :=
  let r1 := r (iE 0) (iA 0)
  let r2 := r (iE 1) (iA 1)
  if N = 4 then
    let r3 := r (iE 2) (iA 2)
    let r4 := r (iE 3) (iA 3)
    let R1 := r1 / r2
    let R2 := r3 / r4
    let R1s := r1 / r4
    let R2s := r3 / r2
    let R := Pow (R1 * R2) (1 / (2 * (PairOfExposures N : ℚ)))
    let RN1 := Pow (R1 / R2) (1 / (2 * (PairOfExposures N : ℚ)))
    let RN2 := Pow (R1s / R2s) (1 / (2 * (PairOfExposures N : ℚ)))
    { degreeOfPolarization := (R - 1) / (R + 1)
      firstNull := some ((RN1 - 1) / (RN1 + 1))
      secondNull := some ((RN2 - 1) / (RN2 + 1)) }
  else
    let R1 := r1 / r2
    let R := Pow R1 (1 / (2 * (PairOfExposures N : ℚ)))
    { degreeOfPolarization := (R - 1) / (R + 1)
      firstNull := none
      secondNull := none }

/-- Modelled from the spec: the engine `operaPolarimetry::calculateStokesParameter`
is not among the sources. The spectra of one spectral element under the
selected method. -/
def element (Pow : ℚ → ℚ → ℚ) (method : method_t) (N : Nat) (iE iA : Nat → ℚ) :
    ElementPolarization :=
  match method with
  | method_t.Difference => difference N iE iA
  | method_t.Ratio => ratio Pow N iE iA
  | method_t.DifferenceWithBeamSwapped => differenceWithBeamSwapped N iE iA

/-- Modelled from the spec: the engine `operaPolarimetry::calculateStokesParameter`
is not among the sources. Stokes I of one spectral element: the mean over the
exposures of the beam sums `inE + inA`. -/
def stokesI (N : Nat) (iE iA : Nat → ℚ) : ℚ :=
  ((List.range N).map (fun n => iE n + iA n)).sum / (N : ℚ)

/-- Modelled from the spec: the engine `operaPolarimetry::calculateStokesParameter`
is not among the sources. The spectra of the element `index` of the arrays
handed to the engine. -/
def elementAt (Pow : ℚ → ℚ → ℚ) (method : method_t) (N : Nat) (slots : BeamSlots)
    (index : Nat) : ElementPolarization :=
  element Pow method N (fun n => slots.getfluxE n index) (fun n => slots.getfluxA n index)

/-- Modelled from the spec: the engine `operaPolarimetry::calculateStokesParameter`
is not among the sources. A flux vector with its fluxes replaced, element
by element, by `f`. -/
def fillFluxes (v : operaFluxVector) (f : Nat → ℚ) : operaFluxVector :=
  { v with fluxes := (List.range v.getlength).map f }

/-- Modelled from the spec: the engine `operaPolarimetry::calculateStokesParameter`
is not among the sources. A flux vector with its fluxes replaced by `f`
where `f` is defined; when `f` is defined nowhere the vector is the same. -/
def fillFluxesWhenDefined (v : operaFluxVector) (f : Nat → Option ℚ) : operaFluxVector :=
  { v with fluxes := (List.range v.getlength).map (fun k => (f k).getD (v.getflux k)) }

/-- Modelled from the spec: the engine `operaPolarimetry::calculateStokesParameter`
is not among the sources. For every element of the record, independently of
the other elements, the engine stores Stokes I, the degree of polarization of
the requested parameter under the method of the record and, when they exist,
the two null spectra; with two exposures it does not write the null spectra.
The spec gives no formula for the flux of the requested Stokes parameter nor
for the variances: they are left as they are. -/
def calculateStokesParameter (Pow : ℚ → ℚ → ℚ) (StokesParameter : stokes_parameter_t)
    (slots : BeamSlots) (N : Nat) (P : operaPolarimetry) : operaPolarimetry :=
  { P with
    stokesVector :=
      P.stokesVector.set stokes_parameter_t.StokesI
        (fillFluxes (P.stokesVector.get stokes_parameter_t.StokesI)
          (fun k => stokesI N (fun n => slots.getfluxE n k) (fun n => slots.getfluxA n k)))
    degreeOfPolarization :=
      P.degreeOfPolarization.set StokesParameter
        (fillFluxes (P.degreeOfPolarization.get StokesParameter)
          (fun k => (elementAt Pow P.method N slots k).degreeOfPolarization))
    firstNullPolarization :=
      P.firstNullPolarization.set StokesParameter
        (fillFluxesWhenDefined (P.firstNullPolarization.get StokesParameter)
          (fun k => (elementAt Pow P.method N slots k).firstNull))
    secondNullPolarization :=
      P.secondNullPolarization.set StokesParameter
        (fillFluxesWhenDefined (P.secondNullPolarization.get StokesParameter)
          (fun k => (elementAt Pow P.method N slots k).secondNull)) }

/-- Modelled from the spec: the routine `operaSpectralOrder::createPolarimetry`
is not among the sources. A fresh polarimetry record: every vector has
`length` elements; the value `fill` the elements hold is a parameter. -/
def createPolarimetry (fill : ℚ) (length : Nat) : operaPolarimetry :=
  { method := method_t.Ratio
    stokesVector := operaStokesVector.create length fill
    degreeOfPolarization := operaStokesVector.create length fill
    firstNullPolarization := operaStokesVector.create length fill
    secondNullPolarization := operaStokesVector.create length fill }

/-- Modelled from the spec: the engine `operaPolarimetry::calculateStokesParameter`
is not among the sources. A library whose engine and record creation are
the modelled ones, the other routines being those of `L`. -/
def withEngine (L : Library) (Pow : ℚ → ℚ → ℚ) (fill : ℚ) : Library :=
  { L with
    createPolarimetry := createPolarimetry fill
    calculateStokesParameter := calculateStokesParameter Pow }

end Engine

/-! ## Definitions used to state the properties -/

/-- The populated arrays read back as exposures: exposure `i` gets the vectors
of slot `i` as its two beams (an unassigned slot leaves the beam of `base i`). -/
def slotsAsExposures (s : BeamSlots) (base : Nat → operaSpectralOrder) :
    Nat → operaSpectralOrder :=
  fun i =>
    { base i with
      BeamE := (s.iE.getD i none).getD (base i).BeamE
      BeamA := (s.iA.getD i none).getD (base i).BeamA }

/-- An exposure of one order with the given beams, with spectral elements and
without wavelength solution. -/
def exposureOfBeams (E A : operaFluxVector) : operaSpectralOrder :=
  { hasSpectralElements := true
    hasWavelength := false
    hasSpectralEnergyDistribution := false
    hasPolarimetry := false
    SpectralElements :=
      { nSpectralElements := E.getlength
        XCorrelation := List.replicate E.getlength 0
        distd := List.replicate E.getlength 0
        wavelength := List.replicate E.getlength 0 }
    Wavelength := { coefficients := [] }
    BeamE := E
    BeamA := A
    Polarimetry := none }

/-- An exposure with a single spectral element, of fluxes `E` and `A` and
variance zero. -/
def singleElementExposure (E A : ℚ) : operaSpectralOrder :=
  exposureOfBeams { fluxes := [E], variances := [0] } { fluxes := [A], variances := [0] }

/-- The four exposures of the end-to-end scenario, in raw acquisition order:
one spectral element each, E = 110, 90, 95, 105 and A = 90, 110, 105, 95. -/
def scenarioExposures : Nat → operaSpectralOrder
  | 0 => singleElementExposure 110 90
  | 1 => singleElementExposure 90 110
  | 2 => singleElementExposure 95 105
  | _ => singleElementExposure 105 95

/-- The options of the end-to-end scenario: four exposures, Difference method,
Stokes Q. -/
def scenarioConfig : Config :=
  { NumberOfExposures := 4
    method := method_t.Difference
    StokesParameter := stokes_parameter_t.StokesQ
    inputFlatFluxCalibration := ""
    generate3DPlot := false
    verbose := false }

/-- Two values agree to the tolerance `tol`. -/
def agreesTo (tol x y : ℚ) : Prop := |x - y| ≤ tol

/-- A computable stand-in for the power function, used to evaluate examples:
the square root for the exponent 1/2 and the fourth root for the exponent 1/4,
exact whenever the root is rational. -/
def rootPow (x y : ℚ) : ℚ :=
  if y = 1 / 2 then Rat.sqrt x
  else if y = 1 / 4 then Rat.sqrt (Rat.sqrt x)
  else x

/-- An order of an exposure without spectral elements. -/
def missingExposure : operaSpectralOrder :=
  { singleElementExposure 0 0 with hasSpectralElements := false }

/-- The spectra of the examples, by file name: the files `1.e` to `4.e` hold
the four exposures of the end-to-end scenario in every order, except that the
order 30 of `3.e` has no spectral elements; the spectra provide the orders 30
and 31. -/
def exampleSpectrum (name : String) : operaSpectralOrderVector :=
  { orders := fun o =>
      if name = "3.e" ∧ o = 30 then missingExposure
      else if name = "1.e" then scenarioExposures 0
      else if name = "2.e" then scenarioExposures 1
      else if name = "3.e" then scenarioExposures 2
      else scenarioExposures 3
    Minorder := 30
    Maxorder := 31 }

/-- A library for the examples: the files are those of `exampleSpectrum`, the
calibration routines change nothing, and the engine is the one modelled from
the documented formulas, with fresh records filled with zeros. -/
def exampleLibrary : Library :=
  { readSpectralOrderVector := exampleSpectrum
    ReadSpectralOrders := fun _ v => v
    correctFlatField := fun _ _ _ v => v
    setwavelengthsFromCalibration := fun _ e => e
    divideSpectralElementsBySEDElements := fun so => so
    createPolarimetry := Engine.createPolarimetry 0
    calculateStokesParameter := Engine.calculateStokesParameter rootPow
    getFormattedMessage := fun _ => "" }

/-- The quantity `Gn = (inE - inA)/(inE + inA)` of the exposure in slot `n` of
the arrays, for the element `index`, written out. -/
def slotG (slots : BeamSlots) (n index : Nat) : ℚ :=
  (slots.getfluxE n index - slots.getfluxA n index)
    / (slots.getfluxE n index + slots.getfluxA n index)

/-- Four exposures of one element in which both beams hold the same flux. -/
def equalBeamsExposures : Nat → operaSpectralOrder :=
  fun _ => singleElementExposure 100 100

/-- The three spectra of an element all zero. -/
def zeroPolarization : Engine.ElementPolarization :=
  { degreeOfPolarization := 0, firstNull := some 0, secondNull := some 0 }

/-- An order of an input vector as the gathering loop leaves it: the
wavelengths of its elements are set from the calibration when it has spectral
elements and a wavelength solution. -/
def gatheredOrder (L : Library) (so : operaSpectralOrder) : operaSpectralOrder :=
  if so.hasSpectralElements = true ∧ so.hasWavelength = true then
    { so with SpectralElements :=
        L.setwavelengthsFromCalibration so.Wavelength so.SpectralElements }
  else so

/-- The number of exposures, among the first `N` inputs, whose order `order`
has spectral elements. -/
def exposuresWithElements (st : LoopState) (N : Nat) (order : Int) : Nat :=
  (List.range N).countP
    (fun i => ((st.spectralOrdervector i).GetSpectralOrder order).hasSpectralElements)

/-- The exposures of one order as the gathering loop leaves them. -/
def gatheredExposure (L : Library) (st : LoopState) (order : Int) : Nat → operaSpectralOrder :=
  fun i => gatheredOrder L ((st.spectralOrdervector i).orders order)

/-- The output order of `order` after an iteration that processes it. -/
def processedOrderOf (L : Library) (cfg : Config) (st : LoopState) (order : Int) :
    operaSpectralOrder :=
  processedOutputOrder L cfg (gatheredExposure L st order)
    (fun i => (gatheredExposure L st order i).SpectralElements)
    (st.outputorderVector.GetSpectralOrder order)

/-- The lines of the data file of `order` written by an iteration that
processes it. -/
def dataLinesOf (L : Library) (cfg : Config) (st : LoopState) (order : Int) : List DataLine :=
  processedDataLines L cfg order (gatheredExposure L st order)
    (fun i => (gatheredExposure L st order i).SpectralElements)
    (st.outputorderVector.GetSpectralOrder order)

/-- The orders of a list that are skipped when the loop starts from `st`: those
that not all of the first `N` exposures have. -/
def incompleteOrders (st : LoopState) (N : Nat) (orders : List Int) : List Int :=
  orders.filter (fun o => decide (exposuresWithElements st N o ≠ N))

/-- Two loop states that agree on the output vector, on the data file and on
every order of the input vectors other than `k`. -/
def AgreeOffOrder (k : Int) (s1 s2 : LoopState) : Prop :=
  s1.outputorderVector = s2.outputorderVector
  ∧ s1.fdata = s2.fdata
  ∧ ∀ i o, o ≠ k → (s1.spectralOrdervector i).orders o = (s2.spectralOrdervector i).orders o

/-- The orders visited by the order loop of a run, in the order of the visits. -/
def visitedOrders (L : Library) (opts : Options) : List Int :=
  orderRange (effectiveMinorder opts (loadOutputVector L opts))
    (effectiveMaxorder opts (loadOutputVector L opts))

/-- A list of orders with the order `k` left out. -/
def withoutOrder (k : Int) (orders : List Int) : List Int :=
  orders.filter (fun o => decide (o ≠ k))

/-- The options of the example run: the four exposures `1.e` to `4.e`, Stokes Q,
Difference method, a data file, verbose off. -/
def exampleOptions : Options :=
  { input := ["1.e", "2.e", "3.e", "4.e"]
    outputfilename := "o.txt"
    StokesParameter := 1
    method := 1
    NumberOfExposures := 4
    datafilename := "data.dat" }

/-- The example run with verbose on. -/
def verboseOptions : Options := { exampleOptions with verbose := true }

/-- The options of the two-exposure example run: the exposures `1.e` and `2.e`,
Stokes Q, Difference method, the single order 31, a data file. -/
def twoExposureOptions : Options :=
  { input := ["1.e", "2.e", "", ""]
    outputfilename := "o.txt"
    StokesParameter := 1
    method := 1
    NumberOfExposures := 2
    ordernumber := 31
    datafilename := "data.dat" }

/-- Two pairs of arrays that hold the same vectors in their first two slots. -/
def AgreeOnFirstTwoSlots (s s' : BeamSlots) : Prop :=
  s'.iE.getD 0 none = s.iE.getD 0 none ∧ s'.iA.getD 0 none = s.iA.getD 0 none
  ∧ s'.iE.getD 1 none = s.iE.getD 1 none ∧ s'.iA.getD 1 none = s.iA.getD 1 none

/-- The output order after the calibration steps that precede the creation of
the polarimetry record: the energy distribution is divided out when a
flat-field calibration is given, and the wavelengths are set from the
calibration when the order has a wavelength solution. -/
def calibratedOutputOrder (L : Library) (cfg : Config) (out0 : operaSpectralOrder) :
    operaSpectralOrder :=
  let out1 :=
    if cfg.inputFlatFluxCalibration ≠ "" ∧ out0.hasSpectralEnergyDistribution = true then
      L.divideSpectralElementsBySEDElements out0
    else out0
  if out1.hasWavelength then
    { out1 with SpectralElements :=
        L.setwavelengthsFromCalibration out1.Wavelength out1.SpectralElements }
  else out1

/-- The exposures listed in another order: exposure `i` of the new list is
exposure `σ i` of the old one. -/
def reorderExposures (σ : Nat → Nat) (e : Nat → operaSpectralElements) :
    Nat → operaSpectralElements :=
  fun i => e (σ i)

/-- A file opened by `main`: `read` for a spectrum or a calibration file that
the library is asked to read, `create` for a file opened for writing, which
creates it or truncates it. -/
inductive FileAccess where
  | read (name : String)
  | create (name : String)
deriving DecidableEq, Repr

/-- The files read in one iteration of the loop that creates the input
vectors: the spectrum `input[i]`, then the wavelength calibration and the
flat-field calibration when they are given. -/
def inputAccesses (opts : Options) (i : Nat) : List FileAccess :=
  [FileAccess.read (opts.getInput i)]
    ++ (if opts.inputWaveFile ≠ "" then [FileAccess.read opts.inputWaveFile] else [])
    ++ (if opts.inputFlatFluxCalibration ≠ "" then
          [FileAccess.read opts.inputFlatFluxCalibration] else [])

/-- The files `main` opens, in program order. A failed check opens nothing. The
data file is opened right after the checks; then the base spectrum and the
calibrations are read for the output vector; then the exposures are read up to
the first empty name, where the run ends; only after the order loop is the
output spectrum written and the plotting script created. (The plot that the
external plotting program may write is not listed.) -/
def fileAccesses (opts : Options) : List FileAccess :=
  match checkOptions opts with
  | some _ => []
  | none =>
    (if opts.datafilename ≠ "" then [FileAccess.create opts.datafilename] else [])
      ++ [FileAccess.read (opts.getInput 0)]
      ++ (if opts.inputFlatFluxCalibration ≠ "" then
            [FileAccess.read opts.inputFlatFluxCalibration] else [])
      ++ (if opts.inputWaveFile ≠ "" then [FileAccess.read opts.inputWaveFile] else [])
      ++ (match firstEmptyInput opts with
          | some i => (List.range i).flatMap (inputAccesses opts)
          | none =>
            (List.range opts.NumberOfExposures).flatMap (inputAccesses opts)
              ++ [FileAccess.create opts.outputfilename]
              ++ (if opts.datafilename ≠ "" ∧ opts.scriptfilename ≠ "" then
                    [FileAccess.create opts.scriptfilename] else []))

/-- What a run that fails one of the four checks leaves behind: a failure
status, the message of the exception on the error stream, and nothing else. -/
def checkFailure (L : Library) (line : Nat) : Outcome :=
  { status := EXIT_FAILURE, thrownAt := some line, cout := []
    cerr := ["operaPolar: " ++ L.getFormattedMessage line]
    dataFile := none, written := none, plotCall := none }

/-- The requested Stokes parameter is Q, U or V. -/
def StokesParameterValid (opts : Options) : Prop :=
  opts.StokesParameter = stokes_parameter_t.StokesQ.toInt
    ∨ opts.StokesParameter = stokes_parameter_t.StokesU.toInt
    ∨ opts.StokesParameter = stokes_parameter_t.StokesV.toInt

/-- The method is Difference, Ratio or DifferenceWithBeamSwapped. -/
def MethodValid (opts : Options) : Prop :=
  opts.method = method_t.Difference.toInt
    ∨ opts.method = method_t.Ratio.toInt
    ∨ opts.method = method_t.DifferenceWithBeamSwapped.toInt

instance (opts : Options) : Decidable (StokesParameterValid opts) := by
  unfold StokesParameterValid
  infer_instance

instance (opts : Options) : Decidable (MethodValid opts) := by
  unfold MethodValid
  infer_instance

/-- The options when no option is given on the command line. -/
def defaultOptions : Options := {}

/-- The example run with a method that does not exist. -/
def badMethodOptions : Options := { exampleOptions with method := 7 }

/-- The example run with the name of the third exposure left empty. -/
def emptyInputOptions : Options :=
  { exampleOptions with input := ["1.e", "2.e", "", "4.e"] }

/-- The example run with six exposures requested. -/
def sixExposureOptions : Options := { exampleOptions with NumberOfExposures := 6 }

/-- The stages of the processing of one order. -/
inductive OrderPhase where
  | Pending
  | DataGathered
  | Canonicalized
  | Computed
  | Stored
  | Skipped
deriving DecidableEq, Repr

/-- The place of a stage in the processing of an order. -/
def OrderPhase.rank : OrderPhase → Nat
  | Pending => 0
  | DataGathered => 1
  | Canonicalized => 2
  | Computed => 3
  | Stored => 4
  | Skipped => 4

/-- An iteration of the order loop in progress: the stage reached, the
variables of `main`, and the arrays `iE` and `iA` of the iteration. -/
structure OrderMachine where
  phase : OrderPhase
  st : LoopState
  slots : BeamSlots

/-- The start of an iteration. -/
def OrderMachine.start (st : LoopState) : OrderMachine :=
  { phase := OrderPhase.Pending, st := st, slots := BeamSlots.unassigned }

/-- One stage of the body of the order loop, in the order of the statements.
From `Pending`: the verbose line and the gathering loop, then the test
`spectralElementsTest == NumberOfExposures`, whose else branch ends the
iteration. From `DataGathered`: the output order is calibrated, its polarimetry
record deleted and created, the cross-correlations updated and the arrays `iE`
and `iA` populated. From `Canonicalized`: the method is set and the engine
fills the record. From `Computed`: the order is flagged as having polarimetry
and its lines are written to the data file. `Stored` and `Skipped` end the
iteration. -/
def phaseStep (L : Library) (cfg : Config) (order : Int) (m : OrderMachine) :
    Option OrderMachine :=
  match m.phase with
  | OrderPhase.Pending =>
    let st0 :=
      if cfg.verbose then { m.st with cout := m.st.cout ++ [processingMessage order] }
      else m.st
    let g := gather L cfg.NumberOfExposures order st0
    if g.2 = cfg.NumberOfExposures then
      some { phase := OrderPhase.DataGathered, st := g.1, slots := m.slots }
    else if cfg.verbose then
      some { phase := OrderPhase.Skipped
             st := { g.1 with cerr := g.1.cerr ++ [skipMessage order] }
             slots := m.slots }
    else some { phase := OrderPhase.Skipped, st := g.1, slots := m.slots }
  | OrderPhase.DataGathered =>
    let length := baseLength m.st.derefSpectralOrder
    let out := calibratedOutputOrder L cfg (m.st.outputorderVector.GetSpectralOrder order)
    some
      { phase := OrderPhase.Canonicalized
        st := { m.st with
          outputorderVector :=
            m.st.outputorderVector.setSpectralOrder order
              { out with
                Polarimetry := some (L.createPolarimetry length)
                SpectralElements :=
                  updateXCorrelation cfg.NumberOfExposures m.st.derefSpectralElements
                    out.SpectralElements } }
        slots := populate cfg.NumberOfExposures m.st.derefSpectralOrder length }
  | OrderPhase.Canonicalized =>
    let out := m.st.outputorderVector.GetSpectralOrder order
    some
      { phase := OrderPhase.Computed
        st := { m.st with
          outputorderVector :=
            m.st.outputorderVector.setSpectralOrder order
              { out with
                Polarimetry :=
                  some (L.calculateStokesParameter cfg.StokesParameter m.slots
                    cfg.NumberOfExposures
                    ((out.Polarimetry.getD default).setmethod cfg.method)) } }
        slots := m.slots }
  | OrderPhase.Computed =>
    let out := { m.st.outputorderVector.GetSpectralOrder order with hasPolarimetry := true }
    some
      { phase := OrderPhase.Stored
        st := { m.st with
          outputorderVector := m.st.outputorderVector.setSpectralOrder order out
          fdata := m.st.fdata.map (fun lines =>
            lines ++ dataLines cfg order out.SpectralElements (out.Polarimetry.getD default)
              m.slots (baseLength m.st.derefSpectralOrder)) }
        slots := m.slots }
  | OrderPhase.Stored => none
  | OrderPhase.Skipped => none

/-- The iteration run for at most `fuel` stages. -/
def runPhases (L : Library) (cfg : Config) (order : Int) : Nat → OrderMachine → OrderMachine
  | 0, m => m
  | fuel + 1, m =>
    match phaseStep L cfg order m with
    | none => m
    | some m' => runPhases L cfg order fuel m'

/-- The stages gone through by the iteration run for at most `fuel` stages,
the starting stage first. -/
def phaseTrace (L : Library) (cfg : Config) (order : Int) : Nat → OrderMachine → List OrderPhase
  | 0, m => [m.phase]
  | fuel + 1, m =>
    match phaseStep L cfg order m with
    | none => [m.phase]
    | some m' => m.phase :: phaseTrace L cfg order fuel m'

/-- The arrays `iE` and `iA` that an iteration on `order` started in `st`
populates: the exposures are read through the pointers `spectralOrder[i]` as the
gathering loop of that iteration leaves them. -/
def iterationBeams (L : Library) (cfg : Config) (st : LoopState) (order : Int) : BeamSlots :=
  populate cfg.NumberOfExposures
    (gather L cfg.NumberOfExposures order st).1.derefSpectralOrder
    (baseLength (gather L cfg.NumberOfExposures order st).1.derefSpectralOrder)

/-- The cross-correlation value that an iteration on `order` started in `st`
computes for the element `indexElem`: the elements are read through the
pointers `spectralElements[i]` as the gathering loop of that iteration leaves
them. -/
def iterationXCorrelation (L : Library) (cfg : Config) (st : LoopState) (order : Int)
    (indexElem : Nat) : ℚ :=
  outputXCorrelation cfg.NumberOfExposures
    (gather L cfg.NumberOfExposures order st).1.derefSpectralElements indexElem

/-- The start of the example run with every pointer slot left pointing at
order 30, as an earlier iteration would leave them. -/
def staleSlotsState : LoopState :=
  { initialLoopState exampleLibrary exampleOptions with
    spectralOrder := fun _ => some 30
    spectralElements := fun _ => some 30
    wavelength := fun _ => some 30 }

/-! ## The parameter table tool (`operaParameterAccess.cpp`)

Strings (`std::string`) are lists of characters. The table is the global
`map<string, string> table`, passed explicitly: a `std::map` keeps one entry per
key and iterates in ascending key order, so it is the list of its entries in
that order. -/

namespace ParameterAccess

/-- The member `std::string::find(pat)`: the position of the first occurrence of
`pat`, `none` for `string::npos`. -/
def find (pat : List Char) : List Char → Option Nat
  | [] => if pat = [] then some 0 else none
  | c :: rest =>
    if pat.isPrefixOf (c :: rest) = true then some 0
    else (find pat rest).map (· + 1)

/-- The loop of `strip`: as long as `stringIn.find(whitespace)` finds a
position, the character there is erased. `fuel` bounds the number of
iterations. -/
def stripLoop (whitespace : Char) : Nat → List Char → List Char
  | 0, stringIn => stringIn
  | fuel + 1, stringIn =>
    match find [whitespace] stringIn with
    | some pos => stripLoop whitespace fuel (stringIn.eraseIdx pos)
    | none => stringIn

/-- The function `strip`: every iteration erases one character, so the loop ends
within `stringIn.length` iterations. -/
def strip (stringIn : List Char) (whitespace : Char) : List Char :=
  stripLoop whitespace stringIn.length stringIn

/-- The function `stripleft`: as long as `stringIn[0] == whitespace` the first
character is erased. On the empty string `stringIn[0]` is the terminating null
character, which differs from the space and the tab the function is called
with. -/
def stripleft : List Char → Char → List Char
  | [], _ => []
  | c :: rest, whitespace =>
    if c = whitespace then stripleft rest whitespace else c :: rest

/-- The order of the keys of the table, `std::less<std::string>`: the
lexicographic order of the characters. -/
def keyLess : List Char → List Char → Bool
  | [], [] => false
  | [], _ :: _ => true
  | _ :: _, [] => false
  | a :: as, b :: bs => if a < b then true else if a = b then keyLess as bs else false

/-- The first value stored under `var` in a list of entries. -/
def lookup (var : List Char) : List (List Char × List Char) → Option (List Char)
  | [] => none
  | e :: rest => if e.1 = var then some e.2 else lookup var rest

/-- Insertion of an entry into a list of entries in key order: before the first
entry with a greater key; nothing is inserted when an entry with the same key is
met. -/
def insertEntry (e : List Char × List Char) :
    List (List Char × List Char) → List (List Char × List Char)
  | [] => [e]
  | x :: rest =>
    if keyLess e.1 x.1 = true then e :: x :: rest
    else if e.1 = x.1 then x :: rest
    else x :: insertEntry e rest

/-- The table `map<string, string>`: its entries in iteration order. -/
structure Table where
  entries : List (List Char × List Char)
deriving DecidableEq

namespace Table

/-- The table after `table.clear()`. -/
def clear : Table := ⟨[]⟩

/-- The member `table.find(var)`: the value of the entry found (`it->second`),
`none` for `table.end()`. -/
def find (table : Table) (var : List Char) : Option (List Char) :=
  lookup var table.entries

/-- The member `table.count(var)`. -/
def count (table : Table) (var : List Char) : Nat :=
  table.entries.countP (fun e => decide (e.1 = var))

/-- The call `table.erase(it)` for `it = table.find(var)`. -/
def erase (table : Table) (var : List Char) : Table :=
  ⟨table.entries.filter (fun e => decide (e.1 ≠ var))⟩

/-- The call `table.insert(hint, pair)`: the pair is put at its place in key
order unless the key is present already. -/
def insert (table : Table) (e : List Char × List Char) : Table :=
  ⟨insertEntry e table.entries⟩

/-- The invariant of a `std::map`: the keys of the entries ascend strictly. -/
def Ordered (table : Table) : Prop :=
  table.entries.Pairwise (fun a b => keyLess a.1 b.1 = true)

end Table

/-- The statements `pos = it->second.find(value); value =
it->second.substr(pos, pos+value.size()+1);` of the `-=` branch of `tableAdd`:
the string they leave in `value`, `none` when `substr` throws
`std::out_of_range` because the value does not occur (`pos` is
`string::npos`). -/
def removalValue (second value : List Char) : Option (List Char) :=
  match find value second with
  | some pos => some ((second.drop pos).take (pos + value.length + 1))
  | none => none

/-- The call `table.insert(it, pair<string, string>(var, value))` that follows
`table.erase(it)` in the `+=` and the `-=` branch of `tableAdd`. The hint `it`
is the iterator that `erase` has just invalidated, so that the behaviour of the
call is undefined: it has no defined result, whatever the table after the
erasure and the entry are. -/
def insertAtErased (_erased : Table) (_entry : List Char × List Char) : Option Table :=
  none

/-- The function `tableAdd`. The result is `none` when the call has no defined
result. That is so in the `+=` and the `-=` branch when the variable is
present: both end with `table.erase(it); table.insert(it, ...)`, which hands to
`insert` the iterator that `erase` has just invalidated; in the `-=` branch
`substr` may throw before, and nothing catches the exception. The branches `:=`
and `=` insert with the hint `table.end()`. -/
def tableAdd (line : List Char) (table : Table) : Option Table :=
  match find [':', '='] line with
  | some pos =>
    let var := strip (strip (line.take pos) ' ') '\t'
    let value := stripleft (stripleft (line.drop (pos + 2)) ' ') '\t'
    let table :=
      match table.find var with
      | some _ => table.erase var
      | none => table
    some (table.insert (var, value))
  | none =>
    match find ['+', '='] line with
    | some pos =>
      let var := strip (strip (line.take pos) ' ') '\t'
      let value := stripleft (stripleft (line.drop (pos + 2)) ' ') '\t'
      match table.find var with
      | none => some (table.insert (var, value))
      | some second => insertAtErased (table.erase var) (var, value ++ [' '] ++ second)
    | none =>
      match find ['-', '='] line with
      | some pos =>
        let var := strip (strip (line.take pos) ' ') '\t'
        let value := stripleft (stripleft (line.drop (pos + 2)) ' ') '\t'
        match table.find var with
        | some second =>
          match removalValue second value with
          | some value => insertAtErased (table.erase var) (var, value)
          | none => none
        | none => some table
      | none =>
        match find ['='] line with
        | some pos =>
          let var := strip (strip (line.take pos) ' ') '\t'
          let value := stripleft (stripleft (line.drop (pos + 1)) ' ') '\t'
          let table :=
            match table.find var with
            | some _ => table.erase var
            | none => table
          some (table.insert (var, value))
        | none => some table

/-- The strings that the successive calls `getline(paramstream, line)` of the
loop `while (paramstream.good())` give for a file of content `content`: the
pieces between the newline characters; the last call reaches the end of the
file, and gives the empty string when the content ends with a newline. -/
def getlines : List Char → List (List Char)
  | [] => [[]]
  | c :: rest =>
    if c = '\n' then [] :: getlines rest
    else
      match getlines rest with
      | [] => [[c]]
      | l :: ls => (c :: l) :: ls

/-- What a run of `main` is given: the command left by the options `-a`, `-g`,
`-r` (`get` without them), the verbose flag, the name and the content of the
parameter file (`none` when it cannot be opened), whether the file can be opened
for writing, the arguments `argv[optind..]`, and the library routine
`operaParameterAccessGet` (`none` when it reports an error). -/
structure Invocation where
  command : List Char := "get".toList
  verbose : Bool := false
  filename : List Char := "../harness/Makefile.parameters".toList
  parameterFile : Option (List Char)
  saveOpens : Bool := true
  arguments : List (List Char)
  operaParameterAccessGet : List Char → Option (List Char) := fun _ => none

/-- The variables of the loop that reads the parameter file. -/
structure ReadState where
  table : Table
  line : List Char
  cout : List (List Char)
deriving DecidableEq

/-- One iteration of the reading loop, `l` being what `getline` gives. -/
def readStep (verbose : Bool) (s : ReadState) (l : List Char) : Option ReadState :=
  let cout := if verbose then s.cout ++ [l] else s.cout
  if l.length > 0 then
    (tableAdd l s.table).map (fun table => { table := table, line := l, cout := cout })
  else some { table := s.table, line := l, cout := cout }

/-- The loop that reads the parameter table, started after `table.clear()`. -/
def readTable (verbose : Bool) (content : List Char) : Option ReadState :=
  (getlines content).foldlM (readStep verbose) { table := Table.clear, line := [], cout := [] }

/-- The variables of the loop over the arguments. -/
structure ArgState where
  command : List Char
  line : List Char
  table : Table
deriving DecidableEq

/-- One iteration of the loop `for ( ; optind < argc; optind++)`. -/
def argStep (s : ArgState) (arg : List Char) : Option ArgState :=
  if arg = "get".toList ∨ arg = "add".toList ∨ arg = "rem".toList then
    some { s with command := arg }
  else
    match find ['='] arg with
    | some _ =>
      (tableAdd arg s.table).map
        (fun table => { command := "add".toList, line := arg, table := table })
    | none => some { s with line := arg }

/-- The lines that the saving loop writes, one per entry of the table in
iteration order: the key, a tab, `:=`, a tab, the value. -/
def saveLines (table : Table) : List (List Char) :=
  table.entries.map (fun e => e.1 ++ ['\t', ':', '=', '\t'] ++ e.2)

/-- The content of a file written line by line, each line ended by `endl`. -/
def fileOf (lines : List (List Char)) : List Char :=
  (lines.map (fun l => l ++ ['\n'])).flatten

/-- What a run of `main` leaves: the exit status, the table, the lines printed
on `cout` and `cerr`, the content of the backup copy made by `cp -f`, and the
content written to the parameter file. -/
structure Outcome where
  status : Nat
  table : Table
  cout : List (List Char)
  cerr : List (List Char)
  backup : Option (List Char)
  saved : Option (List Char)
deriving DecidableEq

/-- The function `main` after the options are read. The result is `none` when
a call of `tableAdd` has no defined result. What `operaPError` prints when the
library routine reports an error is left out. -/
def main (inv : Invocation) : Option Outcome :=
  match inv.parameterFile with
  | none =>
    some { status := EXIT_FAILURE
           table := Table.clear
           cout := []
           cerr := ["Unable to open parameter file ".toList ++ inv.filename]
           backup := none
           saved := none }
  | some content =>
    match readTable inv.verbose content with
    | none => none
    | some r =>
      match inv.arguments.foldlM argStep
          { command := inv.command, line := r.line, table := r.table } with
      | none => none
      | some a =>
        let cout :=
          if a.command = "get".toList ∧ a.table.count a.line > 0 then
            match inv.operaParameterAccessGet a.line with
            | some value => r.cout ++ [value]
            | none => r.cout
          else r.cout
        let table :=
          if a.command = "rem".toList then a.table.erase a.line else a.table
        let cerr :=
          if a.command = "rem".toList ∧ a.table.find a.line = none then
            [a.line ++ "not found.".toList]
          else []
        if a.command = "add".toList ∨ a.command = "rem".toList then
          some { status := EXIT_SUCCESS
                 table := table
                 cout := cout
                 cerr := cerr ++
                   (if inv.saveOpens then []
                    else ["Unable to save parameter file ".toList ++ inv.filename])
                 backup := some content
                 saved := if inv.saveOpens then some (fileOf (saveLines table)) else none }
        else
          some { status := EXIT_SUCCESS
                 table := table
                 cout := cout
                 cerr := cerr
                 backup := none
                 saved := none }

end ParameterAccess

namespace ParameterAccess

/-- A string with all its spaces and tabs removed. -/
def withoutBlanks (var : List Char) : List Char :=
  var.filter (fun c => decide (c ≠ ' ') && decide (c ≠ '\t'))

/-- A string with its leading spaces removed and then its leading tabs
removed. -/
def withoutLeadingBlanks (value : List Char) : List Char :=
  (value.dropWhile (fun c => decide (c = ' '))).dropWhile (fun c => decide (c = '\t'))

/-- A table with the one entry `src`, of value `a.c foo.c b.c`. -/
def sourcesTable : Table :=
  ⟨[("src".toList, "a.c foo.c b.c".toList)]⟩

end ParameterAccess

namespace ParameterAccess

/-- A run `operaParameterAccess add rem` on a parameter file that holds the
variables `add` and `b`. -/
def removeAddInvocation : Invocation :=
  { parameterFile := some "add\t:=\tx\nb\t:=\ty\n".toList
    arguments := ["add".toList, "rem".toList] }

/-- A run `operaParameterAccess b rem` on the same parameter file. -/
def removeInvocation : Invocation :=
  { parameterFile := some "add\t:=\tx\nb\t:=\ty\n".toList
    arguments := ["b".toList, "rem".toList] }

end ParameterAccess

namespace ParameterAccess

/-- A table of two variables; the value of the second starts with a space and
holds `:=`. -/
def twoVariables : Table :=
  ⟨[("a=b".toList, "1".toList), ("src".toList, " x:=y z".toList)]⟩

end ParameterAccess

/-! ## `ExtendedSpectrumCreation` (`operaExtendedSpectrumCreation.cpp`) -/

namespace ExtendedSpectrumCreation

/-- The variables that the argument handler fills, with their defaults. -/
structure Arguments where
  inputFlatFluxCalibration : String := ""
  inputWavelengthMaskForUncalContinuum : String := ""
  numberOfPointsInUniformSample : Nat := 150
  normalizationBinsize : Nat := 100
  starplusskyInvertSkyFiber : Bool := false
  SkyOverStarFiberAreaRatio : ℚ := 1
  wavelengthCalibration : String := ""
  radialvelocitycorrection : String := ""
  telluriccorrection : String := ""
  fluxCalibration : String := ""
  flatResponse : String := ""
  exposureTime : ℚ := 0
  AbsoluteCalibration : Bool := false

/-- The calls on `spectralOrders` between the order scan and the writing of the
spectrum, with the arguments that vary. -/
inductive LibraryCall where
  | readTelluricRVINTOExtendendSpectra (telluriccorrection : String) (minorder maxorder : Int)
  | readRVCorrectionINTOExtendendSpectra (radialvelocitycorrection wavelengthCalibration : String)
      (minorder maxorder : Int)
  | correctFlatField (inputFlatFluxCalibration : String) (minorder maxorder : Int)
      (StarPlusSky starplusskyInvertSkyFiber : Bool)
  | saveExtendedRawFlux (minorder maxorder : Int)
  | normalizeAndCalibrateFluxINTOExtendendSpectra (mask fluxCalibration : String)
      (exposureTime : ℚ) (AbsoluteCalibration : Bool)
      (numberOfPointsInUniformSample normalizationBinsize : Nat) (delta_wl : ℚ)
      (minorder maxorder : Int) (SkyOverStarFiberAreaRatio : ℚ) (StarPlusSky : Bool)
  | normalizeAndApplyFlatResponseINTOExtendendSpectra (mask flatResponse : String)
      (numberOfPointsInUniformSample normalizationBinsize : Nat) (delta_wl : ℚ)
      (minorder maxorder : Int) (StarPlusSky : Bool)
  | normalizeFluxINTOExtendendSpectra (mask : String)
      (numberOfPointsInUniformSample normalizationBinsize : Nat) (delta_wl : ℚ)
      (minorder maxorder : Int)
  | normalizeOrderbyOrderAndSaveFluxINTOExtendendSpectra (normalizationBinsize : Nat)
      (minorder maxorder : Int)
deriving DecidableEq

/-- The four normalizations. -/
inductive Normalization where
  | fluxCalibration
  | flatResponse
  | plain
  | orderByOrder
deriving DecidableEq

/-- The normalization that a call applies, if it is one of the four. -/
def LibraryCall.normalization : LibraryCall → Option Normalization
  | .normalizeAndCalibrateFluxINTOExtendendSpectra .. => some Normalization.fluxCalibration
  | .normalizeAndApplyFlatResponseINTOExtendendSpectra .. => some Normalization.flatResponse
  | .normalizeFluxINTOExtendendSpectra .. => some Normalization.plain
  | .normalizeOrderbyOrderAndSaveFluxINTOExtendendSpectra .. => some Normalization.orderByOrder
  | _ => none

/-- The block "Flux Normalization and Flux Calibration": the call it makes.
With a mask the exposure time is multiplied by 4 first under
`PolarimetryCorrection`. -/
def normalizationCall (StarPlusSky PolarimetryCorrection : Bool) (a : Arguments)
    (minorder maxorder : Int) : LibraryCall :=
  if a.inputWavelengthMaskForUncalContinuum ≠ "" then
    let delta_wl : ℚ := 1
    let exposureTime := if PolarimetryCorrection then a.exposureTime * 4 else a.exposureTime
    if a.fluxCalibration ≠ "" then
      LibraryCall.normalizeAndCalibrateFluxINTOExtendendSpectra
        a.inputWavelengthMaskForUncalContinuum a.fluxCalibration exposureTime
        a.AbsoluteCalibration a.numberOfPointsInUniformSample a.normalizationBinsize delta_wl
        minorder maxorder a.SkyOverStarFiberAreaRatio StarPlusSky
    else if a.flatResponse ≠ "" then
      LibraryCall.normalizeAndApplyFlatResponseINTOExtendendSpectra
        a.inputWavelengthMaskForUncalContinuum a.flatResponse
        a.numberOfPointsInUniformSample a.normalizationBinsize delta_wl minorder maxorder
        StarPlusSky
    else
      LibraryCall.normalizeFluxINTOExtendendSpectra a.inputWavelengthMaskForUncalContinuum
        a.numberOfPointsInUniformSample a.normalizationBinsize delta_wl minorder maxorder
  else
    LibraryCall.normalizeOrderbyOrderAndSaveFluxINTOExtendendSpectra a.normalizationBinsize
      minorder maxorder

/-- The calls on `spectralOrders` from the telluric correction to the
normalization, in program order, in a run in which each of them returns. -/
def calibrationCalls (StarPlusSky PolarimetryCorrection : Bool) (a : Arguments)
    (minorder maxorder : Int) : List LibraryCall :=
  (if a.telluriccorrection ≠ "" then
      [LibraryCall.readTelluricRVINTOExtendendSpectra a.telluriccorrection minorder maxorder]
    else [])
  ++ (if a.radialvelocitycorrection ≠ "" then
      [LibraryCall.readRVCorrectionINTOExtendendSpectra a.radialvelocitycorrection
        a.wavelengthCalibration minorder maxorder]
    else [])
  ++ (if a.inputFlatFluxCalibration ≠ "" then
      [LibraryCall.correctFlatField a.inputFlatFluxCalibration minorder maxorder StarPlusSky
        a.starplusskyInvertSkyFiber,
       LibraryCall.saveExtendedRawFlux minorder maxorder]
    else [])
  ++ [normalizationCall StarPlusSky PolarimetryCorrection a minorder maxorder]

/-- The normalizations applied by the calls of a run, in program order. -/
def normalizationsApplied (StarPlusSky PolarimetryCorrection : Bool) (a : Arguments)
    (minorder maxorder : Int) : List Normalization :=
  (calibrationCalls StarPlusSky PolarimetryCorrection a minorder maxorder).filterMap
    LibraryCall.normalization

/-- The variables `minPossibleOrder` and `maxPossibleOrder`. -/
structure PossibleOrders where
  minPossibleOrder : Int
  maxPossibleOrder : Int
deriving DecidableEq

/-- One iteration of the order scan, as far as the two variables go: an order
with spectral elements and a wavelength solution lowers `minPossibleOrder`, or
sets it while it is 0, and raises `maxPossibleOrder`. The calls that prepare the
elements of the order are left out. -/
def scanStep (spectralOrders : operaSpectralOrderVector) (p : PossibleOrders) (order : Int) :
    PossibleOrders :=
  if (spectralOrders.GetSpectralOrder order).hasSpectralElements = true
      ∧ (spectralOrders.GetSpectralOrder order).hasWavelength = true then
    { minPossibleOrder :=
        if order < p.minPossibleOrder ∨ p.minPossibleOrder = 0 then order
        else p.minPossibleOrder
      maxPossibleOrder :=
        if order > p.maxPossibleOrder then order else p.maxPossibleOrder }
  else p

/-- The order scan `for (int order=minorder; order<=maxorder; order++)`, started
with both variables 0. -/
def scanOrders (spectralOrders : operaSpectralOrderVector) (minorder maxorder : Int) :
    PossibleOrders :=
  (orderRange minorder maxorder).foldl (scanStep spectralOrders)
    { minPossibleOrder := 0, maxPossibleOrder := 0 }

/-- The order limits `(minorder, maxorder)` after the scan and the two resets
that follow it. -/
def clippedOrderLimits (spectralOrders : operaSpectralOrderVector) (minorder maxorder : Int) :
    Int × Int :=
  let p := scanOrders spectralOrders minorder maxorder
  (if p.minPossibleOrder > minorder then p.minPossibleOrder else minorder,
   if p.maxPossibleOrder < maxorder then p.maxPossibleOrder else maxorder)

/-- An order that has both spectral elements and a wavelength solution. -/
def Usable (spectralOrders : operaSpectralOrderVector) (order : Int) : Prop :=
  (spectralOrders.GetSpectralOrder order).hasSpectralElements = true
    ∧ (spectralOrders.GetSpectralOrder order).hasWavelength = true

instance (spectralOrders : operaSpectralOrderVector) (order : Int) :
    Decidable (Usable spectralOrders order) := by
  unfold Usable
  infer_instance

/-- A spectrum in which the orders 24 to 30 have spectral elements and the
orders 22 to 28 a wavelength solution. -/
def gappedSpectrum : operaSpectralOrderVector :=
  { orders := fun o =>
      { (default : operaSpectralOrder) with
        hasSpectralElements := decide (24 ≤ o ∧ o ≤ 30)
        hasWavelength := decide (22 ≤ o ∧ o ≤ 28) }
    Minorder := 22
    Maxorder := 30 }

end ExtendedSpectrumCreation

/-! ## The order limits of `operaStarOnly` (`operaStarOnly.cpp`) -/

namespace StarOnly

/-- The variables of `main` that hold the order limits, with their initial
values. -/
structure OrderVariables where
  ordernumber : Int := NOTPROVIDED
  minorder : Int := 22
  maxorder : Int := 62
  minorderprovided : Bool := false
  maxorderprovided : Bool := false
deriving DecidableEq

/-- The options `--ordernumber`, `--minorder` and `--maxorder` with the value
`atoi(optarg)`. -/
inductive OrderOption where
  | ordernumber (value : Int)
  | minorder (value : Int)
  | maxorder (value : Int)
deriving DecidableEq

/-- The cases `'O'`, `'M'` and `'X'` of the option loop. -/
def readOption (v : OrderVariables) : OrderOption → OrderVariables
  | .ordernumber value => { v with ordernumber := value }
  | .minorder value => { v with minorder := value, minorderprovided := true }
  | .maxorder value => { v with maxorder := value, maxorderprovided := true }

/-- The option loop, as far as the order limits go. -/
def readOptions (options : List OrderOption) : OrderVariables :=
  options.foldl readOption {}

/-- The statements that settle the order limits once the spectrum is read. The
third assigns the maximum order of the spectrum to the flag
`maxorderprovided`; an `int` given to a `bool` is `true` when it is not 0. -/
def orderLimits (v : OrderVariables) (spectralOrders : operaSpectralOrderVector) :
    OrderVariables :=
  let v1 := if v.minorderprovided = false then { v with minorder := spectralOrders.Minorder } else v
  let v2 :=
    if v1.ordernumber ≠ NOTPROVIDED then
      { v1 with minorder := v1.ordernumber, maxorder := v1.ordernumber }
    else v1
  let v3 :=
    if v2.maxorderprovided = false then
      { v2 with maxorderprovided := decide (spectralOrders.Maxorder ≠ 0) }
    else v2
  if v3.ordernumber ≠ NOTPROVIDED then
    { v3 with minorder := v3.ordernumber, maxorder := v3.ordernumber }
  else v3

/-- The orders that the loop `for (int order=minorder; order<=maxorder; order++)`
of `main` visits. -/
def processedOrders (options : List OrderOption) (spectralOrders : operaSpectralOrderVector) :
    List Int :=
  orderRange (orderLimits (readOptions options) spectralOrders).minorder
    (orderLimits (readOptions options) spectralOrders).maxorder

/-- An option other than `--maxorder` and `--ordernumber`. -/
def OrderOption.leavesMaxorder : OrderOption → Bool
  | .minorder _ => true
  | _ => false

/-- An option other than `--minorder` and `--ordernumber`. -/
def OrderOption.leavesMinorder : OrderOption → Bool
  | .maxorder _ => true
  | _ => false

/-- An option other than `--ordernumber`. -/
def OrderOption.leavesOrdernumber : OrderOption → Bool
  | .ordernumber _ => false
  | _ => true

end StarOnly

namespace ExtendedSpectrumCreation

/-- What holds of the two variables once the scan has seen the orders `seen`:
either no order seen is usable and both variables are 0, or they are the
smallest and the largest usable order seen. -/
def ScanInvariant (spectralOrders : operaSpectralOrderVector) (p : PossibleOrders)
    (seen : List Int) : Prop :=
  (p = { minPossibleOrder := 0, maxPossibleOrder := 0 }
      ∧ ∀ o ∈ seen, ¬ Usable spectralOrders o)
  ∨ (Usable spectralOrders p.minPossibleOrder ∧ Usable spectralOrders p.maxPossibleOrder
      ∧ p.minPossibleOrder ∈ seen ∧ p.maxPossibleOrder ∈ seen
      ∧ ∀ o ∈ seen, Usable spectralOrders o →
          p.minPossibleOrder ≤ o ∧ o ≤ p.maxPossibleOrder)

end ExtendedSpectrumCreation

/-- An exposure of one order with a single spectral element, of
cross-correlation `x`. -/
def correlationExposure (x : ℚ) : operaSpectralOrder :=
  { singleElementExposure 100 100 with
    SpectralElements :=
      { nSpectralElements := 1, XCorrelation := [x], distd := [0], wavelength := [0] } }

/-- The spectra of the cross-correlation examples, by file name: the file
`name` holds, in every order, one element of cross-correlation `x name`; the
spectra provide the order 31. -/
def correlationSpectrum (x : String → ℚ) (name : String) : operaSpectralOrderVector :=
  { orders := fun _ => correlationExposure (x name)
    Minorder := 31
    Maxorder := 31 }

/-- The library of the examples, reading the spectra of `correlationSpectrum`. -/
def correlationLibrary (x : String → ℚ) : Library :=
  { exampleLibrary with readSpectralOrderVector := correlationSpectrum x }

/-- The cross-correlations 1, 2, 3 and 4 of the files `1.e` to `4.e`. -/
def countingCorrelation (name : String) : ℚ :=
  if name = "1.e" then 1 else if name = "2.e" then 2 else if name = "3.e" then 3 else 4

/-- The cross-correlation 10000000000000000 of the file `1.e` and 1 of the other
files. -/
def largeFirstCorrelation (name : String) : ℚ :=
  if name = "1.e" then 10000000000000000 else 1

/-- The options of the example run with the four exposures listed in the reverse
order. -/
def reversedOptions : Options :=
  { exampleOptions with input := ["4.e", "3.e", "2.e", "1.e"] }

namespace ParameterAccess

/-- A run `operaParameterAccess src+=x.c` on a parameter file that holds the
variable `src`. -/
def appendInvocation : Invocation :=
  { parameterFile := some "src\t:=\ta.c foo.c b.c\n".toList
    arguments := ["src+=x.c".toList] }

/-- A run `operaParameterAccess src-=foo.c` on the same parameter file. -/
def removeValueInvocation : Invocation :=
  { parameterFile := some "src\t:=\ta.c foo.c b.c\n".toList
    arguments := ["src-=foo.c".toList] }

end ParameterAccess

/-! ## Facts about the populating loop -/

theorem copyBeam_eq_of_length (so : operaSpectralOrder) (beam length : Nat)
    (hf : (so.getBeamFluxVector beam).fluxes.length = length)
    (hv : (so.getBeamFluxVector beam).variances.length = length) :
    copyBeam so beam length = so.getBeamFluxVector beam := by
  unfold copyBeam operaFluxVector.new
  rw [List.take_of_length_le (le_of_eq hf), List.take_of_length_le (le_of_eq hv)]

theorem populate_four (spectralOrder : Nat → operaSpectralOrder) (length : Nat) :
    populate 4 spectralOrder length =
      { iE := [some (copyBeam (spectralOrder 0) 0 length),
               some (copyBeam (spectralOrder 1) 0 length),
               some (copyBeam (spectralOrder 3) 0 length),
               some (copyBeam (spectralOrder 2) 0 length)],
        iA := [some (copyBeam (spectralOrder 0) 1 length),
               some (copyBeam (spectralOrder 1) 1 length),
               some (copyBeam (spectralOrder 3) 1 length),
               some (copyBeam (spectralOrder 2) 1 length)] } := by
  rfl

theorem populateRaw_four (spectralOrder : Nat → operaSpectralOrder) (length : Nat) :
    populateRaw 4 spectralOrder length =
      { iE := [some (copyBeam (spectralOrder 0) 0 length),
               some (copyBeam (spectralOrder 1) 0 length),
               some (copyBeam (spectralOrder 2) 0 length),
               some (copyBeam (spectralOrder 3) 0 length)],
        iA := [some (copyBeam (spectralOrder 0) 1 length),
               some (copyBeam (spectralOrder 1) 1 length),
               some (copyBeam (spectralOrder 2) 1 length),
               some (copyBeam (spectralOrder 3) 1 length)] } := by
  rfl

theorem populate_two (spectralOrder : Nat → operaSpectralOrder) (length : Nat) :
    populate 2 spectralOrder length =
      { iE := [some (copyBeam (spectralOrder 0) 0 length),
               some (copyBeam (spectralOrder 1) 0 length), none, none],
        iA := [some (copyBeam (spectralOrder 0) 1 length),
               some (copyBeam (spectralOrder 1) 1 length), none, none] } := by
  rfl


/-- C1. With four exposures the arrays handed to the engine are canonical:
slots 1 and 2 hold copies of the E and A beams of raw exposures 1 and 2, slot 3
holds those of raw exposure 4 and slot 4 those of raw exposure 3 (E goes to
`iE`, A to `iA`); the copy is the first `length` fluxes and variances, and when
the beams all have the length of the base spectrum the slots hold exactly the
raw flux vectors, fluxes and variances unchanged; these arrays are the ones the
engine is called with for a processed order. -/
theorem canonical_beams_four_exposures (spectralOrder : Nat → operaSpectralOrder) :
    (∀ length, populate 4 spectralOrder length =
      { iE := [some (copyBeam (spectralOrder 0) 0 length),
               some (copyBeam (spectralOrder 1) 0 length),
               some (copyBeam (spectralOrder 3) 0 length),
               some (copyBeam (spectralOrder 2) 0 length)],
        iA := [some (copyBeam (spectralOrder 0) 1 length),
               some (copyBeam (spectralOrder 1) 1 length),
               some (copyBeam (spectralOrder 3) 1 length),
               some (copyBeam (spectralOrder 2) 1 length)] })
    ∧ (BeamsAligned 4 spectralOrder →
        populate 4 spectralOrder (baseLength spectralOrder) =
          { iE := [some (spectralOrder 0).BeamE, some (spectralOrder 1).BeamE,
                   some (spectralOrder 3).BeamE, some (spectralOrder 2).BeamE],
            iA := [some (spectralOrder 0).BeamA, some (spectralOrder 1).BeamA,
                   some (spectralOrder 3).BeamA, some (spectralOrder 2).BeamA] })
    ∧ (∀ (L : Library) (cfg : Config), cfg.NumberOfExposures = 4 →
        computedPolarimetry L cfg spectralOrder =
          L.calculateStokesParameter cfg.StokesParameter
            (populate 4 spectralOrder (baseLength spectralOrder)) 4
            ((L.createPolarimetry (baseLength spectralOrder)).setmethod cfg.method)) := by
  refine ⟨fun length => populate_four spectralOrder length, fun h => ?_,
    fun L cfg hN => by unfold computedPolarimetry; rw [hN]⟩
  rw [populate_four]
  have e : ∀ i, i < 4 → ∀ beam, beam < 2 →
      copyBeam (spectralOrder i) beam (baseLength spectralOrder)
        = (spectralOrder i).getBeamFluxVector beam := fun i hi beam hb =>
    copyBeam_eq_of_length _ _ _ (h i hi beam hb).1 (h i hi beam hb).2
  rw [e 0 (by norm_num) 0 (by norm_num), e 1 (by norm_num) 0 (by norm_num),
    e 2 (by norm_num) 0 (by norm_num), e 3 (by norm_num) 0 (by norm_num),
    e 0 (by norm_num) 1 (by norm_num), e 1 (by norm_num) 1 (by norm_num),
    e 2 (by norm_num) 1 (by norm_num), e 3 (by norm_num) 1 (by norm_num)]
  rfl

theorem scenarioExposures_aligned : BeamsAligned 4 scenarioExposures := by
  intro i hi beam hb
  interval_cases i <;> interval_cases beam <;> exact ⟨rfl, rfl⟩

/-- Witness of C1 on the exposures of the end-to-end scenario. -/
theorem canonical_beams_four_exposures_witness :
    BeamsAligned 4 scenarioExposures ∧
    populate 4 scenarioExposures (baseLength scenarioExposures) =
      { iE := [some (scenarioExposures 0).BeamE, some (scenarioExposures 1).BeamE,
               some (scenarioExposures 3).BeamE, some (scenarioExposures 2).BeamE],
        iA := [some (scenarioExposures 0).BeamA, some (scenarioExposures 1).BeamA,
               some (scenarioExposures 3).BeamA, some (scenarioExposures 2).BeamA] } :=
  ⟨scenarioExposures_aligned,
    (canonical_beams_four_exposures scenarioExposures).2.1 scenarioExposures_aligned⟩

/-- C2. The canonicalization is its own inverse: populating the arrays from the
exposures with the labels of raw exposures 3 and 4 exchanged gives exactly the
arrays of the original exposures in raw order (the loop body without swap), and
conversely; the relabeling leaves the base length unchanged; and canonicalizing
the canonical arrays once more gives back the raw order. -/
theorem canonicalization_is_involutive (spectralOrder : Nat → operaSpectralOrder)
    (length : Nat) :
    populate 4 (relabel34 spectralOrder) length = populateRaw 4 spectralOrder length
    ∧ populateRaw 4 (relabel34 spectralOrder) length = populate 4 spectralOrder length
    ∧ baseLength (relabel34 spectralOrder) = baseLength spectralOrder
    ∧ populate 4 (slotsAsExposures (populate 4 spectralOrder length) spectralOrder) length
        = populateRaw 4 spectralOrder length := by
  refine ⟨rfl, rfl, rfl, ?_⟩
  rw [populate_four, populateRaw_four, populate_four]
  simp [slotsAsExposures, copyBeam, operaSpectralOrder.getBeamFluxVector,
    operaFluxVector.new, List.take_take]

/-! ## Facts about the engine -/

theorem getD_map_range {α : Type} (f : Nat → α) (n k : Nat) (d : α) :
    ((List.range n).map f).getD k d = if k < n then f k else d := by
  by_cases h : k < n
  · simp [List.getD, h]
  · have e : (List.range n)[k]? = none := List.getElem?_eq_none (by simpa using h)
    simp [List.getD, h, e]

theorem getflux_fillFluxes (v : operaFluxVector) (f : Nat → ℚ) (k : Nat) :
    (Engine.fillFluxes v f).getflux k = if k < v.getlength then f k else 0 := by
  unfold Engine.fillFluxes operaFluxVector.getflux
  exact getD_map_range _ _ _ _

theorem getflux_fillFluxesWhenDefined (v : operaFluxVector) (f : Nat → Option ℚ) (k : Nat) :
    (Engine.fillFluxesWhenDefined v f).getflux k
      = if k < v.getlength then (f k).getD (v.getflux k) else 0 := by
  unfold Engine.fillFluxesWhenDefined operaFluxVector.getflux
  exact getD_map_range _ _ _ _

theorem operaStokesVector.get_set (s : operaStokesVector) (p : stokes_parameter_t)
    (v : operaFluxVector) : (s.set p v).get p = v := by
  cases p <;> rfl

theorem engine_degree_getflux (Pow : ℚ → ℚ → ℚ) (p : stokes_parameter_t) (slots : BeamSlots)
    (N : Nat) (P : operaPolarimetry) (k : Nat) :
    ((Engine.calculateStokesParameter Pow p slots N P).getDegreeOfPolarization p).getflux k
      = if k < (P.getDegreeOfPolarization p).getlength then
          (Engine.elementAt Pow P.method N slots k).degreeOfPolarization
        else 0 := by
  simp only [operaPolarimetry.getDegreeOfPolarization, Engine.calculateStokesParameter,
    operaStokesVector.get_set, getflux_fillFluxes]

theorem engine_firstNull_getflux (Pow : ℚ → ℚ → ℚ) (p : stokes_parameter_t)
    (slots : BeamSlots) (N : Nat) (P : operaPolarimetry) (k : Nat) :
    ((Engine.calculateStokesParameter Pow p slots N P).getFirstNullPolarization p).getflux k
      = if k < (P.getFirstNullPolarization p).getlength then
          ((Engine.elementAt Pow P.method N slots k).firstNull).getD
            ((P.getFirstNullPolarization p).getflux k)
        else 0 := by
  simp only [operaPolarimetry.getFirstNullPolarization, Engine.calculateStokesParameter,
    operaStokesVector.get_set, getflux_fillFluxesWhenDefined]

theorem engine_secondNull_getflux (Pow : ℚ → ℚ → ℚ) (p : stokes_parameter_t)
    (slots : BeamSlots) (N : Nat) (P : operaPolarimetry) (k : Nat) :
    ((Engine.calculateStokesParameter Pow p slots N P).getSecondNullPolarization p).getflux k
      = if k < (P.getSecondNullPolarization p).getlength then
          ((Engine.elementAt Pow P.method N slots k).secondNull).getD
            ((P.getSecondNullPolarization p).getflux k)
        else 0 := by
  simp only [operaPolarimetry.getSecondNullPolarization, Engine.calculateStokesParameter,
    operaStokesVector.get_set, getflux_fillFluxesWhenDefined]

theorem createPolarimetry_getlength (fill : ℚ) (length : Nat) (m : method_t)
    (p : stokes_parameter_t) :
    (((Engine.createPolarimetry fill length).setmethod m).getDegreeOfPolarization p).getlength
        = length
    ∧ (((Engine.createPolarimetry fill length).setmethod m).getFirstNullPolarization
        p).getlength = length
    ∧ (((Engine.createPolarimetry fill length).setmethod m).getSecondNullPolarization
        p).getlength = length := by
  cases p <;>
    simp [Engine.createPolarimetry, operaPolarimetry.setmethod,
      operaPolarimetry.getDegreeOfPolarization, operaPolarimetry.getFirstNullPolarization,
      operaPolarimetry.getSecondNullPolarization, operaStokesVector.get,
      operaStokesVector.create, operaFluxVector.create, operaFluxVector.getlength]

theorem createPolarimetry_null_getflux (fill : ℚ) (length : Nat) (m : method_t)
    (p : stokes_parameter_t) (k : Nat) (hk : k < length) :
    (((Engine.createPolarimetry fill length).setmethod m).getFirstNullPolarization p).getflux k
        = fill
    ∧ (((Engine.createPolarimetry fill length).setmethod m).getSecondNullPolarization
        p).getflux k = fill := by
  cases p <;>
    simp [Engine.createPolarimetry, operaPolarimetry.setmethod,
      operaPolarimetry.getFirstNullPolarization, operaPolarimetry.getSecondNullPolarization,
      operaStokesVector.get, operaStokesVector.create, operaFluxVector.create,
      operaFluxVector.getflux, List.getD, hk]

theorem scenario_slots :
    populate 4 scenarioExposures (baseLength scenarioExposures) =
      { iE := [some { fluxes := [110], variances := [0] },
               some { fluxes := [90], variances := [0] },
               some { fluxes := [105], variances := [0] },
               some { fluxes := [95], variances := [0] }],
        iA := [some { fluxes := [90], variances := [0] },
               some { fluxes := [110], variances := [0] },
               some { fluxes := [95], variances := [0] },
               some { fluxes := [105], variances := [0] }] } := by
  rfl

theorem scenario_element (Pow : ℚ → ℚ → ℚ) :
    Engine.elementAt Pow method_t.Difference 4
        (populate 4 scenarioExposures (baseLength scenarioExposures)) 0
      = { degreeOfPolarization := 3 / 40, firstNull := some (1 / 40), secondNull := some 0 } := by
  rw [scenario_slots]
  simp [Engine.elementAt, Engine.element, Engine.difference, Engine.combineDifferences,
    Engine.G, BeamSlots.getfluxE, BeamSlots.getfluxA, operaFluxVector.getflux,
    Engine.PairOfExposures]
  norm_num

theorem exampleLibrary_withEngine :
    Engine.withEngine exampleLibrary rootPow 0 = exampleLibrary := rfl

theorem scenario_record (L : Library) (Pow : ℚ → ℚ → ℚ) (fill : ℚ) :
    ((computedPolarimetry (Engine.withEngine L Pow fill) scenarioConfig
        scenarioExposures).getDegreeOfPolarization stokes_parameter_t.StokesQ).getflux 0 = 3 / 40
    ∧ ((computedPolarimetry (Engine.withEngine L Pow fill) scenarioConfig
        scenarioExposures).getFirstNullPolarization stokes_parameter_t.StokesQ).getflux 0 = 1 / 40
    ∧ ((computedPolarimetry (Engine.withEngine L Pow fill) scenarioConfig
        scenarioExposures).getSecondNullPolarization stokes_parameter_t.StokesQ).getflux 0
        = 0 := by
  have hlen := createPolarimetry_getlength fill (baseLength scenarioExposures)
    method_t.Difference stokes_parameter_t.StokesQ
  have hb : baseLength scenarioExposures = 1 := rfl
  have hm : ((Engine.createPolarimetry fill (baseLength scenarioExposures)).setmethod
      method_t.Difference).method = method_t.Difference := rfl
  refine ⟨?_, ?_, ?_⟩
  · show ((Engine.calculateStokesParameter Pow stokes_parameter_t.StokesQ
        (populate 4 scenarioExposures (baseLength scenarioExposures)) 4
        ((Engine.createPolarimetry fill (baseLength scenarioExposures)).setmethod
          method_t.Difference)).getDegreeOfPolarization stokes_parameter_t.StokesQ).getflux 0
        = 3 / 40
    rw [engine_degree_getflux, hlen.1, hm, scenario_element, hb]
    simp
  · show ((Engine.calculateStokesParameter Pow stokes_parameter_t.StokesQ
        (populate 4 scenarioExposures (baseLength scenarioExposures)) 4
        ((Engine.createPolarimetry fill (baseLength scenarioExposures)).setmethod
          method_t.Difference)).getFirstNullPolarization stokes_parameter_t.StokesQ).getflux 0
        = 1 / 40
    rw [engine_firstNull_getflux, hlen.2.1, hm, scenario_element, hb]
    simp
  · show ((Engine.calculateStokesParameter Pow stokes_parameter_t.StokesQ
        (populate 4 scenarioExposures (baseLength scenarioExposures)) 4
        ((Engine.createPolarimetry fill (baseLength scenarioExposures)).setmethod
          method_t.Difference)).getSecondNullPolarization stokes_parameter_t.StokesQ).getflux 0
        = 0
    rw [engine_secondNull_getflux, hlen.2.2, hm, scenario_element, hb]
    simp

theorem scenario_G :
    Engine.G ((populate 4 scenarioExposures (baseLength scenarioExposures)).getfluxE 0 0)
        ((populate 4 scenarioExposures (baseLength scenarioExposures)).getfluxA 0 0) = 1 / 10
    ∧ Engine.G ((populate 4 scenarioExposures (baseLength scenarioExposures)).getfluxE 1 0)
        ((populate 4 scenarioExposures (baseLength scenarioExposures)).getfluxA 1 0) = -(1 / 10)
    ∧ Engine.G ((populate 4 scenarioExposures (baseLength scenarioExposures)).getfluxE 2 0)
        ((populate 4 scenarioExposures (baseLength scenarioExposures)).getfluxA 2 0) = 1 / 20
    ∧ Engine.G ((populate 4 scenarioExposures (baseLength scenarioExposures)).getfluxE 3 0)
        ((populate 4 scenarioExposures (baseLength scenarioExposures)).getfluxA 3 0)
        = -(1 / 20) := by
  rw [scenario_slots]
  simp [Engine.G, BeamSlots.getfluxE, BeamSlots.getfluxA, operaFluxVector.getflux]
  norm_num

/-- C3, as corrected. In the end-to-end scenario (raw exposures E = 110, 90, 95,
105 and A = 90, 110, 105, 95, one element, Difference method, Stokes Q) the
program, which hands raw exposure 4 to the engine as exposure 3 and raw
exposure 3 as exposure 4, computes G1 = 0.1, G2 = -0.1, G3 = 0.05, G4 = -0.05,
D1 = G1 - G2 = 0.2, D2 = G3 - G4 = 0.1, the degree of polarization
(0.2 + 0.1)/4 = 0.075, the first null (0.2 - 0.1)/4 = 0.025 and the second
null 0, in exact arithmetic. -/
theorem scenario_difference_values (L : Library) (Pow : ℚ → ℚ → ℚ) (fill : ℚ) :
    Engine.G ((populate 4 scenarioExposures (baseLength scenarioExposures)).getfluxE 0 0)
        ((populate 4 scenarioExposures (baseLength scenarioExposures)).getfluxA 0 0) = 1 / 10
    ∧ Engine.G ((populate 4 scenarioExposures (baseLength scenarioExposures)).getfluxE 1 0)
        ((populate 4 scenarioExposures (baseLength scenarioExposures)).getfluxA 1 0) = -(1 / 10)
    ∧ Engine.G ((populate 4 scenarioExposures (baseLength scenarioExposures)).getfluxE 2 0)
        ((populate 4 scenarioExposures (baseLength scenarioExposures)).getfluxA 2 0) = 1 / 20
    ∧ Engine.G ((populate 4 scenarioExposures (baseLength scenarioExposures)).getfluxE 3 0)
        ((populate 4 scenarioExposures (baseLength scenarioExposures)).getfluxA 3 0)
        = -(1 / 20)
    ∧ ((computedPolarimetry (Engine.withEngine L Pow fill) scenarioConfig
        scenarioExposures).getDegreeOfPolarization stokes_parameter_t.StokesQ).getflux 0
        = (1 / 5 + 1 / 10) / 4
    ∧ ((computedPolarimetry (Engine.withEngine L Pow fill) scenarioConfig
        scenarioExposures).getFirstNullPolarization stokes_parameter_t.StokesQ).getflux 0
        = (1 / 5 - 1 / 10) / 4
    ∧ ((computedPolarimetry (Engine.withEngine L Pow fill) scenarioConfig
        scenarioExposures).getSecondNullPolarization stokes_parameter_t.StokesQ).getflux 0
        = 0 := by
  obtain ⟨g1, g2, g3, g4⟩ := scenario_G
  obtain ⟨d, n1, n2⟩ := scenario_record L Pow fill
  refine ⟨g1, g2, g3, g4, ?_, ?_, n2⟩
  · rw [d]; norm_num
  · rw [n1]; norm_num

/-- C3, as stated, fails. In the end-to-end scenario the computed degree of
polarization (0.075) is not 0.0237, the computed first null (0.025) is not
0.0763, and G of the third exposure is -0.0526 neither for the exposure the
engine receives in slot 3 (0.05) nor for raw exposure 3 (-0.05), each by more
than a tolerance of 0.001. -/
theorem scenario_claimed_values_refuted :
    ¬ agreesTo (1 / 1000)
        (((computedPolarimetry exampleLibrary scenarioConfig
          scenarioExposures).getDegreeOfPolarization stokes_parameter_t.StokesQ).getflux 0)
        (237 / 10000)
    ∧ ¬ agreesTo (1 / 1000)
        (((computedPolarimetry exampleLibrary scenarioConfig
          scenarioExposures).getFirstNullPolarization stokes_parameter_t.StokesQ).getflux 0)
        (763 / 10000)
    ∧ ¬ agreesTo (1 / 1000)
        (Engine.G ((populate 4 scenarioExposures (baseLength scenarioExposures)).getfluxE 2 0)
          ((populate 4 scenarioExposures (baseLength scenarioExposures)).getfluxA 2 0))
        (-(526 / 10000))
    ∧ ¬ agreesTo (1 / 1000) (Engine.G 95 105) (-(526 / 10000)) := by
  obtain ⟨_, _, g3, _⟩ := scenario_G
  obtain ⟨d, n1, _⟩ := scenario_record exampleLibrary rootPow 0
  rw [exampleLibrary_withEngine] at d n1
  refine ⟨?_, ?_, ?_, ?_⟩
  · unfold agreesTo
    rw [d, abs_of_pos (by norm_num)]; norm_num
  · unfold agreesTo
    rw [n1, abs_of_neg (by norm_num)]; norm_num
  · unfold agreesTo
    rw [g3, abs_of_pos (by norm_num)]; norm_num
  · unfold agreesTo Engine.G
    rw [abs_of_pos (by norm_num)]; norm_num

theorem difference_element_four (Pow : ℚ → ℚ → ℚ) (slots : BeamSlots) (index : Nat) :
    Engine.elementAt Pow method_t.Difference 4 slots index =
      { degreeOfPolarization :=
          (slotG slots 0 index - slotG slots 1 index + slotG slots 2 index
            - slotG slots 3 index) / 4
        firstNull :=
          some ((slotG slots 0 index - slotG slots 1 index - slotG slots 2 index
            + slotG slots 3 index) / 4)
        secondNull :=
          some ((slotG slots 0 index - slotG slots 3 index - slotG slots 2 index
            + slotG slots 1 index) / 4) } := by
  simp only [Engine.elementAt, Engine.element, Engine.difference, Engine.combineDifferences,
    Engine.G, Engine.PairOfExposures, slotG, if_true]
  norm_num
  refine ⟨?_, ?_, ?_⟩ <;> ring

theorem slotG_congr (slots slots' : BeamSlots) (index n : Nat)
    (h : slots'.getfluxE n index = slots.getfluxE n index
      ∧ slots'.getfluxA n index = slots.getfluxA n index) :
    slotG slots' n index = slotG slots n index := by
  unfold slotG
  rw [h.1, h.2]

theorem engine_created_record (Pow : ℚ → ℚ → ℚ) (p : stokes_parameter_t) (slots : BeamSlots)
    (N : Nat) (fill : ℚ) (length : Nat) (m : method_t) (index : Nat) (h : index < length) :
    ((Engine.calculateStokesParameter Pow p slots N
        ((Engine.createPolarimetry fill length).setmethod m)).getDegreeOfPolarization
          p).getflux index
      = (Engine.elementAt Pow m N slots index).degreeOfPolarization
    ∧ ((Engine.calculateStokesParameter Pow p slots N
        ((Engine.createPolarimetry fill length).setmethod m)).getFirstNullPolarization
          p).getflux index
      = ((Engine.elementAt Pow m N slots index).firstNull).getD fill
    ∧ ((Engine.calculateStokesParameter Pow p slots N
        ((Engine.createPolarimetry fill length).setmethod m)).getSecondNullPolarization
          p).getflux index
      = ((Engine.elementAt Pow m N slots index).secondNull).getD fill := by
  have hlen := createPolarimetry_getlength fill length m p
  have hfill := createPolarimetry_null_getflux fill length m p index h
  have hm : ((Engine.createPolarimetry fill length).setmethod m).method = m := rfl
  refine ⟨?_, ?_, ?_⟩
  · rw [engine_degree_getflux, hlen.1, hm, if_pos h]
  · rw [engine_firstNull_getflux, hlen.2.1, hm, if_pos h, hfill.1]
  · rw [engine_secondNull_getflux, hlen.2.2, hm, if_pos h, hfill.2]

/-- C4. Difference method with four exposures: for an element whose four beam
sums are nonzero, with `Gn = (En - An)/(En + An)` over the exposures in the
slots handed to the engine, the degree of polarization is
`(G1 - G2 + G3 - G4)/4`, the first null `(G1 - G2 - G3 + G4)/4` and the second
null `(G1 - G4 - G3 + G2)/4`; these are the values stored at that element of a
record created with more than `index` elements; and they depend on the fluxes
of that element only. -/
theorem difference_method_four_exposures (Pow : ℚ → ℚ → ℚ) (slots : BeamSlots) (index : Nat)
    (_hsum : ∀ n, n < 4 → slots.getfluxE n index + slots.getfluxA n index ≠ 0) :
    Engine.elementAt Pow method_t.Difference 4 slots index =
      { degreeOfPolarization :=
          (slotG slots 0 index - slotG slots 1 index + slotG slots 2 index
            - slotG slots 3 index) / 4
        firstNull :=
          some ((slotG slots 0 index - slotG slots 1 index - slotG slots 2 index
            + slotG slots 3 index) / 4)
        secondNull :=
          some ((slotG slots 0 index - slotG slots 3 index - slotG slots 2 index
            + slotG slots 1 index) / 4) }
    ∧ (∀ (p : stokes_parameter_t) (fill : ℚ) (length : Nat), index < length →
        ((Engine.calculateStokesParameter Pow p slots 4
            ((Engine.createPolarimetry fill length).setmethod
              method_t.Difference)).getDegreeOfPolarization p).getflux index
          = (slotG slots 0 index - slotG slots 1 index + slotG slots 2 index
              - slotG slots 3 index) / 4
        ∧ ((Engine.calculateStokesParameter Pow p slots 4
            ((Engine.createPolarimetry fill length).setmethod
              method_t.Difference)).getFirstNullPolarization p).getflux index
          = (slotG slots 0 index - slotG slots 1 index - slotG slots 2 index
              + slotG slots 3 index) / 4
        ∧ ((Engine.calculateStokesParameter Pow p slots 4
            ((Engine.createPolarimetry fill length).setmethod
              method_t.Difference)).getSecondNullPolarization p).getflux index
          = (slotG slots 0 index - slotG slots 3 index - slotG slots 2 index
              + slotG slots 1 index) / 4)
    ∧ (∀ slots' : BeamSlots,
        (∀ n, n < 4 → slots'.getfluxE n index = slots.getfluxE n index
          ∧ slots'.getfluxA n index = slots.getfluxA n index) →
        Engine.elementAt Pow method_t.Difference 4 slots' index
          = Engine.elementAt Pow method_t.Difference 4 slots index) := by
  refine ⟨difference_element_four Pow slots index, ?_, ?_⟩
  · intro p fill length h
    obtain ⟨d, n1, n2⟩ :=
      engine_created_record Pow p slots 4 fill length method_t.Difference index h
    rw [d, n1, n2, difference_element_four]
    exact ⟨rfl, rfl, rfl⟩
  · intro slots' h
    rw [difference_element_four, difference_element_four,
      slotG_congr slots slots' index 0 (h 0 (by norm_num)),
      slotG_congr slots slots' index 1 (h 1 (by norm_num)),
      slotG_congr slots slots' index 2 (h 2 (by norm_num)),
      slotG_congr slots slots' index 3 (h 3 (by norm_num))]

theorem scenario_sums_nonzero :
    ∀ n, n < 4 →
      (populate 4 scenarioExposures (baseLength scenarioExposures)).getfluxE n 0
        + (populate 4 scenarioExposures (baseLength scenarioExposures)).getfluxA n 0 ≠ 0 := by
  intro n hn
  rw [scenario_slots]
  interval_cases n <;>
    simp [BeamSlots.getfluxE, BeamSlots.getfluxA, operaFluxVector.getflux] <;> norm_num

/-- Witness of C4 on the canonical arrays of the end-to-end scenario, whose
beam sums are all 200. -/
theorem difference_method_four_exposures_witness :
    (∀ n, n < 4 →
      (populate 4 scenarioExposures (baseLength scenarioExposures)).getfluxE n 0
        + (populate 4 scenarioExposures (baseLength scenarioExposures)).getfluxA n 0 ≠ 0)
    ∧ Engine.elementAt rootPow method_t.Difference 4
        (populate 4 scenarioExposures (baseLength scenarioExposures)) 0 =
      { degreeOfPolarization :=
          (slotG (populate 4 scenarioExposures (baseLength scenarioExposures)) 0 0
            - slotG (populate 4 scenarioExposures (baseLength scenarioExposures)) 1 0
            + slotG (populate 4 scenarioExposures (baseLength scenarioExposures)) 2 0
            - slotG (populate 4 scenarioExposures (baseLength scenarioExposures)) 3 0) / 4
        firstNull :=
          some ((slotG (populate 4 scenarioExposures (baseLength scenarioExposures)) 0 0
            - slotG (populate 4 scenarioExposures (baseLength scenarioExposures)) 1 0
            - slotG (populate 4 scenarioExposures (baseLength scenarioExposures)) 2 0
            + slotG (populate 4 scenarioExposures (baseLength scenarioExposures)) 3 0) / 4)
        secondNull :=
          some ((slotG (populate 4 scenarioExposures (baseLength scenarioExposures)) 0 0
            - slotG (populate 4 scenarioExposures (baseLength scenarioExposures)) 3 0
            - slotG (populate 4 scenarioExposures (baseLength scenarioExposures)) 2 0
            + slotG (populate 4 scenarioExposures (baseLength scenarioExposures)) 1 0) / 4) } :=
  ⟨scenario_sums_nonzero,
    (difference_method_four_exposures rootPow
      (populate 4 scenarioExposures (baseLength scenarioExposures)) 0
      scenario_sums_nonzero).1⟩

theorem difference_equal_beams (Pow : ℚ → ℚ → ℚ) (slots : BeamSlots) (index : Nat)
    (heq : ∀ n, n < 4 → slots.getfluxE n index = slots.getfluxA n index) :
    Engine.elementAt Pow method_t.Difference 4 slots index = zeroPolarization := by
  have g : ∀ n, n < 4 → slotG slots n index = 0 := by
    intro n hn
    unfold slotG
    rw [heq n hn, sub_self, zero_div]
  rw [difference_element_four, g 0 (by norm_num), g 1 (by norm_num), g 2 (by norm_num),
    g 3 (by norm_num)]
  simp [zeroPolarization]

theorem ratio_equal_beams (Pow : ℚ → ℚ → ℚ) (slots : BeamSlots) (index : Nat)
    (hPow : ∀ y, Pow 1 y = 1)
    (heq : ∀ n, n < 4 → slots.getfluxE n index = slots.getfluxA n index
      ∧ slots.getfluxE n index ≠ 0) :
    Engine.elementAt Pow method_t.Ratio 4 slots index = zeroPolarization := by
  have r1 : ∀ n, n < 4 → Engine.r (slots.getfluxE n index) (slots.getfluxA n index) = 1 := by
    intro n hn
    unfold Engine.r
    rw [← (heq n hn).1]
    exact div_self (heq n hn).2
  simp only [Engine.elementAt, Engine.element, Engine.ratio, if_true,
    r1 0 (by norm_num), r1 1 (by norm_num), r1 2 (by norm_num), r1 3 (by norm_num),
    div_one, mul_one, hPow, sub_self, zero_div, zeroPolarization]

theorem rootPow_one (y : ℚ) : rootPow 1 y = 1 := by
  have h : Rat.sqrt 1 = 1 := by
    have e := Rat.sqrt_eq 1
    rw [mul_one, abs_one] at e
    exact e
  unfold rootPow
  split_ifs <;> simp [h]

theorem equalBeams_slots :
    populate 4 equalBeamsExposures (baseLength equalBeamsExposures) =
      { iE := [some { fluxes := [100], variances := [0] },
               some { fluxes := [100], variances := [0] },
               some { fluxes := [100], variances := [0] },
               some { fluxes := [100], variances := [0] }],
        iA := [some { fluxes := [100], variances := [0] },
               some { fluxes := [100], variances := [0] },
               some { fluxes := [100], variances := [0] },
               some { fluxes := [100], variances := [0] }] } := by
  rfl

theorem equalBeams_hypothesis :
    ∀ n, n < 4 →
      (populate 4 equalBeamsExposures (baseLength equalBeamsExposures)).getfluxE n 0
        = (populate 4 equalBeamsExposures (baseLength equalBeamsExposures)).getfluxA n 0
      ∧ (populate 4 equalBeamsExposures (baseLength equalBeamsExposures)).getfluxE n 0 ≠ 0 := by
  intro n hn
  rw [equalBeams_slots]
  interval_cases n <;>
    simp [BeamSlots.getfluxE, BeamSlots.getfluxA, operaFluxVector.getflux]

/-- C5. With four exposures, when for an element the flux of beam E equals the
flux of beam A and is nonzero in every exposure handed to the engine, the
Difference method and the Ratio method (for a power function with
`Pow(1, y) = 1`) both give degree of polarization 0, first null 0 and second
null 0 at that element, and these are the values stored at that element of the
record. -/
theorem equal_beams_zero_polarization (Pow : ℚ → ℚ → ℚ) (slots : BeamSlots) (index : Nat)
    (hPow : ∀ y, Pow 1 y = 1)
    (heq : ∀ n, n < 4 → slots.getfluxE n index = slots.getfluxA n index
      ∧ slots.getfluxE n index ≠ 0) :
    Engine.elementAt Pow method_t.Difference 4 slots index = zeroPolarization
    ∧ Engine.elementAt Pow method_t.Ratio 4 slots index = zeroPolarization
    ∧ (∀ (m : method_t), m = method_t.Difference ∨ m = method_t.Ratio →
        ∀ (p : stokes_parameter_t) (fill : ℚ) (length : Nat), index < length →
        ((Engine.calculateStokesParameter Pow p slots 4
            ((Engine.createPolarimetry fill length).setmethod m)).getDegreeOfPolarization
              p).getflux index = 0
        ∧ ((Engine.calculateStokesParameter Pow p slots 4
            ((Engine.createPolarimetry fill length).setmethod m)).getFirstNullPolarization
              p).getflux index = 0
        ∧ ((Engine.calculateStokesParameter Pow p slots 4
            ((Engine.createPolarimetry fill length).setmethod m)).getSecondNullPolarization
              p).getflux index = 0) := by
  have hd := difference_equal_beams Pow slots index (fun n hn => (heq n hn).1)
  have hr := ratio_equal_beams Pow slots index hPow heq
  refine ⟨hd, hr, ?_⟩
  intro m hm p fill length h
  obtain ⟨d, n1, n2⟩ := engine_created_record Pow p slots 4 fill length m index h
  rw [d, n1, n2]
  rcases hm with rfl | rfl
  · rw [hd]; exact ⟨rfl, rfl, rfl⟩
  · rw [hr]; exact ⟨rfl, rfl, rfl⟩

/-- Witness of C5: four exposures of one element with E = A = 100, and the
root function standing for the power function. -/
theorem equal_beams_zero_polarization_witness :
    (∀ y, rootPow 1 y = 1)
    ∧ (∀ n, n < 4 →
      (populate 4 equalBeamsExposures (baseLength equalBeamsExposures)).getfluxE n 0
        = (populate 4 equalBeamsExposures (baseLength equalBeamsExposures)).getfluxA n 0
      ∧ (populate 4 equalBeamsExposures (baseLength equalBeamsExposures)).getfluxE n 0 ≠ 0)
    ∧ Engine.elementAt rootPow method_t.Difference 4
        (populate 4 equalBeamsExposures (baseLength equalBeamsExposures)) 0 = zeroPolarization
    ∧ Engine.elementAt rootPow method_t.Ratio 4
        (populate 4 equalBeamsExposures (baseLength equalBeamsExposures)) 0
        = zeroPolarization :=
  ⟨rootPow_one, equalBeams_hypothesis,
    (equal_beams_zero_polarization rootPow
      (populate 4 equalBeamsExposures (baseLength equalBeamsExposures)) 0 rootPow_one
      equalBeams_hypothesis).1,
    (equal_beams_zero_polarization rootPow
      (populate 4 equalBeamsExposures (baseLength equalBeamsExposures)) 0 rootPow_one
      equalBeams_hypothesis).2.1⟩

/-! ## Facts about the order loop -/

theorem gather_succ (L : Library) (N : Nat) (order : Int) (st : LoopState) :
    gather L (N + 1) order st = gatherStep L order (gather L N order st) N := by
  simp [gather, List.range_succ, List.foldl_append]

theorem exposuresWithElements_succ (st : LoopState) (N : Nat) (order : Int) :
    exposuresWithElements st (N + 1) order
      = exposuresWithElements st N order
        + (if ((st.spectralOrdervector N).GetSpectralOrder order).hasSpectralElements = true
            then 1 else 0) := by
  simp [exposuresWithElements, List.range_succ, List.countP_append, List.countP_cons]

theorem exposuresWithElements_le (st : LoopState) (N : Nat) (order : Int) :
    exposuresWithElements st N order ≤ N := by
  unfold exposuresWithElements
  calc List.countP _ (List.range N) ≤ (List.range N).length := List.countP_le_length _
    _ = N := List.length_range N

/-- What one iteration of the gathering loop does. -/
theorem gatherStep_spec (L : Library) (order : Int) (acc : LoopState × Nat) (i : Nat) :
    (gatherStep L order acc i).1.outputorderVector = acc.1.outputorderVector
    ∧ (gatherStep L order acc i).1.cout = acc.1.cout
    ∧ (gatherStep L order acc i).1.cerr = acc.1.cerr
    ∧ (gatherStep L order acc i).1.fdata = acc.1.fdata
    ∧ (gatherStep L order acc i).2
        = acc.2 + (if ((acc.1.spectralOrdervector i).orders order).hasSpectralElements = true
            then 1 else 0)
    ∧ (∀ j o, ((gatherStep L order acc i).1.spectralOrdervector j).orders o
        = if j = i ∧ o = order then gatheredOrder L ((acc.1.spectralOrdervector j).orders o)
          else (acc.1.spectralOrdervector j).orders o)
    ∧ (∀ j, (gatherStep L order acc i).1.spectralOrder j
        = if j = i then some order else acc.1.spectralOrder j)
    ∧ (∀ j, (gatherStep L order acc i).1.spectralElements j
        = if j = i ∧ ((acc.1.spectralOrdervector j).orders order).hasSpectralElements = true
          then some order else acc.1.spectralElements j) := by
  unfold gatherStep
  simp only [operaSpectralOrderVector.GetSpectralOrder]
  cases he : ((acc.1.spectralOrdervector i).orders order).hasSpectralElements
  · simp only [Bool.false_eq_true, if_false, add_zero, true_and]
    refine ⟨?_, ?_, ?_⟩
    · intro j o
      by_cases h : j = i ∧ o = order
      · obtain ⟨rfl, rfl⟩ := h
        simp [gatheredOrder, he]
      · rw [if_neg h]
    · intro j
      by_cases h : j = i
      · subst h; simp
      · simp [Function.update_noteq h, h]
    · intro j
      by_cases h : j = i
      · subst h; simp [he]
      · simp [h]
  · cases hw : ((acc.1.spectralOrdervector i).orders order).hasWavelength
    · simp only [Bool.false_eq_true, if_false, if_true, true_and]
      refine ⟨?_, ?_, ?_⟩
      · intro j o
        by_cases h : j = i ∧ o = order
        · obtain ⟨rfl, rfl⟩ := h
          simp [gatheredOrder, hw]
        · rw [if_neg h]
      · intro j
        by_cases h : j = i
        · subst h; simp
        · simp [Function.update_noteq h, h]
      · intro j
        by_cases h : j = i
        · subst h; simp [he]
        · simp [Function.update_noteq h, h]
    · simp only [if_true, LoopState.setInputOrder, operaSpectralOrderVector.setSpectralOrder,
        true_and]
      refine ⟨?_, ?_, ?_⟩
      · intro j o
        by_cases hj : j = i
        · subst hj
          by_cases ho : o = order
          · subst ho
            simp [gatheredOrder, he, hw]
          · simp [ho]
        · simp [hj]
      · intro j
        by_cases h : j = i
        · subst h; simp
        · simp [Function.update_noteq h, h]
      · intro j
        by_cases h : j = i
        · subst h; simp [he]
        · simp [Function.update_noteq h, h]

/-- What the gathering loop does: it leaves the output vector, the streams and
the data file alone; it counts the exposures that have spectral elements; in
the input vectors it changes only the order being gathered, of the first `N`
exposures; and it assigns the pointers of the first `N` exposures. -/
theorem gather_spec (L : Library) (N : Nat) (order : Int) (st : LoopState) :
    (gather L N order st).1.outputorderVector = st.outputorderVector
    ∧ (gather L N order st).1.cout = st.cout
    ∧ (gather L N order st).1.cerr = st.cerr
    ∧ (gather L N order st).1.fdata = st.fdata
    ∧ (gather L N order st).2 = exposuresWithElements st N order
    ∧ (∀ i o, ((gather L N order st).1.spectralOrdervector i).orders o
        = if i < N ∧ o = order then gatheredOrder L ((st.spectralOrdervector i).orders o)
          else (st.spectralOrdervector i).orders o)
    ∧ (∀ i, (gather L N order st).1.spectralOrder i
        = if i < N then some order else st.spectralOrder i)
    ∧ (∀ i, (gather L N order st).1.spectralElements i
        = if i < N ∧ ((st.spectralOrdervector i).orders order).hasSpectralElements = true
          then some order else st.spectralElements i) := by
  induction N with
  | zero => simp [gather, exposuresWithElements]
  | succ N ih =>
    obtain ⟨h1, h2, h3, h4, h5, h6, h7, h8⟩ := ih
    obtain ⟨s1, s2, s3, s4, s5, s6, s7, s8⟩ :=
      gatherStep_spec L order (gather L N order st) N
    have hN : ∀ o, ((gather L N order st).1.spectralOrdervector N).orders o
        = (st.spectralOrdervector N).orders o := by
      intro o; rw [h6]; simp
    rw [gather_succ, exposuresWithElements_succ]
    refine ⟨s1.trans h1, s2.trans h2, s3.trans h3, s4.trans h4, ?_, ?_, ?_, ?_⟩
    · rw [s5, h5, hN]; rfl
    · intro i o
      rw [s6]
      by_cases hi : i = N
      · subst hi
        by_cases ho : o = order
        · subst ho; simp [hN]
        · simp [ho, hN]
      · have e : (i < N + 1) = (i < N) := by
          apply propext; constructor <;> intro h <;> omega
        simp only [hi, false_and, if_false, e, h6]
    · intro i
      rw [s7]
      by_cases hi : i = N
      · subst hi; simp
      · have e : (i < N + 1) = (i < N) := by
          apply propext; constructor <;> intro h <;> omega
        simp only [hi, if_false, e, h7]
    · intro i
      rw [s8]
      by_cases hi : i = N
      · subst hi; simp [hN, h8]
      · have e : (i < N + 1) = (i < N) := by
          apply propext; constructor <;> intro h <;> omega
        simp only [hi, false_and, if_false, e, h8]

theorem populate_succ (N : Nat) (f : Nat → operaSpectralOrder) (length : Nat) :
    populate (N + 1) f length = populateStep f length (populate N f length) N := by
  simp [populate, List.range_succ, List.foldl_append]

theorem populate_congr (N : Nat) (f f' : Nat → operaSpectralOrder) (length : Nat)
    (h : ∀ i, i < N → f i = f' i) : populate N f length = populate N f' length := by
  induction N with
  | zero => rfl
  | succ N ih =>
    rw [populate_succ, populate_succ, ih (fun i hi => h i (Nat.lt_succ_of_lt hi))]
    unfold populateStep
    rw [h N (Nat.lt_succ_self N)]

theorem outputXCorrelation_congr (N : Nat) (e e' : Nat → operaSpectralElements) (k : Nat)
    (h : ∀ i, i < N → e i = e' i) :
    outputXCorrelation N e k = outputXCorrelation N e' k := by
  unfold outputXCorrelation
  generalize (N : ℚ) = d
  induction N with
  | zero => rfl
  | succ N ih =>
    simp only [List.range_succ, List.foldl_append, List.foldl_cons, List.foldl_nil]
    rw [ih (fun i hi => h i (Nat.lt_succ_of_lt hi)), h N (Nat.lt_succ_self N)]

theorem updateXCorrelation_congr (N : Nat) (e e' : Nat → operaSpectralElements)
    (out : operaSpectralElements) (h : ∀ i, i < N → e i = e' i) :
    updateXCorrelation N e out = updateXCorrelation N e' out := by
  unfold updateXCorrelation
  have : (fun k => outputXCorrelation N e k) = fun k => outputXCorrelation N e' k :=
    funext fun k => outputXCorrelation_congr N e e' k h
  simp only [show ∀ k, outputXCorrelation N e k = outputXCorrelation N e' k from
    fun k => congrFun this k]

theorem computedPolarimetry_congr (L : Library) (cfg : Config)
    (f f' : Nat → operaSpectralOrder) (hN : 0 < cfg.NumberOfExposures)
    (h : ∀ i, i < cfg.NumberOfExposures → f i = f' i) :
    computedPolarimetry L cfg f = computedPolarimetry L cfg f' := by
  have hb : baseLength f = baseLength f' := by unfold baseLength; rw [h 0 hN]
  unfold computedPolarimetry
  simp only [hb, populate_congr _ f f' _ h]

theorem processedOutputOrder_congr (L : Library) (cfg : Config)
    (f f' : Nat → operaSpectralOrder) (e e' : Nat → operaSpectralElements)
    (out0 : operaSpectralOrder) (hN : 0 < cfg.NumberOfExposures)
    (h : ∀ i, i < cfg.NumberOfExposures → f i = f' i)
    (he : ∀ i, i < cfg.NumberOfExposures → e i = e' i) :
    processedOutputOrder L cfg f e out0 = processedOutputOrder L cfg f' e' out0 := by
  unfold processedOutputOrder
  simp only [computedPolarimetry_congr L cfg f f' hN h,
    updateXCorrelation_congr _ e e' _ he]

theorem processedDataLines_congr (L : Library) (cfg : Config) (order : Int)
    (f f' : Nat → operaSpectralOrder) (e e' : Nat → operaSpectralElements)
    (out0 : operaSpectralOrder) (hN : 0 < cfg.NumberOfExposures)
    (h : ∀ i, i < cfg.NumberOfExposures → f i = f' i)
    (he : ∀ i, i < cfg.NumberOfExposures → e i = e' i) :
    processedDataLines L cfg order f e out0 = processedDataLines L cfg order f' e' out0 := by
  have hb : baseLength f = baseLength f' := by unfold baseLength; rw [h 0 hN]
  unfold processedDataLines
  rw [processedOutputOrder_congr L cfg f f' e e' out0 hN h he,
    computedPolarimetry_congr L cfg f f' hN h, hb, populate_congr _ f f' _ h]

theorem exposuresWithElements_eq_iff (st : LoopState) (N : Nat) (order : Int) :
    exposuresWithElements st N order = N ↔
      ∀ i, i < N → ((st.spectralOrdervector i).orders order).hasSpectralElements = true := by
  unfold exposuresWithElements
  conv_lhs => rhs; rw [← List.length_range N]
  rw [List.countP_eq_length]
  simp [operaSpectralOrderVector.GetSpectralOrder]

/-- The state after the verbose line of an iteration was printed. -/
theorem orderStep_eq (L : Library) (cfg : Config) (st : LoopState) (order : Int) :
    ∃ st0 : LoopState,
      st0.outputorderVector = st.outputorderVector
      ∧ st0.spectralOrdervector = st.spectralOrdervector
      ∧ st0.fdata = st.fdata
      ∧ st0.cerr = st.cerr
      ∧ st0.cout = st.cout ++ (if cfg.verbose = true then [processingMessage order] else [])
      ∧ orderStep L cfg st order =
          if (gather L cfg.NumberOfExposures order st0).2 = cfg.NumberOfExposures then
            processOrder L cfg order (gather L cfg.NumberOfExposures order st0).1
          else if cfg.verbose = true then
            { (gather L cfg.NumberOfExposures order st0).1 with
              cerr := (gather L cfg.NumberOfExposures order st0).1.cerr ++ [skipMessage order] }
          else (gather L cfg.NumberOfExposures order st0).1 := by
  cases hv : cfg.verbose
  · exact ⟨st, rfl, rfl, rfl, rfl, by simp, by simp [orderStep, hv]⟩
  · exact ⟨{ st with cout := st.cout ++ [processingMessage order] }, rfl, rfl, rfl, rfl,
      by simp, by simp [orderStep, hv]⟩

theorem exposuresWithElements_congr (st st' : LoopState) (N : Nat) (order : Int)
    (h : ∀ i, i < N → ((st'.spectralOrdervector i).orders order).hasSpectralElements
      = ((st.spectralOrdervector i).orders order).hasSpectralElements) :
    exposuresWithElements st' N order = exposuresWithElements st N order := by
  unfold exposuresWithElements
  apply List.countP_congr
  intro i hi
  simp only [operaSpectralOrderVector.GetSpectralOrder, h i (List.mem_range.mp hi)]

/-- An iteration on an order that not all exposures have: nothing but the
streams changes. -/
theorem orderStep_skip (L : Library) (cfg : Config) (st : LoopState) (order : Int)
    (h : exposuresWithElements st cfg.NumberOfExposures order ≠ cfg.NumberOfExposures) :
    (orderStep L cfg st order).outputorderVector = st.outputorderVector
    ∧ (orderStep L cfg st order).fdata = st.fdata
    ∧ (orderStep L cfg st order).cout
        = st.cout ++ (if cfg.verbose = true then [processingMessage order] else [])
    ∧ (orderStep L cfg st order).cerr
        = st.cerr ++ (if cfg.verbose = true then [skipMessage order] else []) := by
  obtain ⟨st0, o1, o2, o3, o4, o5, e⟩ := orderStep_eq L cfg st order
  obtain ⟨g1, g2, g3, g4, g5, -, -, -⟩ := gather_spec L cfg.NumberOfExposures order st0
  have hc : exposuresWithElements st0 cfg.NumberOfExposures order
      = exposuresWithElements st cfg.NumberOfExposures order :=
    exposuresWithElements_congr st st0 _ _ (fun i _ => by rw [o2])
  rw [e, g5, hc, if_neg h]
  cases hv : cfg.verbose
  · simp only [Bool.false_eq_true, if_false, List.append_nil]
    exact ⟨g1.trans o1, g4.trans o3, by rw [g2, o5, hv]; simp, g3.trans o4⟩
  · simp only [if_true]
    exact ⟨g1.trans o1, g4.trans o3, by rw [g2, o5, hv]; simp, by rw [g3, o4]⟩

/-- An iteration, whatever its branch, changes in the input vectors only the
order it visits, and there only the spectral elements. -/
theorem orderStep_inputs (L : Library) (cfg : Config) (st : LoopState) (order : Int)
    (i : Nat) (o : Int) :
    ((orderStep L cfg st order).spectralOrdervector i).orders o
      = if i < cfg.NumberOfExposures ∧ o = order then
          gatheredOrder L ((st.spectralOrdervector i).orders o)
        else (st.spectralOrdervector i).orders o := by
  obtain ⟨st0, -, o2, -, -, -, e⟩ := orderStep_eq L cfg st order
  obtain ⟨-, -, -, -, -, g6, -, -⟩ := gather_spec L cfg.NumberOfExposures order st0
  rw [e, ← o2, ← g6 i o]
  split_ifs <;> rfl

/-- An iteration on an order that all exposures have: the output order is
replaced by the processed one and its lines are appended to the data file. -/
theorem orderStep_process (L : Library) (cfg : Config) (st : LoopState) (order : Int)
    (hN : 0 < cfg.NumberOfExposures)
    (h : exposuresWithElements st cfg.NumberOfExposures order = cfg.NumberOfExposures) :
    (orderStep L cfg st order).outputorderVector
        = st.outputorderVector.setSpectralOrder order (processedOrderOf L cfg st order)
    ∧ (orderStep L cfg st order).fdata
        = st.fdata.map (fun lines => lines ++ dataLinesOf L cfg st order)
    ∧ (orderStep L cfg st order).cout
        = st.cout ++ (if cfg.verbose = true then [processingMessage order] else [])
    ∧ (orderStep L cfg st order).cerr = st.cerr := by
  obtain ⟨st0, o1, o2, o3, o4, o5, e⟩ := orderStep_eq L cfg st order
  obtain ⟨g1, g2, g3, g4, g5, g6, g7, g8⟩ := gather_spec L cfg.NumberOfExposures order st0
  have hc : exposuresWithElements st0 cfg.NumberOfExposures order
      = exposuresWithElements st cfg.NumberOfExposures order :=
    exposuresWithElements_congr st st0 _ _ (fun i _ => by rw [o2])
  have hall := (exposuresWithElements_eq_iff st cfg.NumberOfExposures order).mp h
  have hso : ∀ i, i < cfg.NumberOfExposures →
      (gather L cfg.NumberOfExposures order st0).1.derefSpectralOrder i
        = gatheredExposure L st order i := by
    intro i hi
    unfold LoopState.derefSpectralOrder gatheredExposure
    rw [g7, if_pos hi]
    simp only [operaSpectralOrderVector.GetSpectralOrder]
    rw [g6, if_pos ⟨hi, rfl⟩, o2]
  have hse : ∀ i, i < cfg.NumberOfExposures →
      (gather L cfg.NumberOfExposures order st0).1.derefSpectralElements i
        = (gatheredExposure L st order i).SpectralElements := by
    intro i hi
    unfold LoopState.derefSpectralElements gatheredExposure
    rw [g8, o2, if_pos ⟨hi, hall i hi⟩]
    simp only [operaSpectralOrderVector.GetSpectralOrder]
    rw [g6, if_pos ⟨hi, rfl⟩, o2]
  rw [e, g5, hc, if_pos h]
  unfold processOrder processedOrderOf dataLinesOf
  simp only [g1, o1, g4, o3, g2, o5, g3, o4,
    processedOutputOrder_congr L cfg _ _ _ _ _ hN hso hse,
    processedDataLines_congr L cfg order _ _ _ _ _ hN hso hse, and_self]

theorem gatheredOrder_hasSpectralElements (L : Library) (so : operaSpectralOrder) :
    (gatheredOrder L so).hasSpectralElements = so.hasSpectralElements := by
  unfold gatheredOrder
  split_ifs <;> rfl

/-- The iterations never change which exposures have spectral elements. -/
theorem exposuresWithElements_orderStep (L : Library) (cfg : Config) (st : LoopState)
    (order : Int) (N : Nat) (k : Int) :
    exposuresWithElements (orderStep L cfg st order) N k = exposuresWithElements st N k := by
  apply exposuresWithElements_congr
  intro i _
  rw [orderStep_inputs]
  split_ifs
  · exact gatheredOrder_hasSpectralElements L _
  · rfl

theorem exposuresWithElements_runOrders (L : Library) (cfg : Config) (orders : List Int)
    (st : LoopState) (N : Nat) (k : Int) :
    exposuresWithElements (runOrders L cfg orders st) N k = exposuresWithElements st N k := by
  induction orders generalizing st with
  | nil => rfl
  | cons o rest ih =>
    show exposuresWithElements (runOrders L cfg rest (orderStep L cfg st o)) N k = _
    rw [ih, exposuresWithElements_orderStep]

theorem orderStep_cerr (L : Library) (cfg : Config) (st : LoopState) (order : Int)
    (hN : 0 < cfg.NumberOfExposures) :
    (orderStep L cfg st order).cerr
      = st.cerr ++ (if cfg.verbose = true
          ∧ exposuresWithElements st cfg.NumberOfExposures order ≠ cfg.NumberOfExposures
          then [skipMessage order] else []) := by
  by_cases h : exposuresWithElements st cfg.NumberOfExposures order = cfg.NumberOfExposures
  · rw [(orderStep_process L cfg st order hN h).2.2.2]
    simp [h]
  · rw [(orderStep_skip L cfg st order h).2.2.2]
    simp [h]

/-- The error stream after the loop: one warning per skipped order, in the
order of the visits, when verbose is on; nothing when it is off. -/
theorem runOrders_cerr (L : Library) (cfg : Config) (orders : List Int) (st : LoopState)
    (hN : 0 < cfg.NumberOfExposures) :
    (runOrders L cfg orders st).cerr
      = st.cerr ++ (if cfg.verbose = true then
          (incompleteOrders st cfg.NumberOfExposures orders).map skipMessage else []) := by
  induction orders generalizing st with
  | nil => simp [runOrders, incompleteOrders]
  | cons o rest ih =>
    show (runOrders L cfg rest (orderStep L cfg st o)).cerr = _
    rw [ih, orderStep_cerr L cfg st o hN]
    have hinc : incompleteOrders (orderStep L cfg st o) cfg.NumberOfExposures rest
        = incompleteOrders st cfg.NumberOfExposures rest := by
      unfold incompleteOrders
      apply List.filter_congr
      intro x _
      rw [exposuresWithElements_orderStep]
    rw [hinc]
    cases hv : cfg.verbose
    · simp
    · by_cases h : exposuresWithElements st cfg.NumberOfExposures o = cfg.NumberOfExposures
      · simp [incompleteOrders, h]
      · simp [incompleteOrders, h]

theorem mem_orderRange (minorder maxorder o : Int) :
    o ∈ orderRange minorder maxorder ↔ minorder ≤ o ∧ o ≤ maxorder := by
  unfold orderRange
  simp only [List.mem_map, List.mem_range]
  constructor
  · rintro ⟨k, hk, rfl⟩
    omega
  · rintro ⟨h1, h2⟩
    refine ⟨(o - minorder).toNat, ?_, ?_⟩ <;> omega

theorem orderRange_ascending (minorder maxorder : Int) :
    (orderRange minorder maxorder).Pairwise (· < ·) := by
  unfold orderRange
  rw [List.pairwise_map]
  have h : (List.range (maxorder + 1 - minorder).toNat).Pairwise (· < ·) :=
    List.pairwise_lt_range _
  exact h.imp (fun {a b} hab => by omega)

theorem AgreeOffOrder.refl (k : Int) (st : LoopState) : AgreeOffOrder k st st :=
  ⟨rfl, rfl, fun _ _ _ => rfl⟩

/-- An iteration on an order other than `k` keeps two states in agreement. -/
theorem orderStep_agree (L : Library) (cfg : Config) (k o : Int) (s1 s2 : LoopState)
    (hN : 0 < cfg.NumberOfExposures) (ho : o ≠ k) (hR : AgreeOffOrder k s1 s2) :
    AgreeOffOrder k (orderStep L cfg s1 o) (orderStep L cfg s2 o) := by
  obtain ⟨r1, r2, r3⟩ := hR
  have hin : ∀ i, (s1.spectralOrdervector i).orders o = (s2.spectralOrdervector i).orders o :=
    fun i => r3 i o ho
  have hc : exposuresWithElements s1 cfg.NumberOfExposures o
      = exposuresWithElements s2 cfg.NumberOfExposures o :=
    exposuresWithElements_congr s2 s1 _ _ (fun i _ => by rw [hin])
  have hg : gatheredExposure L s1 o = gatheredExposure L s2 o := by
    funext i
    unfold gatheredExposure
    rw [hin]
  refine ⟨?_, ?_, ?_⟩
  · by_cases h : exposuresWithElements s1 cfg.NumberOfExposures o = cfg.NumberOfExposures
    · rw [(orderStep_process L cfg s1 o hN h).1,
        (orderStep_process L cfg s2 o hN (hc ▸ h)).1]
      unfold processedOrderOf
      rw [hg, r1]
    · rw [(orderStep_skip L cfg s1 o h).1, (orderStep_skip L cfg s2 o (hc ▸ h)).1, r1]
  · by_cases h : exposuresWithElements s1 cfg.NumberOfExposures o = cfg.NumberOfExposures
    · rw [(orderStep_process L cfg s1 o hN h).2.1,
        (orderStep_process L cfg s2 o hN (hc ▸ h)).2.1]
      unfold dataLinesOf
      rw [hg, r1, r2]
    · rw [(orderStep_skip L cfg s1 o h).2.1, (orderStep_skip L cfg s2 o (hc ▸ h)).2.1, r2]
  · intro i o' ho'
    rw [orderStep_inputs, orderStep_inputs, r3 i o' ho']

/-- An iteration that skips the order `k` keeps the state in agreement with a
state that did not visit it. -/
theorem orderStep_skip_agree (L : Library) (cfg : Config) (k : Int) (s1 s2 : LoopState)
    (hk : exposuresWithElements s1 cfg.NumberOfExposures k ≠ cfg.NumberOfExposures)
    (hR : AgreeOffOrder k s1 s2) :
    AgreeOffOrder k (orderStep L cfg s1 k) s2 := by
  obtain ⟨r1, r2, r3⟩ := hR
  refine ⟨?_, ?_, ?_⟩
  · rw [(orderStep_skip L cfg s1 k hk).1, r1]
  · rw [(orderStep_skip L cfg s1 k hk).2.1, r2]
  · intro i o ho
    rw [orderStep_inputs, if_neg (fun h => ho h.2), r3 i o ho]

/-- The loop over a list of orders and the loop over the same list without the
incomplete order `k` end in agreement. -/
theorem runOrders_without_skipped (L : Library) (cfg : Config) (k : Int)
    (hN : 0 < cfg.NumberOfExposures) (orders : List Int) :
    ∀ s1 s2 : LoopState, AgreeOffOrder k s1 s2 →
      exposuresWithElements s1 cfg.NumberOfExposures k ≠ cfg.NumberOfExposures →
      AgreeOffOrder k (runOrders L cfg orders s1)
        (runOrders L cfg (withoutOrder k orders) s2) := by
  induction orders with
  | nil => intro s1 s2 hR _; exact hR
  | cons o rest ih =>
    intro s1 s2 hR hk
    have hk' : exposuresWithElements (orderStep L cfg s1 o) cfg.NumberOfExposures k
        ≠ cfg.NumberOfExposures := by
      rw [exposuresWithElements_orderStep]; exact hk
    by_cases ho : o = k
    · subst ho
      have e : withoutOrder o (o :: rest) = withoutOrder o rest := by
        simp [withoutOrder]
      rw [e]
      exact ih (orderStep L cfg s1 o) s2 (orderStep_skip_agree L cfg o s1 s2 hk hR) hk'
    · have e : withoutOrder k (o :: rest) = o :: withoutOrder k rest := by
        simp [withoutOrder, ho]
      rw [e]
      exact ih (orderStep L cfg s1 o) (orderStep L cfg s2 o)
        (orderStep_agree L cfg k o s1 s2 hN ho hR) hk'

theorem checkOptions_exposures (opts : Options) (h : checkOptions opts = none) :
    opts.NumberOfExposures = 2 ∨ opts.NumberOfExposures = 4 := by
  unfold checkOptions at h
  split_ifs at h with h1 h2 h3 h4
  by_contra hc
  exact h3 ⟨fun e => hc (Or.inl e), fun e => hc (Or.inr e)⟩

theorem main_of_valid (L : Library) (opts : Options) (hcheck : checkOptions opts = none)
    (hinput : firstEmptyInput opts = none) :
    main L opts =
      { status := EXIT_SUCCESS, thrownAt := none
        cout := (finalLoopState L opts).cout, cerr := (finalLoopState L opts).cerr
        dataFile := (finalLoopState L opts).fdata
        written := some (finalLoopState L opts).outputorderVector
        plotCall := (main L opts).plotCall } := by
  unfold main
  simp only [hcheck, hinput]

theorem finalLoopState_eq (L : Library) (opts : Options) :
    finalLoopState L opts
      = runOrders L opts.toConfig (visitedOrders L opts) (initialLoopState L opts) := rfl

/-! ## The example run -/

theorem example_check : checkOptions exampleOptions = none := by decide

theorem example_inputs : firstEmptyInput exampleOptions = none := by decide

theorem example_visited : visitedOrders exampleLibrary exampleOptions = [30, 31] := by
  decide

theorem example_incomplete :
    exposuresWithElements (initialLoopState exampleLibrary exampleOptions)
      exampleOptions.NumberOfExposures 30 = 3 := by
  decide

theorem verbose_check : checkOptions verboseOptions = none := by decide

theorem verbose_inputs : firstEmptyInput verboseOptions = none := by decide

theorem verbose_visited : visitedOrders exampleLibrary verboseOptions = [30, 31] := by
  decide

theorem verbose_incomplete :
    exposuresWithElements (initialLoopState exampleLibrary verboseOptions)
      verboseOptions.NumberOfExposures 30 = 3 := by
  decide

/-! ## The properties of the order loop -/

/-- C8. An iteration of the order loop on an order for which fewer than N of
the N exposures have spectral elements skips the order: the output vector is
left as it was, so the polarimetry record of the output order, its
has-polarimetry flag and its cross-correlation values are unchanged, and
nothing is written to the data file. -/
theorem skipped_order_leaves_output (L : Library) (cfg : Config) (st : LoopState)
    (order : Int)
    (h : exposuresWithElements st cfg.NumberOfExposures order < cfg.NumberOfExposures) :
    (orderStep L cfg st order).outputorderVector = st.outputorderVector
    ∧ ((orderStep L cfg st order).outputorderVector.GetSpectralOrder order).Polarimetry
        = (st.outputorderVector.GetSpectralOrder order).Polarimetry
    ∧ ((orderStep L cfg st order).outputorderVector.GetSpectralOrder order).hasPolarimetry
        = (st.outputorderVector.GetSpectralOrder order).hasPolarimetry
    ∧ ((orderStep L cfg st order).outputorderVector.GetSpectralOrder
          order).SpectralElements.XCorrelation
        = (st.outputorderVector.GetSpectralOrder order).SpectralElements.XCorrelation
    ∧ (orderStep L cfg st order).fdata = st.fdata := by
  obtain ⟨h1, h2, -, -⟩ := orderStep_skip L cfg st order (Nat.ne_of_lt h)
  rw [h1]
  exact ⟨rfl, rfl, rfl, rfl, h2⟩

/-- Witness of C8: the order 30 of the example run, whose exposures are
present, present, missing, present. -/
theorem skipped_order_leaves_output_witness :
    exposuresWithElements (initialLoopState exampleLibrary exampleOptions)
        exampleOptions.toConfig.NumberOfExposures 30
      < exampleOptions.toConfig.NumberOfExposures
    ∧ (orderStep exampleLibrary exampleOptions.toConfig
        (initialLoopState exampleLibrary exampleOptions) 30).outputorderVector
        = (initialLoopState exampleLibrary exampleOptions).outputorderVector
    ∧ (orderStep exampleLibrary exampleOptions.toConfig
        (initialLoopState exampleLibrary exampleOptions) 30).fdata
        = (initialLoopState exampleLibrary exampleOptions).fdata :=
  ⟨by decide,
    (skipped_order_leaves_output exampleLibrary exampleOptions.toConfig
      (initialLoopState exampleLibrary exampleOptions) 30 (by decide)).1,
    (skipped_order_leaves_output exampleLibrary exampleOptions.toConfig
      (initialLoopState exampleLibrary exampleOptions) 30 (by decide)).2.2.2.2⟩

/-- C9. Skipping an incomplete order is not fatal: in a run that passes the
checks, with an order `k` of the range that fewer than N exposures have, the
exit status is success; the loop visits the orders from `minorder` to
`maxorder`, each once, in ascending order; and the output vector that is
written and the data file are exactly those of the loop run over the same
orders with `k` left out. -/
theorem skipped_order_is_not_fatal (L : Library) (opts : Options) (k : Int)
    (hcheck : checkOptions opts = none) (hinput : firstEmptyInput opts = none)
    (_hk : k ∈ visitedOrders L opts)
    (hinc : exposuresWithElements (initialLoopState L opts) opts.NumberOfExposures k
      < opts.NumberOfExposures) :
    (main L opts).status = EXIT_SUCCESS
    ∧ finalLoopState L opts
        = runOrders L opts.toConfig (visitedOrders L opts) (initialLoopState L opts)
    ∧ (visitedOrders L opts).Pairwise (· < ·)
    ∧ (∀ o, o ∈ visitedOrders L opts ↔
        effectiveMinorder opts (loadOutputVector L opts) ≤ o
          ∧ o ≤ effectiveMaxorder opts (loadOutputVector L opts))
    ∧ (∀ o, o ∈ withoutOrder k (visitedOrders L opts) ↔ o ∈ visitedOrders L opts ∧ o ≠ k)
    ∧ (main L opts).written
        = some (runOrders L opts.toConfig (withoutOrder k (visitedOrders L opts))
            (initialLoopState L opts)).outputorderVector
    ∧ (main L opts).dataFile
        = (runOrders L opts.toConfig (withoutOrder k (visitedOrders L opts))
            (initialLoopState L opts)).fdata := by
  have hN : 0 < opts.toConfig.NumberOfExposures := by
    rcases checkOptions_exposures opts hcheck with h | h <;>
      simp [Options.toConfig, h]
  have hR := runOrders_without_skipped L opts.toConfig k hN (visitedOrders L opts)
    (initialLoopState L opts) (initialLoopState L opts) (AgreeOffOrder.refl k _)
    (Nat.ne_of_lt hinc)
  rw [← finalLoopState_eq] at hR
  obtain ⟨r1, r2, -⟩ := hR
  rw [main_of_valid L opts hcheck hinput]
  refine ⟨rfl, rfl, orderRange_ascending _ _, fun o => mem_orderRange _ _ o, ?_, ?_, ?_⟩
  · intro o
    simp [withoutOrder]
  · simp only [r1]
  · simp only [r2]

/-- Witness of C9: the example run, whose order 30 is incomplete. -/
theorem skipped_order_is_not_fatal_witness :
    checkOptions exampleOptions = none
    ∧ firstEmptyInput exampleOptions = none
    ∧ (30 : Int) ∈ visitedOrders exampleLibrary exampleOptions
    ∧ exposuresWithElements (initialLoopState exampleLibrary exampleOptions)
        exampleOptions.NumberOfExposures 30 < exampleOptions.NumberOfExposures
    ∧ (main exampleLibrary exampleOptions).status = EXIT_SUCCESS
    ∧ (main exampleLibrary exampleOptions).written
        = some (runOrders exampleLibrary exampleOptions.toConfig
            (withoutOrder 30 (visitedOrders exampleLibrary exampleOptions))
            (initialLoopState exampleLibrary exampleOptions)).outputorderVector :=
  ⟨example_check, example_inputs, by decide, by decide,
    (skipped_order_is_not_fatal exampleLibrary exampleOptions 30 example_check
      example_inputs (by decide) (by decide)).1,
    (skipped_order_is_not_fatal exampleLibrary exampleOptions 30 example_check
      example_inputs (by decide) (by decide)).2.2.2.2.2.1⟩

theorem main_cerr (L : Library) (opts : Options) (hcheck : checkOptions opts = none)
    (hinput : firstEmptyInput opts = none) :
    (main L opts).cerr
      = if opts.verbose = true then
          orderLimitsMessage (effectiveMinorder opts (loadOutputVector L opts))
              (effectiveMaxorder opts (loadOutputVector L opts))
            :: (incompleteOrders (initialLoopState L opts) opts.NumberOfExposures
                (visitedOrders L opts)).map skipMessage
        else [] := by
  have hN : 0 < opts.toConfig.NumberOfExposures := by
    rcases checkOptions_exposures opts hcheck with h | h <;>
      simp [Options.toConfig, h]
  rw [main_of_valid L opts hcheck hinput]
  show (finalLoopState L opts).cerr = _
  rw [finalLoopState_eq, runOrders_cerr L opts.toConfig _ _ hN]
  cases hv : opts.verbose
  · simp [Options.toConfig, initialLoopState, hv]
  · simp [Options.toConfig, initialLoopState, hv]

/-- C10, as corrected. In a run that passes the checks the warning naming a
skipped order is printed exactly when verbose is on: with verbose on the error
stream holds the line of the order limits followed by one warning for each
order of the range that fewer than N exposures have, in ascending order, so the
warning of every skipped order is there; with verbose off the error stream is
empty. -/
theorem skip_warning_only_when_verbose (L : Library) (opts : Options) (k : Int)
    (hcheck : checkOptions opts = none) (hinput : firstEmptyInput opts = none)
    (hk : k ∈ visitedOrders L opts)
    (hinc : exposuresWithElements (initialLoopState L opts) opts.NumberOfExposures k
      < opts.NumberOfExposures) :
    (opts.verbose = true →
      (main L opts).cerr
          = orderLimitsMessage (effectiveMinorder opts (loadOutputVector L opts))
              (effectiveMaxorder opts (loadOutputVector L opts))
            :: (incompleteOrders (initialLoopState L opts) opts.NumberOfExposures
                (visitedOrders L opts)).map skipMessage
        ∧ skipMessage k ∈ (main L opts).cerr)
    ∧ (opts.verbose = false → (main L opts).cerr = []) := by
  have hc := main_cerr L opts hcheck hinput
  refine ⟨fun hv => ?_, fun hv => ?_⟩
  · rw [hc, if_pos hv]
    refine ⟨rfl, List.mem_cons_of_mem _ (List.mem_map_of_mem _ ?_)⟩
    unfold incompleteOrders
    rw [List.mem_filter]
    exact ⟨hk, by simpa using Nat.ne_of_lt hinc⟩
  · rw [hc, hv]
    rfl

/-- Witness of C10, as corrected: the example run with verbose on prints the
warning of the skipped order 30. -/
theorem skip_warning_only_when_verbose_witness :
    checkOptions verboseOptions = none
    ∧ firstEmptyInput verboseOptions = none
    ∧ (30 : Int) ∈ visitedOrders exampleLibrary verboseOptions
    ∧ exposuresWithElements (initialLoopState exampleLibrary verboseOptions)
        verboseOptions.NumberOfExposures 30 < verboseOptions.NumberOfExposures
    ∧ verboseOptions.verbose = true
    ∧ skipMessage 30 ∈ (main exampleLibrary verboseOptions).cerr :=
  ⟨verbose_check, verbose_inputs, by decide, by decide, rfl,
    ((skip_warning_only_when_verbose exampleLibrary verboseOptions 30 verbose_check
      verbose_inputs (by decide) (by decide)).1 rfl).2⟩

/-- C10, as stated, fails: the example run, with verbose off, succeeds and
skips the order 30 of its range, which only three of the four exposures have,
and prints no warning: its error stream is empty. -/
theorem skip_without_warning :
    (30 : Int) ∈ visitedOrders exampleLibrary exampleOptions
    ∧ exposuresWithElements (initialLoopState exampleLibrary exampleOptions)
        exampleOptions.NumberOfExposures 30 < exampleOptions.NumberOfExposures
    ∧ (main exampleLibrary exampleOptions).status = EXIT_SUCCESS
    ∧ (main exampleLibrary exampleOptions).cerr = []
    ∧ skipMessage 30 ∉ (main exampleLibrary exampleOptions).cerr := by
  have hc := main_cerr exampleLibrary exampleOptions example_check example_inputs
  have hv : exampleOptions.verbose = false := rfl
  rw [hv] at hc
  have hs : (main exampleLibrary exampleOptions).status = EXIT_SUCCESS := by
    rw [main_of_valid exampleLibrary exampleOptions example_check example_inputs]
  refine ⟨by decide, by decide, hs, hc, ?_⟩
  rw [hc]
  exact List.not_mem_nil _

theorem dataRow_two (flag : Int) (cfg : Config) (order : Int) (e : operaSpectralElements)
    (P : operaPolarimetry) (slots : BeamSlots) (index : Nat)
    (hN : cfg.NumberOfExposures = 2) :
    dataRow flag cfg order e P slots index =
      DataLine.row
        [DataCell.int flag, DataCell.int order,
         DataCell.real (e.getdistd index), DataCell.real (e.getwavelength index),
         DataCell.real ((P.getStokesParameter stokes_parameter_t.StokesI).getflux index),
         DataCell.real ((P.getStokesParameter cfg.StokesParameter).getflux index),
         DataCell.real ((P.getDegreeOfPolarization cfg.StokesParameter).getflux index),
         DataCell.real ((P.getFirstNullPolarization cfg.StokesParameter).getflux index),
         DataCell.real ((P.getSecondNullPolarization cfg.StokesParameter).getflux index),
         DataCell.real (slots.getfluxE 0 index), DataCell.real (slots.getfluxA 0 index),
         DataCell.real (slots.getfluxE 1 index), DataCell.real (slots.getfluxA 1 index)] := by
  unfold dataRow
  rw [hN]
  rfl

theorem getflux_of_agree (s s' : BeamSlots) (h : AgreeOnFirstTwoSlots s s') (index : Nat) :
    s'.getfluxE 0 index = s.getfluxE 0 index ∧ s'.getfluxA 0 index = s.getfluxA 0 index
    ∧ s'.getfluxE 1 index = s.getfluxE 1 index ∧ s'.getfluxA 1 index = s.getfluxA 1 index := by
  obtain ⟨h1, h2, h3, h4⟩ := h
  unfold BeamSlots.getfluxE BeamSlots.getfluxA
  rw [h1, h2, h3, h4]
  exact ⟨rfl, rfl, rfl, rfl⟩

theorem scenarioExposures_aligned_two : BeamsAligned 2 scenarioExposures :=
  fun i hi beam hb => scenarioExposures_aligned i (by omega) beam hb

/-- C7. With two exposures no swap applies: the populating loop puts copies of
the E and A beams of raw exposures 1 and 2 in slots 1 and 2 (exactly the raw
vectors when the beams have the base length) and leaves slots 3 and 4
unassigned; the rows of the data file read only slots 1 and 2; and the closing
loop releases exactly the four vectors of slots 1 and 2. -/
theorem two_exposures_no_swap (spectralOrder : Nat → operaSpectralOrder) (length : Nat) :
    populate 2 spectralOrder length =
      { iE := [some (copyBeam (spectralOrder 0) 0 length),
               some (copyBeam (spectralOrder 1) 0 length), none, none],
        iA := [some (copyBeam (spectralOrder 0) 1 length),
               some (copyBeam (spectralOrder 1) 1 length), none, none] }
    ∧ (BeamsAligned 2 spectralOrder →
        populate 2 spectralOrder (baseLength spectralOrder) =
          { iE := [some (spectralOrder 0).BeamE, some (spectralOrder 1).BeamE, none, none],
            iA := [some (spectralOrder 0).BeamA, some (spectralOrder 1).BeamA, none, none] })
    ∧ deletedVectors 2 (populate 2 spectralOrder length) =
        [some (copyBeam (spectralOrder 0) 0 length), some (copyBeam (spectralOrder 0) 1 length),
         some (copyBeam (spectralOrder 1) 0 length), some (copyBeam (spectralOrder 1) 1 length)]
    ∧ (∀ (s s' : BeamSlots), AgreeOnFirstTwoSlots s s' →
        deletedVectors 2 s' = deletedVectors 2 s
        ∧ ∀ (cfg : Config), cfg.NumberOfExposures = 2 →
            ∀ (flag order : Int) (e : operaSpectralElements) (P : operaPolarimetry)
              (index : Nat),
              dataRow flag cfg order e P s' index = dataRow flag cfg order e P s index) := by
  refine ⟨populate_two spectralOrder length, fun h => ?_, ?_, ?_⟩
  · rw [populate_two]
    have e : ∀ i, i < 2 → ∀ beam, beam < 2 →
        copyBeam (spectralOrder i) beam (baseLength spectralOrder)
          = (spectralOrder i).getBeamFluxVector beam := fun i hi beam hb =>
      copyBeam_eq_of_length _ _ _ (h i hi beam hb).1 (h i hi beam hb).2
    rw [e 0 (by norm_num) 0 (by norm_num), e 1 (by norm_num) 0 (by norm_num),
      e 0 (by norm_num) 1 (by norm_num), e 1 (by norm_num) 1 (by norm_num)]
    rfl
  · rw [populate_two]
    rfl
  · intro s s' h
    refine ⟨?_, ?_⟩
    · obtain ⟨h1, h2, h3, h4⟩ := h
      show [s'.iE.getD 0 none, s'.iA.getD 0 none, s'.iE.getD 1 none, s'.iA.getD 1 none]
        = [s.iE.getD 0 none, s.iA.getD 0 none, s.iE.getD 1 none, s.iA.getD 1 none]
      rw [h1, h2, h3, h4]
    · intro cfg hN flag order e P index
      obtain ⟨g1, g2, g3, g4⟩ := getflux_of_agree s s' h index
      rw [dataRow_two _ _ _ _ _ _ _ hN, dataRow_two _ _ _ _ _ _ _ hN, g1, g2, g3, g4]

/-- Witness of C7 on the first two exposures of the end-to-end scenario. -/
theorem two_exposures_no_swap_witness :
    BeamsAligned 2 scenarioExposures
    ∧ populate 2 scenarioExposures (baseLength scenarioExposures) =
        { iE := [some (scenarioExposures 0).BeamE, some (scenarioExposures 1).BeamE,
                 none, none],
          iA := [some (scenarioExposures 0).BeamA, some (scenarioExposures 1).BeamA,
                 none, none] } :=
  ⟨scenarioExposures_aligned_two,
    (two_exposures_no_swap scenarioExposures (baseLength scenarioExposures)).2.1
      scenarioExposures_aligned_two⟩

/-! ## The record and the cross-correlation of a processed order -/

theorem gatheredOrder_beams (L : Library) (so : operaSpectralOrder) :
    (gatheredOrder L so).BeamE = so.BeamE ∧ (gatheredOrder L so).BeamA = so.BeamA := by
  unfold gatheredOrder
  split_ifs <;> exact ⟨rfl, rfl⟩

theorem baseLength_gatheredExposure (L : Library) (st : LoopState) (order : Int) :
    baseLength (gatheredExposure L st order)
      = ((st.spectralOrdervector 0).GetSpectralOrder order).BeamE.getlength := by
  unfold baseLength gatheredExposure operaSpectralOrder.getBeamFluxVector
  rw [if_pos rfl, (gatheredOrder_beams L _).1]
  rfl

theorem processedOutputOrder_eq (L : Library) (cfg : Config)
    (f : Nat → operaSpectralOrder) (e : Nat → operaSpectralElements)
    (out0 : operaSpectralOrder) :
    processedOutputOrder L cfg f e out0 =
      { calibratedOutputOrder L cfg out0 with
        SpectralElements :=
          updateXCorrelation cfg.NumberOfExposures e
            (calibratedOutputOrder L cfg out0).SpectralElements
        Polarimetry := some (computedPolarimetry L cfg f)
        hasPolarimetry := true } := by
  unfold processedOutputOrder calibratedOutputOrder
  split_ifs <;> rfl

theorem GetSpectralOrder_setSpectralOrder (v : operaSpectralOrderVector) (order o : Int)
    (so : operaSpectralOrder) :
    (v.setSpectralOrder order so).GetSpectralOrder o
      = if o = order then so else v.GetSpectralOrder o := rfl

/-- C11. An iteration of the order loop on an order that all N exposures have
stores in the output order a polarimetry record that owes nothing to the
record the order held before: it is the record created with the number of
elements of the first-beam flux vector of exposure 1, given the method and
filled by the engine from the populated arrays; the same record results
whatever the output vector held; the order is flagged as having polarimetry;
and the other orders of the output vector are left as they were. -/
theorem processed_order_stores_fresh_record (L : Library) (cfg : Config) (st : LoopState)
    (order : Int) (hN : 0 < cfg.NumberOfExposures)
    (h : exposuresWithElements st cfg.NumberOfExposures order = cfg.NumberOfExposures) :
    ((orderStep L cfg st order).outputorderVector.GetSpectralOrder order).Polarimetry
        = some (L.calculateStokesParameter cfg.StokesParameter
            (populate cfg.NumberOfExposures (gatheredExposure L st order)
              ((st.spectralOrdervector 0).GetSpectralOrder order).BeamE.getlength)
            cfg.NumberOfExposures
            ((L.createPolarimetry
              ((st.spectralOrdervector 0).GetSpectralOrder order).BeamE.getlength).setmethod
                cfg.method))
    ∧ ((orderStep L cfg st order).outputorderVector.GetSpectralOrder order).hasPolarimetry
        = true
    ∧ (∀ st' : LoopState, st'.spectralOrdervector = st.spectralOrdervector →
        ((orderStep L cfg st' order).outputorderVector.GetSpectralOrder order).Polarimetry
          = ((orderStep L cfg st order).outputorderVector.GetSpectralOrder order).Polarimetry)
    ∧ (∀ o, o ≠ order →
        (orderStep L cfg st order).outputorderVector.GetSpectralOrder o
          = st.outputorderVector.GetSpectralOrder o) := by
  have key : ∀ s : LoopState, s.spectralOrdervector = st.spectralOrdervector →
      ((orderStep L cfg s order).outputorderVector.GetSpectralOrder order).Polarimetry
        = some (L.calculateStokesParameter cfg.StokesParameter
            (populate cfg.NumberOfExposures (gatheredExposure L st order)
              ((st.spectralOrdervector 0).GetSpectralOrder order).BeamE.getlength)
            cfg.NumberOfExposures
            ((L.createPolarimetry
              ((st.spectralOrdervector 0).GetSpectralOrder order).BeamE.getlength).setmethod
                cfg.method)) := by
    intro s hs
    have hc : exposuresWithElements s cfg.NumberOfExposures order = cfg.NumberOfExposures := by
      rw [exposuresWithElements_congr st s _ _ (fun i _ => by rw [hs])]; exact h
    have hg : gatheredExposure L s order = gatheredExposure L st order := by
      unfold gatheredExposure; rw [hs]
    rw [(orderStep_process L cfg s order hN hc).1, GetSpectralOrder_setSpectralOrder,
      if_pos rfl]
    unfold processedOrderOf
    rw [processedOutputOrder_eq, hg]
    show some (computedPolarimetry L cfg (gatheredExposure L st order)) = _
    unfold computedPolarimetry
    rw [baseLength_gatheredExposure]
  refine ⟨key st rfl, ?_, fun st' hs => (key st' hs).trans (key st rfl).symm, ?_⟩
  · rw [(orderStep_process L cfg st order hN h).1, GetSpectralOrder_setSpectralOrder,
      if_pos rfl]
    unfold processedOrderOf
    rw [processedOutputOrder_eq]
  · intro o ho
    rw [(orderStep_process L cfg st order hN h).1, GetSpectralOrder_setSpectralOrder,
      if_neg ho]

/-- Witness of C11: the order 31 of the example run, which all four exposures
have. -/
theorem processed_order_stores_fresh_record_witness :
    0 < exampleOptions.toConfig.NumberOfExposures
    ∧ exposuresWithElements (initialLoopState exampleLibrary exampleOptions)
        exampleOptions.toConfig.NumberOfExposures 31
      = exampleOptions.toConfig.NumberOfExposures
    ∧ ((orderStep exampleLibrary exampleOptions.toConfig
        (initialLoopState exampleLibrary exampleOptions) 31).outputorderVector.GetSpectralOrder
          31).hasPolarimetry = true :=
  ⟨by decide, by decide,
    (processed_order_stores_fresh_record exampleLibrary exampleOptions.toConfig
      (initialLoopState exampleLibrary exampleOptions) 31 (by decide) (by decide)).2.1⟩

theorem foldl_add_div (g : Nat → ℚ) (d : ℚ) (l : List Nat) (a : ℚ) :
    l.foldl (fun acc i => acc + g i / d) a = a + (l.map g).sum / d := by
  induction l generalizing a with
  | nil => simp
  | cons i rest ih =>
    simp only [List.foldl_cons, List.map_cons, List.sum_cons, ih]
    ring

theorem sum_map_div (g : Nat → ℚ) (d : ℚ) (l : List Nat) :
    (l.map (fun i => g i / d)).sum = (l.map g).sum / d := by
  induction l with
  | nil => simp
  | cons i rest ih =>
    simp only [List.map_cons, List.sum_cons, ih]
    ring

/-- When no operation of the loop rounds, the accumulated value is the
arithmetic mean. -/
theorem outputXCorrelation_of_exact (N : Nat) (e : Nat → operaSpectralElements) (k : Nat)
    (hq : ∀ i, i < N →
      roundToDouble ((e i).getXCorrelation k / (N : ℚ)) = (e i).getXCorrelation k / (N : ℚ))
    (hs : ∀ n, n < N →
      roundToDouble (((List.range n).map (fun i => (e i).getXCorrelation k / (N : ℚ))).sum
          + (e n).getXCorrelation k / (N : ℚ))
        = ((List.range n).map (fun i => (e i).getXCorrelation k / (N : ℚ))).sum
          + (e n).getXCorrelation k / (N : ℚ)) :
    outputXCorrelation N e k
      = ((List.range N).map (fun i => (e i).getXCorrelation k)).sum / (N : ℚ) := by
  have key : ∀ n, n ≤ N →
      (List.range n).foldl
        (fun acc i =>
          roundToDouble (acc + roundToDouble ((e i).getXCorrelation k / (N : ℚ)))) 0
        = ((List.range n).map (fun i => (e i).getXCorrelation k / (N : ℚ))).sum := by
    intro n
    induction n with
    | zero => intro _; rfl
    | succ n ih =>
      intro hn
      rw [List.range_succ, List.foldl_append, ih (by omega), List.map_append, List.sum_append]
      simp only [List.foldl_cons, List.foldl_nil, List.map_cons, List.map_nil, List.sum_cons,
        List.sum_nil, add_zero]
      rw [hq n (by omega), hs n (by omega)]
  unfold outputXCorrelation
  rw [key N (le_refl N), sum_map_div]

theorem foldl_set_length (g : Nat → ℚ) (js : List Nat) (l : List ℚ) :
    (js.foldl (fun xs j => xs.set j (g j)) l).length = l.length := by
  induction js generalizing l with
  | nil => rfl
  | cons j rest ih => simp only [List.foldl_cons, ih, List.length_set]

theorem foldl_set_getD (g : Nat → ℚ) (n : Nat) (l : List ℚ) (k : Nat) :
    ((List.range n).foldl (fun xs j => xs.set j (g j)) l).getD k 0
      = if k < n ∧ k < l.length then g k else l.getD k 0 := by
  induction n with
  | zero => simp
  | succ n ih =>
    simp only [List.range_succ, List.foldl_append, List.foldl_cons, List.foldl_nil]
    have hlen := foldl_set_length g (List.range n) l
    by_cases hk : k = n
    · subst hk
      by_cases hl : k < l.length
      · have hl' : k < ((List.range k).foldl (fun xs j => xs.set j (g j)) l).length := by
          rw [hlen]; exact hl
        rw [List.getD_eq_getElem?_getD, List.getElem?_set_self hl']
        simp [hl]
      · have hl' : ((List.range k).foldl (fun xs j => xs.set j (g j)) l).length ≤ k := by
          rw [hlen]; omega
        rw [List.getD_eq_getElem?_getD, List.getElem?_eq_none (by simpa using hl')]
        rw [List.getD_eq_getElem?_getD, List.getElem?_eq_none (by omega)]
        simp [hl]
    · have e1 : (k < n + 1) = (k < n) := by
        apply propext; constructor <;> intro h <;> omega
      have hne : n ≠ k := fun h => hk h.symm
      have e2 : (k < n + 1 ∧ k < l.length) = (k < n ∧ k < l.length) := by rw [e1]
      simp only [e2]
      rw [← ih, List.getD_eq_getElem?_getD, List.getElem?_set_ne hne,
        ← List.getD_eq_getElem?_getD]

theorem foldl_setXCorrelation_XCorrelation (g : Nat → ℚ) (js : List Nat)
    (out : operaSpectralElements) :
    (js.foldl (fun e j => e.setXCorrelation (g j) j) out).XCorrelation
      = js.foldl (fun xs j => xs.set j (g j)) out.XCorrelation := by
  induction js generalizing out with
  | nil => rfl
  | cons j rest ih =>
    simp only [List.foldl_cons]
    rw [ih]
    rfl

/-- The cross-correlation of an element after the update loop. -/
theorem updateXCorrelation_get (N : Nat) (e : Nat → operaSpectralElements)
    (out : operaSpectralElements) (k : Nat) :
    (updateXCorrelation N e out).getXCorrelation k
      = if k < out.nSpectralElements ∧ k < out.XCorrelation.length then
          outputXCorrelation N e k
        else out.getXCorrelation k := by
  unfold updateXCorrelation operaSpectralElements.getXCorrelation
  rw [foldl_setXCorrelation_XCorrelation (fun j => outputXCorrelation N e j)]
  exact foldl_set_getD _ _ _ _

theorem stored_cross_correlation (L : Library) (cfg : Config) (st : LoopState) (order : Int)
    (k : Nat) (hN : 0 < cfg.NumberOfExposures)
    (h : exposuresWithElements st cfg.NumberOfExposures order = cfg.NumberOfExposures)
    (hk : k < (calibratedOutputOrder L cfg
      (st.outputorderVector.GetSpectralOrder order)).SpectralElements.nSpectralElements)
    (hlen : k < (calibratedOutputOrder L cfg
      (st.outputorderVector.GetSpectralOrder order)).SpectralElements.XCorrelation.length) :
    ((orderStep L cfg st order).outputorderVector.GetSpectralOrder
        order).SpectralElements.getXCorrelation k
      = outputXCorrelation cfg.NumberOfExposures
          (fun i => (gatheredExposure L st order i).SpectralElements) k := by
  rw [(orderStep_process L cfg st order hN h).1, GetSpectralOrder_setSpectralOrder,
    if_pos rfl]
  unfold processedOrderOf
  rw [processedOutputOrder_eq]
  show (updateXCorrelation cfg.NumberOfExposures _ _).getXCorrelation k = _
  rw [updateXCorrelation_get, if_pos ⟨hk, hlen⟩]

/-- Values of the rounding: one tenth goes to the nearest `double`; a tie goes
to the even significand, upwards and downwards; below the normal range the last
place is `2 ^ (-1074)`; the rounding of the opposite is the opposite; a value
of type `double` is left as it is. -/
theorem roundToDouble_values :
    roundToDouble (1 / 10) = 3602879701896397 / 36028797018963968
    ∧ roundToDouble (2 ^ 53 + 1) = 2 ^ 53
    ∧ roundToDouble (2 ^ 53 + 3) = 2 ^ 53 + 4
    ∧ roundToDouble (2500000000000000 + 1 / 4) = 2500000000000000
    ∧ roundToDouble (2500000000000000 + 3 / 4) = 2500000000000001
    ∧ roundToDouble (-(1 / 10)) = -(3602879701896397 / 36028797018963968)
    ∧ roundToDouble (1 / 2 ^ 1075) = 0
    ∧ roundToDouble (3 / 2 ^ 1075) = 1 / 2 ^ 1073
    ∧ roundToDouble (3602879701896397 / 36028797018963968)
        = 3602879701896397 / 36028797018963968 := by
  refine ⟨by decide!, by decide!, by decide!, by decide!, by decide!, by decide!, by decide!,
    by decide!, by decide!⟩

/-- C12. After an iteration that processes an order, the cross-correlation
stored at an element of the output order is the value that the loop over the
exposures accumulates in `double` arithmetic: starting from 0, in the order in
which the exposures are listed, it adds the quotients `x_i/N`, the quotient and
the sum each rounded to a `double`. When none of these operations rounds, the
value is the arithmetic mean `(x_1 + ... + x_N)/N` of the cross-correlations of
the N exposures at that element. -/
theorem cross_correlation_accumulation (L : Library) (cfg : Config) (st : LoopState)
    (order : Int) (k : Nat) (hN : 0 < cfg.NumberOfExposures)
    (h : exposuresWithElements st cfg.NumberOfExposures order = cfg.NumberOfExposures)
    (hk : k < (calibratedOutputOrder L cfg
      (st.outputorderVector.GetSpectralOrder order)).SpectralElements.nSpectralElements)
    (hlen : k < (calibratedOutputOrder L cfg
      (st.outputorderVector.GetSpectralOrder order)).SpectralElements.XCorrelation.length) :
    ((orderStep L cfg st order).outputorderVector.GetSpectralOrder
        order).SpectralElements.getXCorrelation k
      = (List.range cfg.NumberOfExposures).foldl
          (fun acc i =>
            roundToDouble
              (acc + roundToDouble
                ((gatheredExposure L st order i).SpectralElements.getXCorrelation k
                  / (cfg.NumberOfExposures : ℚ))))
          0
    ∧ ((∀ i, i < cfg.NumberOfExposures →
          roundToDouble ((gatheredExposure L st order i).SpectralElements.getXCorrelation k
              / (cfg.NumberOfExposures : ℚ))
            = (gatheredExposure L st order i).SpectralElements.getXCorrelation k
              / (cfg.NumberOfExposures : ℚ)) →
        (∀ n, n < cfg.NumberOfExposures →
          roundToDouble
              (((List.range n).map
                  (fun i => (gatheredExposure L st order i).SpectralElements.getXCorrelation k
                    / (cfg.NumberOfExposures : ℚ))).sum
                + (gatheredExposure L st order n).SpectralElements.getXCorrelation k
                  / (cfg.NumberOfExposures : ℚ))
            = ((List.range n).map
                  (fun i => (gatheredExposure L st order i).SpectralElements.getXCorrelation k
                    / (cfg.NumberOfExposures : ℚ))).sum
                + (gatheredExposure L st order n).SpectralElements.getXCorrelation k
                  / (cfg.NumberOfExposures : ℚ)) →
        ((orderStep L cfg st order).outputorderVector.GetSpectralOrder
            order).SpectralElements.getXCorrelation k
          = ((List.range cfg.NumberOfExposures).map
              (fun i => (gatheredExposure L st order i).SpectralElements.getXCorrelation k)).sum
            / (cfg.NumberOfExposures : ℚ)) := by
  have hstored := stored_cross_correlation L cfg st order k hN h hk hlen
  refine ⟨hstored, fun hq hs => ?_⟩
  rw [hstored]
  exact outputXCorrelation_of_exact cfg.NumberOfExposures
    (fun i => (gatheredExposure L st order i).SpectralElements) k hq hs

theorem counting_hypotheses :
    0 < exampleOptions.toConfig.NumberOfExposures
    ∧ exposuresWithElements (initialLoopState (correlationLibrary countingCorrelation)
          exampleOptions) exampleOptions.toConfig.NumberOfExposures 31
        = exampleOptions.toConfig.NumberOfExposures
    ∧ 0 < (calibratedOutputOrder (correlationLibrary countingCorrelation)
          exampleOptions.toConfig
          ((initialLoopState (correlationLibrary countingCorrelation)
            exampleOptions).outputorderVector.GetSpectralOrder
              31)).SpectralElements.nSpectralElements
    ∧ 0 < (calibratedOutputOrder (correlationLibrary countingCorrelation)
          exampleOptions.toConfig
          ((initialLoopState (correlationLibrary countingCorrelation)
            exampleOptions).outputorderVector.GetSpectralOrder
              31)).SpectralElements.XCorrelation.length := by
  refine ⟨by decide, by decide, by decide, by decide⟩

theorem counting_exact :
    (∀ i, i < exampleOptions.toConfig.NumberOfExposures →
      roundToDouble ((gatheredExposure (correlationLibrary countingCorrelation)
          (initialLoopState (correlationLibrary countingCorrelation) exampleOptions)
          31 i).SpectralElements.getXCorrelation 0
            / (exampleOptions.toConfig.NumberOfExposures : ℚ))
        = (gatheredExposure (correlationLibrary countingCorrelation)
          (initialLoopState (correlationLibrary countingCorrelation) exampleOptions)
          31 i).SpectralElements.getXCorrelation 0
            / (exampleOptions.toConfig.NumberOfExposures : ℚ))
    ∧ (∀ n, n < exampleOptions.toConfig.NumberOfExposures →
      roundToDouble
          (((List.range n).map
              (fun i => (gatheredExposure (correlationLibrary countingCorrelation)
                (initialLoopState (correlationLibrary countingCorrelation) exampleOptions)
                31 i).SpectralElements.getXCorrelation 0
                  / (exampleOptions.toConfig.NumberOfExposures : ℚ))).sum
            + (gatheredExposure (correlationLibrary countingCorrelation)
                (initialLoopState (correlationLibrary countingCorrelation) exampleOptions)
                31 n).SpectralElements.getXCorrelation 0
                  / (exampleOptions.toConfig.NumberOfExposures : ℚ))
        = ((List.range n).map
              (fun i => (gatheredExposure (correlationLibrary countingCorrelation)
                (initialLoopState (correlationLibrary countingCorrelation) exampleOptions)
                31 i).SpectralElements.getXCorrelation 0
                  / (exampleOptions.toConfig.NumberOfExposures : ℚ))).sum
            + (gatheredExposure (correlationLibrary countingCorrelation)
                (initialLoopState (correlationLibrary countingCorrelation) exampleOptions)
                31 n).SpectralElements.getXCorrelation 0
                  / (exampleOptions.toConfig.NumberOfExposures : ℚ)) := by
  constructor
  · intro i hi
    change i < 4 at hi
    interval_cases i <;> decide!
  · intro n hn
    change n < 4 at hn
    interval_cases n <;> decide!

/-- Witness of C12: the order 31 of a run on four exposures whose
cross-correlations are 1, 2, 3 and 4. The quotients 1/4, 1/2, 3/4, 1 and their
partial sums are values of type `double`, and the stored value is the mean. -/
theorem cross_correlation_accumulation_witness :
    (0 < exampleOptions.toConfig.NumberOfExposures
      ∧ exposuresWithElements (initialLoopState (correlationLibrary countingCorrelation)
            exampleOptions) exampleOptions.toConfig.NumberOfExposures 31
          = exampleOptions.toConfig.NumberOfExposures
      ∧ 0 < (calibratedOutputOrder (correlationLibrary countingCorrelation)
            exampleOptions.toConfig
            ((initialLoopState (correlationLibrary countingCorrelation)
              exampleOptions).outputorderVector.GetSpectralOrder
                31)).SpectralElements.nSpectralElements
      ∧ 0 < (calibratedOutputOrder (correlationLibrary countingCorrelation)
            exampleOptions.toConfig
            ((initialLoopState (correlationLibrary countingCorrelation)
              exampleOptions).outputorderVector.GetSpectralOrder
                31)).SpectralElements.XCorrelation.length)
    ∧ ((orderStep (correlationLibrary countingCorrelation) exampleOptions.toConfig
          (initialLoopState (correlationLibrary countingCorrelation) exampleOptions)
          31).outputorderVector.GetSpectralOrder 31).SpectralElements.getXCorrelation 0
        = ((List.range exampleOptions.toConfig.NumberOfExposures).map
            (fun i => (gatheredExposure (correlationLibrary countingCorrelation)
              (initialLoopState (correlationLibrary countingCorrelation) exampleOptions)
              31 i).SpectralElements.getXCorrelation 0)).sum
          / (exampleOptions.toConfig.NumberOfExposures : ℚ)
    ∧ ((List.range exampleOptions.toConfig.NumberOfExposures).map
            (fun i => (gatheredExposure (correlationLibrary countingCorrelation)
              (initialLoopState (correlationLibrary countingCorrelation) exampleOptions)
              31 i).SpectralElements.getXCorrelation 0)).sum
          / (exampleOptions.toConfig.NumberOfExposures : ℚ) = 5 / 2 :=
  ⟨counting_hypotheses,
    (cross_correlation_accumulation (correlationLibrary countingCorrelation)
      exampleOptions.toConfig
      (initialLoopState (correlationLibrary countingCorrelation) exampleOptions) 31 0
      counting_hypotheses.1 counting_hypotheses.2.1 counting_hypotheses.2.2.1
      counting_hypotheses.2.2.2).2 counting_exact.1 counting_exact.2,
    by decide!⟩

/-- C12, as stated, fails. Four exposures whose cross-correlations at the one
element of the order 31 are 10000000000000000, 1, 1 and 1, all values of type
`double`: the run that lists them in this order stores 2500000000000000, the
run that lists them in the reverse order stores 2500000000000001, and their
arithmetic mean is 2500000000000000.75. Both runs process the order. -/
theorem cross_correlation_depends_on_order :
    exposuresWithElements (initialLoopState (correlationLibrary largeFirstCorrelation)
        exampleOptions) exampleOptions.toConfig.NumberOfExposures 31
      = exampleOptions.toConfig.NumberOfExposures
    ∧ exposuresWithElements (initialLoopState (correlationLibrary largeFirstCorrelation)
        reversedOptions) reversedOptions.toConfig.NumberOfExposures 31
      = reversedOptions.toConfig.NumberOfExposures
    ∧ ((orderStep (correlationLibrary largeFirstCorrelation) exampleOptions.toConfig
          (initialLoopState (correlationLibrary largeFirstCorrelation) exampleOptions)
          31).outputorderVector.GetSpectralOrder 31).SpectralElements.getXCorrelation 0
        = 2500000000000000
    ∧ ((orderStep (correlationLibrary largeFirstCorrelation) reversedOptions.toConfig
          (initialLoopState (correlationLibrary largeFirstCorrelation) reversedOptions)
          31).outputorderVector.GetSpectralOrder 31).SpectralElements.getXCorrelation 0
        = 2500000000000001
    ∧ ((10000000000000000 : ℚ) + 1 + 1 + 1) / 4 = 2500000000000000 + 3 / 4
    ∧ roundToDouble 10000000000000000 = 10000000000000000
    ∧ roundToDouble 1 = 1 := by
  refine ⟨by decide, by decide, by decide!, by decide!, by norm_num, by decide!, by decide!⟩

/-! ## The checks of `main` -/

theorem main_of_check_failure (L : Library) (opts : Options) (line : Nat)
    (h : checkOptions opts = some line) : main L opts = checkFailure L line := by
  unfold main checkFailure
  simp only [h]

theorem fileAccesses_of_check_failure (opts : Options) (line : Nat)
    (h : checkOptions opts = some line) : fileAccesses opts = [] := by
  unfold fileAccesses
  simp only [h]

theorem main_of_empty_input (L : Library) (opts : Options) (i : Nat)
    (hcheck : checkOptions opts = none) (hinput : firstEmptyInput opts = some i) :
    main L opts =
      { status := EXIT_FAILURE, thrownAt := some 468
        cout := (initialLoopState L opts).cout
        cerr := (initialLoopState L opts).cerr ++ ["operaPolar: " ++ L.getFormattedMessage 468]
        dataFile := (initialLoopState L opts).fdata, written := none, plotCall := none } := by
  unfold main
  simp only [hcheck, hinput]

theorem checkOptions_eq_390 (opts : Options) :
    checkOptions opts = some 390 ↔ ¬ StokesParameterValid opts := by
  unfold checkOptions StokesParameterValid
  split_ifs with h1 h2 h3 h4 <;> (simp_all; try tauto)

theorem checkOptions_eq_394 (opts : Options) :
    checkOptions opts = some 394 ↔ StokesParameterValid opts ∧ ¬ MethodValid opts := by
  unfold checkOptions StokesParameterValid MethodValid
  split_ifs with h1 h2 h3 h4 <;> (simp_all; try tauto)

theorem checkOptions_eq_398 (opts : Options) :
    checkOptions opts = some 398 ↔
      StokesParameterValid opts ∧ MethodValid opts
        ∧ opts.NumberOfExposures ≠ 2 ∧ opts.NumberOfExposures ≠ 4 := by
  unfold checkOptions StokesParameterValid MethodValid
  split_ifs with h1 h2 h3 h4 <;> (simp_all; try tauto)

theorem checkOptions_eq_402 (opts : Options) :
    checkOptions opts = some 402 ↔
      StokesParameterValid opts ∧ MethodValid opts
        ∧ (opts.NumberOfExposures = 2 ∨ opts.NumberOfExposures = 4)
        ∧ opts.outputfilename = "" := by
  unfold checkOptions StokesParameterValid MethodValid
  split_ifs with h1 h2 h3 h4 <;> (simp_all; try tauto)

theorem checkOptions_eq_none (opts : Options) :
    checkOptions opts = none ↔
      StokesParameterValid opts ∧ MethodValid opts
        ∧ (opts.NumberOfExposures = 2 ∨ opts.NumberOfExposures = 4)
        ∧ opts.outputfilename ≠ "" := by
  unfold checkOptions StokesParameterValid MethodValid
  split_ifs with h1 h2 h3 h4 <;> (simp_all; try tauto)

theorem main_thrownAt (L : Library) (opts : Options) :
    (main L opts).thrownAt
      = match checkOptions opts with
        | some line => some line
        | none => (firstEmptyInput opts).map (fun _ => 468) := by
  unfold main
  cases h : checkOptions opts with
  | some line => rfl
  | none =>
    cases h' : firstEmptyInput opts with
    | some i => rfl
    | none => rfl

theorem main_thrownAt_ne (L : Library) (opts : Options) (line : Nat) (hl : line ≠ 468) :
    (main L opts).thrownAt = some line ↔ checkOptions opts = some line := by
  rw [main_thrownAt]
  cases h : checkOptions opts with
  | some l => simp
  | none =>
    cases h' : firstEmptyInput opts with
    | some i =>
      simp only [Option.map_some', Option.some.injEq, reduceCtorEq, iff_false]
      exact fun e => hl e.symm
    | none => simp

theorem checkOptions_cases (opts : Options) :
    checkOptions opts = none ∨ checkOptions opts = some 390 ∨ checkOptions opts = some 394
      ∨ checkOptions opts = some 398 ∨ checkOptions opts = some 402 := by
  unfold checkOptions
  split_ifs <;> simp

theorem initialLoopState_fdata (L : Library) (opts : Options) :
    (initialLoopState L opts).fdata = if opts.datafilename ≠ "" then some [] else none := rfl

theorem firstEmptyInput_eq_none (opts : Options) :
    firstEmptyInput opts = none ↔
      ∀ i, i < opts.NumberOfExposures → opts.getInput i ≠ "" := by
  unfold firstEmptyInput
  rw [List.find?_eq_none]
  simp

/-- C13. The Stokes parameter check: the run gets past it if and only if the
requested parameter is Q, U or V; for any other value, Stokes I included, which
is the value when the option is not given, the run ends with a failure status
and the message of the exception, having opened no file, read no input and
processed no order. -/
theorem stokes_parameter_check (L : Library) (opts : Options) :
    (StokesParameterValid opts ↔ (main L opts).thrownAt ≠ some 390)
    ∧ (¬ StokesParameterValid opts →
        main L opts = checkFailure L 390 ∧ fileAccesses opts = [])
    ∧ defaultOptions.StokesParameter = stokes_parameter_t.StokesI.toInt
    ∧ ¬ StokesParameterValid defaultOptions := by
  refine ⟨?_, fun h => ?_, rfl, by decide⟩
  · rw [Ne, main_thrownAt_ne L opts 390 (by decide), checkOptions_eq_390, not_not]
  · have hc := (checkOptions_eq_390 opts).mpr h
    exact ⟨main_of_check_failure L opts 390 hc, fileAccesses_of_check_failure opts 390 hc⟩

/-- Witness of C13: the run without any option, whose Stokes parameter is I. -/
theorem stokes_parameter_check_witness :
    ¬ StokesParameterValid defaultOptions
    ∧ main exampleLibrary defaultOptions = checkFailure exampleLibrary 390
    ∧ fileAccesses defaultOptions = [] :=
  ⟨by decide,
    ((stokes_parameter_check exampleLibrary defaultOptions).2.1 (by decide)).1,
    ((stokes_parameter_check exampleLibrary defaultOptions).2.1 (by decide)).2⟩

/-- C15. The method check: the run gets past it if and only if the method is
Difference, Ratio or DifferenceWithBeamSwapped; for any other value the run
ends with a failure status at one of the first two checks, having opened no
file and processed no order; Ratio is the method when the option is not
given. -/
theorem method_check (L : Library) (opts : Options) :
    ((main L opts).thrownAt = some 394 ↔ StokesParameterValid opts ∧ ¬ MethodValid opts)
    ∧ (¬ MethodValid opts →
        (main L opts = checkFailure L 390 ∨ main L opts = checkFailure L 394)
        ∧ (main L opts).status = EXIT_FAILURE
        ∧ fileAccesses opts = [])
    ∧ defaultOptions.method = method_t.Ratio.toInt
    ∧ MethodValid defaultOptions := by
  refine ⟨?_, fun h => ?_, rfl, by decide⟩
  · rw [main_thrownAt_ne L opts 394 (by decide), checkOptions_eq_394]
  · by_cases hs : StokesParameterValid opts
    · have hc := (checkOptions_eq_394 opts).mpr ⟨hs, h⟩
      have hm := main_of_check_failure L opts 394 hc
      exact ⟨Or.inr hm, by rw [hm]; rfl, fileAccesses_of_check_failure opts 394 hc⟩
    · have hc := (checkOptions_eq_390 opts).mpr hs
      have hm := main_of_check_failure L opts 390 hc
      exact ⟨Or.inl hm, by rw [hm]; rfl, fileAccesses_of_check_failure opts 390 hc⟩

/-- Witness of C15: the example run with the method 7. -/
theorem method_check_witness :
    ¬ MethodValid badMethodOptions
    ∧ (main exampleLibrary badMethodOptions).status = EXIT_FAILURE
    ∧ fileAccesses badMethodOptions = [] :=
  ⟨by decide,
    ((method_check exampleLibrary badMethodOptions).2.1 (by decide)).2.1,
    ((method_check exampleLibrary badMethodOptions).2.1 (by decide)).2.2⟩

theorem gatherStep_wavelength (L : Library) (order : Int) (acc : LoopState × Nat) (i j : Nat)
    (h : j ≠ i) : (gatherStep L order acc i).1.wavelength j = acc.1.wavelength j := by
  unfold gatherStep
  simp only [operaSpectralOrderVector.GetSpectralOrder]
  cases ((acc.1.spectralOrdervector i).orders order).hasSpectralElements
  · rfl
  · cases ((acc.1.spectralOrdervector i).orders order).hasWavelength
    · rfl
    · simp [LoopState.setInputOrder, Function.update_noteq h]

theorem gather_wavelength (L : Library) (N : Nat) (order : Int) (st : LoopState) (j : Nat)
    (h : ¬ j < N) : (gather L N order st).1.wavelength j = st.wavelength j := by
  induction N with
  | zero => rfl
  | succ N ih =>
    rw [gather_succ, gatherStep_wavelength L order _ N j (by omega), ih (by omega)]

/-- An iteration assigns the pointers of the first `N` exposures only. -/
theorem orderStep_slots (L : Library) (cfg : Config) (st : LoopState) (order : Int) (j : Nat)
    (h : ¬ j < cfg.NumberOfExposures) :
    (orderStep L cfg st order).spectralOrder j = st.spectralOrder j
    ∧ (orderStep L cfg st order).spectralElements j = st.spectralElements j
    ∧ (orderStep L cfg st order).wavelength j = st.wavelength j := by
  have key : ∀ st0 : LoopState, st0.spectralOrder = st.spectralOrder →
      st0.spectralElements = st.spectralElements → st0.wavelength = st.wavelength →
      ∀ s : LoopState,
        s.spectralOrder = (gather L cfg.NumberOfExposures order st0).1.spectralOrder →
        s.spectralElements = (gather L cfg.NumberOfExposures order st0).1.spectralElements →
        s.wavelength = (gather L cfg.NumberOfExposures order st0).1.wavelength →
        s.spectralOrder j = st.spectralOrder j ∧ s.spectralElements j = st.spectralElements j
          ∧ s.wavelength j = st.wavelength j := by
    intro st0 a1 a2 a3 s b1 b2 b3
    obtain ⟨-, -, -, -, -, -, g7, g8⟩ := gather_spec L cfg.NumberOfExposures order st0
    rw [b1, b2, b3, g7, g8, gather_wavelength L _ order st0 j h, if_neg h,
      if_neg (fun hh => h hh.1), a1, a2, a3]
    exact ⟨rfl, rfl, rfl⟩
  unfold orderStep
  cases hv : cfg.verbose
  · simp only [Bool.false_eq_true, if_false]
    split_ifs
    · exact key st rfl rfl rfl _ rfl rfl rfl
    · exact key st rfl rfl rfl _ rfl rfl rfl
  · simp only [if_true]
    split_ifs
    · exact key { st with cout := st.cout ++ [processingMessage order] } rfl rfl rfl _
        rfl rfl rfl
    · exact key { st with cout := st.cout ++ [processingMessage order] } rfl rfl rfl _
        rfl rfl rfl

theorem runOrders_slots (L : Library) (cfg : Config) (orders : List Int) (st : LoopState)
    (j : Nat) (h : ¬ j < cfg.NumberOfExposures) :
    (runOrders L cfg orders st).spectralOrder j = st.spectralOrder j
    ∧ (runOrders L cfg orders st).spectralElements j = st.spectralElements j
    ∧ (runOrders L cfg orders st).wavelength j = st.wavelength j := by
  induction orders generalizing st with
  | nil => exact ⟨rfl, rfl, rfl⟩
  | cons o rest ih =>
    obtain ⟨a, b, c⟩ := ih (orderStep L cfg st o)
    obtain ⟨a', b', c'⟩ := orderStep_slots L cfg st o j h
    exact ⟨a.trans a', b.trans b', c.trans c'⟩

theorem populate_length (N : Nat) (f : Nat → operaSpectralOrder) (length : Nat) :
    (populate N f length).iE.length = 4 ∧ (populate N f length).iA.length = 4 := by
  induction N with
  | zero => exact ⟨rfl, rfl⟩
  | succ N ih =>
    rw [populate_succ]
    unfold populateStep
    split_ifs
    · exact ⟨by rw [List.length_set]; exact ih.1, by rw [List.length_set]; exact ih.2⟩
    · exact ⟨by rw [List.length_set]; exact ih.1, by rw [List.length_set]; exact ih.2⟩
    · exact ⟨by rw [List.length_set]; exact ih.1, by rw [List.length_set]; exact ih.2⟩
    · exact ih

/-- C14. The check of the number of exposures: the run gets past it if and only
if the number is 2 or 4, and 4 is the number when the option is not given; for
any other number the run ends with a failure status at one of the first three
checks, having opened no file and processed no order. In a run that passes the
checks the loops over the exposures use the indices below the number of
exposures, hence below 4: the pointers of index 4 and beyond are never
assigned, and the arrays `iE` and `iA` keep their four slots. -/
theorem exposure_count_check (L : Library) (opts : Options) :
    ((main L opts).thrownAt = some 398 ↔
        StokesParameterValid opts ∧ MethodValid opts
          ∧ opts.NumberOfExposures ≠ 2 ∧ opts.NumberOfExposures ≠ 4)
    ∧ (opts.NumberOfExposures ≠ 2 ∧ opts.NumberOfExposures ≠ 4 →
        (main L opts = checkFailure L 390 ∨ main L opts = checkFailure L 394
          ∨ main L opts = checkFailure L 398)
        ∧ (main L opts).status = EXIT_FAILURE
        ∧ fileAccesses opts = [])
    ∧ defaultOptions.NumberOfExposures = 4
    ∧ (checkOptions opts = none →
        opts.NumberOfExposures ≤ 4
        ∧ (∀ i, i < opts.NumberOfExposures → i < 4)
        ∧ (∀ j, 4 ≤ j →
            (finalLoopState L opts).spectralOrder j = none
            ∧ (finalLoopState L opts).spectralElements j = none
            ∧ (finalLoopState L opts).wavelength j = none)
        ∧ (∀ (f : Nat → operaSpectralOrder) (length : Nat),
            (populate opts.NumberOfExposures f length).iE.length = 4
            ∧ (populate opts.NumberOfExposures f length).iA.length = 4)) := by
  refine ⟨?_, fun h => ?_, rfl, fun hc => ?_⟩
  · rw [main_thrownAt_ne L opts 398 (by decide), checkOptions_eq_398]
  · by_cases hs : StokesParameterValid opts
    · by_cases hm : MethodValid opts
      · have hc := (checkOptions_eq_398 opts).mpr ⟨hs, hm, h⟩
        have e := main_of_check_failure L opts 398 hc
        exact ⟨Or.inr (Or.inr e), by rw [e]; rfl, fileAccesses_of_check_failure opts 398 hc⟩
      · have hc := (checkOptions_eq_394 opts).mpr ⟨hs, hm⟩
        have e := main_of_check_failure L opts 394 hc
        exact ⟨Or.inr (Or.inl e), by rw [e]; rfl, fileAccesses_of_check_failure opts 394 hc⟩
    · have hc := (checkOptions_eq_390 opts).mpr hs
      have e := main_of_check_failure L opts 390 hc
      exact ⟨Or.inl e, by rw [e]; rfl, fileAccesses_of_check_failure opts 390 hc⟩
  · have hN : opts.NumberOfExposures ≤ 4 := by
      rcases checkOptions_exposures opts hc with h | h <;> omega
    refine ⟨hN, fun i hi => by omega, fun j hj => ?_, fun f length => populate_length _ f length⟩
    rw [finalLoopState_eq]
    exact runOrders_slots L opts.toConfig _ _ j
      (by show ¬ j < opts.NumberOfExposures; omega)

/-- Witness of C14: the example run with six exposures requested fails, and
the example run itself passes the checks. -/
theorem exposure_count_check_witness :
    (sixExposureOptions.NumberOfExposures ≠ 2 ∧ sixExposureOptions.NumberOfExposures ≠ 4)
    ∧ (main exampleLibrary sixExposureOptions).status = EXIT_FAILURE
    ∧ fileAccesses sixExposureOptions = []
    ∧ checkOptions exampleOptions = none
    ∧ exampleOptions.NumberOfExposures ≤ 4 :=
  ⟨by decide,
    ((exposure_count_check exampleLibrary sixExposureOptions).2.1 (by decide)).2.1,
    ((exposure_count_check exampleLibrary sixExposureOptions).2.1 (by decide)).2.2,
    example_check,
    ((exposure_count_check exampleLibrary exampleOptions).2.2.2 example_check).1⟩

theorem main_of_check_some (L : Library) (opts : Options) (h : checkOptions opts ≠ none) :
    ∃ line, checkOptions opts = some line ∧ main L opts = checkFailure L line := by
  cases hc : checkOptions opts with
  | none => exact absurd hc h
  | some line => exact ⟨line, rfl, main_of_check_failure L opts line hc⟩

/-- C16. The required file names: the run ends with a failure status, without
having written the output and without a line in the data file, when the output
file name is empty and when one of the first N input names is empty; with two
exposures a run whose first two input names and output name are given passes
the validation and succeeds, whatever the names of the third and fourth
inputs, absent included. -/
theorem required_file_names (L : Library) (opts : Options) :
    (opts.outputfilename = "" →
      (main L opts).status = EXIT_FAILURE ∧ (main L opts).written = none
        ∧ (main L opts).dataFile = none ∧ fileAccesses opts = [])
    ∧ ((∃ i, i < opts.NumberOfExposures ∧ opts.getInput i = "") →
      (main L opts).status = EXIT_FAILURE ∧ (main L opts).written = none
        ∧ ((main L opts).dataFile = none ∨ (main L opts).dataFile = some []))
    ∧ (opts.NumberOfExposures = 2 → StokesParameterValid opts → MethodValid opts →
        opts.outputfilename ≠ "" → opts.getInput 0 ≠ "" → opts.getInput 1 ≠ "" →
        (main L opts).status = EXIT_SUCCESS ∧ (main L opts).thrownAt = none) := by
  refine ⟨fun h => ?_, fun h => ?_, fun hN hs hm ho h0 h1 => ?_⟩
  · have hc : checkOptions opts ≠ none := by
      intro hn
      exact ((checkOptions_eq_none opts).mp hn).2.2.2 h
    obtain ⟨line, hl, e⟩ := main_of_check_some L opts hc
    rw [e]
    exact ⟨rfl, rfl, rfl, fileAccesses_of_check_failure opts line hl⟩
  · cases hc : checkOptions opts with
    | some line =>
      rw [main_of_check_failure L opts line hc]
      exact ⟨rfl, rfl, Or.inl rfl⟩
    | none =>
      cases hi : firstEmptyInput opts with
      | none =>
        obtain ⟨i, hlt, he⟩ := h
        exact absurd he ((firstEmptyInput_eq_none opts).mp hi i hlt)
      | some i =>
        rw [main_of_empty_input L opts i hc hi]
        refine ⟨rfl, rfl, ?_⟩
        show (initialLoopState L opts).fdata = none ∨ (initialLoopState L opts).fdata = some []
        rw [initialLoopState_fdata]
        split_ifs
        · exact Or.inr rfl
        · exact Or.inl rfl
  · have hc : checkOptions opts = none :=
      (checkOptions_eq_none opts).mpr ⟨hs, hm, Or.inl hN, ho⟩
    have hi : firstEmptyInput opts = none := by
      rw [firstEmptyInput_eq_none]
      intro i hlt
      rw [hN] at hlt
      interval_cases i
      · exact h0
      · exact h1
    rw [main_of_valid L opts hc hi]
    exact ⟨rfl, rfl⟩

/-- Witness of C16: the example run with the third input name empty fails, and
the two-exposure example run, whose third and fourth input names are empty,
succeeds. -/
theorem required_file_names_witness :
    (∃ i, i < emptyInputOptions.NumberOfExposures ∧ emptyInputOptions.getInput i = "")
    ∧ (main exampleLibrary emptyInputOptions).status = EXIT_FAILURE
    ∧ twoExposureOptions.NumberOfExposures = 2
    ∧ twoExposureOptions.getInput 2 = "" ∧ twoExposureOptions.getInput 3 = ""
    ∧ (main exampleLibrary twoExposureOptions).status = EXIT_SUCCESS :=
  ⟨⟨2, by decide, by decide⟩,
    ((required_file_names exampleLibrary emptyInputOptions).2.1
      ⟨2, by decide, by decide⟩).1,
    rfl, rfl, rfl,
    ((required_file_names exampleLibrary twoExposureOptions).2.2 rfl (by decide) (by decide)
      (by decide) (by decide) (by decide)).1⟩

theorem orderRange_single (k : Int) : orderRange k k = [k] := by
  have h : (k + 1 - k).toNat = 1 := by
    have : k + 1 - k = 1 := by ring
    rw [this]; rfl
  unfold orderRange
  rw [h]
  simp [List.range_succ]

/-- C19. The orders visited: with an order number given (a value other than
the one the variable holds when the option is absent) both limits are that
order number, whatever `--minorder` and `--maxorder` say, and the loop visits
that one order; without it each limit is the value given on the command line
if one is given and the minimum, respectively maximum, order of the base
spectrum otherwise; and the loop visits the orders from the lower to the upper
limit, each once, in ascending order. -/
theorem visited_orders (L : Library) (opts : Options) :
    (opts.ordernumber ≠ NOTPROVIDED →
      effectiveMinorder opts (loadOutputVector L opts) = opts.ordernumber
      ∧ effectiveMaxorder opts (loadOutputVector L opts) = opts.ordernumber
      ∧ visitedOrders L opts = [opts.ordernumber])
    ∧ (opts.ordernumber = NOTPROVIDED →
      effectiveMinorder opts (loadOutputVector L opts)
          = (if opts.minorderprovided = true then opts.minorder
             else (loadOutputVector L opts).Minorder)
      ∧ effectiveMaxorder opts (loadOutputVector L opts)
          = (if opts.maxorderprovided = true then opts.maxorder
             else (loadOutputVector L opts).Maxorder))
    ∧ (∀ o, o ∈ visitedOrders L opts ↔
        effectiveMinorder opts (loadOutputVector L opts) ≤ o
          ∧ o ≤ effectiveMaxorder opts (loadOutputVector L opts))
    ∧ (visitedOrders L opts).Pairwise (· < ·)
    ∧ (visitedOrders L opts).Nodup
    ∧ finalLoopState L opts
        = (visitedOrders L opts).foldl (orderStep L opts.toConfig) (initialLoopState L opts)
    ∧ (defaultOptions.ordernumber = NOTPROVIDED ∧ defaultOptions.minorderprovided = false
        ∧ defaultOptions.maxorderprovided = false) := by
  refine ⟨fun h => ?_, fun h => ?_, fun o => mem_orderRange _ _ o, orderRange_ascending _ _,
    ?_, rfl, rfl, rfl, rfl⟩
  · have h1 : effectiveMinorder opts (loadOutputVector L opts) = opts.ordernumber := by
      unfold effectiveMinorder; simp [h]
    have h2 : effectiveMaxorder opts (loadOutputVector L opts) = opts.ordernumber := by
      unfold effectiveMaxorder; simp [h]
    refine ⟨h1, h2, ?_⟩
    unfold visitedOrders
    rw [h1, h2, orderRange_single]
  · unfold effectiveMinorder effectiveMaxorder
    simp [h]
  · exact (orderRange_ascending _ _).imp (fun {a b} hab => ne_of_lt hab)

/-- Witness of C19: the two-exposure example run, given `--ordernumber=31`,
visits the order 31 only. -/
theorem visited_orders_witness :
    twoExposureOptions.ordernumber ≠ NOTPROVIDED
    ∧ visitedOrders exampleLibrary twoExposureOptions = [twoExposureOptions.ordernumber]
    ∧ exampleOptions.ordernumber = NOTPROVIDED
    ∧ effectiveMinorder exampleOptions (loadOutputVector exampleLibrary exampleOptions)
        = (if exampleOptions.minorderprovided = true then exampleOptions.minorder
           else (loadOutputVector exampleLibrary exampleOptions).Minorder) :=
  ⟨by decide,
    ((visited_orders exampleLibrary twoExposureOptions).1 (by decide)).2.2,
    rfl,
    ((visited_orders exampleLibrary exampleOptions).2.1 rfl).1⟩

/-! ## The stages of an iteration -/

theorem setSpectralOrder_setSpectralOrder (v : operaSpectralOrderVector) (k : Int)
    (a b : operaSpectralOrder) :
    (v.setSpectralOrder k a).setSpectralOrder k b = v.setSpectralOrder k b := by
  unfold operaSpectralOrderVector.setSpectralOrder
  congr 1
  funext o
  by_cases h : o = k <;> simp [h]

theorem GetSpectralOrder_setSpectralOrder_self (v : operaSpectralOrderVector) (k : Int)
    (a : operaSpectralOrder) : (v.setSpectralOrder k a).GetSpectralOrder k = a := by
  simp [operaSpectralOrderVector.setSpectralOrder, operaSpectralOrderVector.GetSpectralOrder]

/-- The four stages that follow a complete gathering end in the state that the
branch `spectralElementsTest == NumberOfExposures` of the loop body gives. -/
theorem runPhases_from_gathered (L : Library) (cfg : Config) (order : Int) (st : LoopState)
    (slots : BeamSlots) :
    runPhases L cfg order 3 { phase := OrderPhase.DataGathered, st := st, slots := slots }
      = { phase := OrderPhase.Stored
          st := processOrder L cfg order st
          slots := populate cfg.NumberOfExposures st.derefSpectralOrder
            (baseLength st.derefSpectralOrder) } := by
  simp only [runPhases, phaseStep]
  congr 1
  unfold processOrder
  simp only [setSpectralOrder_setSpectralOrder, GetSpectralOrder_setSpectralOrder_self,
    Option.getD_some, processedOutputOrder_eq, processedDataLines]
  rfl

theorem gather_count_verbose (L : Library) (cfg : Config) (st : LoopState) (order : Int) :
    (gather L cfg.NumberOfExposures order
        (if cfg.verbose = true then { st with cout := st.cout ++ [processingMessage order] }
         else st)).2
      = exposuresWithElements st cfg.NumberOfExposures order := by
  rw [(gather_spec L cfg.NumberOfExposures order _).2.2.2.2.1]
  apply exposuresWithElements_congr
  intro i _
  split_ifs <;> rfl

theorem phaseStep_rank (L : Library) (cfg : Config) (order : Int) (m m' : OrderMachine)
    (h : phaseStep L cfg order m = some m') : m.phase.rank < m'.phase.rank := by
  unfold phaseStep at h
  cases hp : m.phase <;> simp only [hp] at h
  · split_ifs at h <;> (cases h; simp [OrderPhase.rank])
  · cases h; simp [OrderPhase.rank]
  · cases h; simp [OrderPhase.rank]
  · cases h; simp [OrderPhase.rank]
  · cases h
  · cases h

theorem phases_of_complete (L : Library) (cfg : Config) (st : LoopState) (order : Int)
    (h : exposuresWithElements st cfg.NumberOfExposures order = cfg.NumberOfExposures) :
    (runPhases L cfg order 4 (OrderMachine.start st)).phase = OrderPhase.Stored
    ∧ (runPhases L cfg order 4 (OrderMachine.start st)).st = orderStep L cfg st order
    ∧ phaseTrace L cfg order 4 (OrderMachine.start st)
        = [OrderPhase.Pending, OrderPhase.DataGathered, OrderPhase.Canonicalized,
           OrderPhase.Computed, OrderPhase.Stored] := by
  have hg := gather_count_verbose L cfg st order
  rw [h] at hg
  have hstep : phaseStep L cfg order (OrderMachine.start st)
      = some { phase := OrderPhase.DataGathered
               st := (gather L cfg.NumberOfExposures order
                  (if cfg.verbose = true then
                    { st with cout := st.cout ++ [processingMessage order] }
                   else st)).1
               slots := BeamSlots.unassigned } := by
    simp only [phaseStep, OrderMachine.start, hg, if_true]
  have hrun : runPhases L cfg order 4 (OrderMachine.start st)
      = runPhases L cfg order 3
          { phase := OrderPhase.DataGathered
            st := (gather L cfg.NumberOfExposures order
                (if cfg.verbose = true then
                  { st with cout := st.cout ++ [processingMessage order] }
                 else st)).1
            slots := BeamSlots.unassigned } := by
    show (match phaseStep L cfg order (OrderMachine.start st) with
      | none => OrderMachine.start st
      | some m' => runPhases L cfg order 3 m') = _
    rw [hstep]
  refine ⟨?_, ?_, ?_⟩
  · rw [hrun, runPhases_from_gathered]
  · rw [hrun, runPhases_from_gathered]
    show processOrder L cfg order _ = orderStep L cfg st order
    unfold orderStep
    simp only [hg, if_true]
  · show (match phaseStep L cfg order (OrderMachine.start st) with
      | none => [(OrderMachine.start st).phase]
      | some m' => (OrderMachine.start st).phase :: phaseTrace L cfg order 3 m') = _
    rw [hstep]
    simp only [phaseTrace, phaseStep, OrderMachine.start]

theorem phases_of_incomplete (L : Library) (cfg : Config) (st : LoopState) (order : Int)
    (h : exposuresWithElements st cfg.NumberOfExposures order ≠ cfg.NumberOfExposures) :
    (runPhases L cfg order 4 (OrderMachine.start st)).phase = OrderPhase.Skipped
    ∧ (runPhases L cfg order 4 (OrderMachine.start st)).st = orderStep L cfg st order
    ∧ phaseTrace L cfg order 4 (OrderMachine.start st)
        = [OrderPhase.Pending, OrderPhase.Skipped] := by
  have hg := gather_count_verbose L cfg st order
  have hne : ¬ (gather L cfg.NumberOfExposures order
        (if cfg.verbose = true then { st with cout := st.cout ++ [processingMessage order] }
         else st)).2 = cfg.NumberOfExposures := by
    rw [hg]; exact h
  cases hv : cfg.verbose
  · rw [hv] at hne
    simp only [Bool.false_eq_true, if_false] at hne
    refine ⟨?_, ?_, ?_⟩
    · simp [runPhases, phaseStep, OrderMachine.start, hv, hne]
    · simp [runPhases, phaseStep, OrderMachine.start, orderStep, hv, hne]
    · simp [phaseTrace, phaseStep, OrderMachine.start, hv, hne]
  · rw [hv] at hne
    simp only [if_true] at hne
    refine ⟨?_, ?_, ?_⟩
    · simp [runPhases, phaseStep, OrderMachine.start, hv, hne]
    · simp [runPhases, phaseStep, OrderMachine.start, orderStep, hv, hne]
    · simp [phaseTrace, phaseStep, OrderMachine.start, hv, hne]

/-- C20. The iteration of the order loop as a state machine. Run stage by
stage from `Pending`, the iteration of any order ends after at most four
stages in a state without successor, which is the state the loop body gives;
it ends in `Stored` exactly when all N exposures have spectral elements and in
`Skipped` exactly when they have not, so never in both; on the way to `Stored`
the stages are, in this order, data gathered, exposures canonicalized, engine
computed, result stored, and otherwise `Skipped` follows `Pending` directly;
every stage leads to a later one, so no stage is gone through twice. -/
theorem order_state_machine (L : Library) (cfg : Config) (st : LoopState) (order : Int) :
    phaseStep L cfg order (runPhases L cfg order 4 (OrderMachine.start st)) = none
    ∧ (runPhases L cfg order 4 (OrderMachine.start st)).st = orderStep L cfg st order
    ∧ ((runPhases L cfg order 4 (OrderMachine.start st)).phase = OrderPhase.Stored ↔
        exposuresWithElements st cfg.NumberOfExposures order = cfg.NumberOfExposures)
    ∧ ((runPhases L cfg order 4 (OrderMachine.start st)).phase = OrderPhase.Skipped ↔
        exposuresWithElements st cfg.NumberOfExposures order ≠ cfg.NumberOfExposures)
    ∧ (exposuresWithElements st cfg.NumberOfExposures order = cfg.NumberOfExposures →
        phaseTrace L cfg order 4 (OrderMachine.start st)
          = [OrderPhase.Pending, OrderPhase.DataGathered, OrderPhase.Canonicalized,
             OrderPhase.Computed, OrderPhase.Stored])
    ∧ (exposuresWithElements st cfg.NumberOfExposures order ≠ cfg.NumberOfExposures →
        phaseTrace L cfg order 4 (OrderMachine.start st)
          = [OrderPhase.Pending, OrderPhase.Skipped])
    ∧ (phaseTrace L cfg order 4 (OrderMachine.start st)).Nodup
    ∧ (∀ m m' : OrderMachine, phaseStep L cfg order m = some m' →
        m.phase.rank < m'.phase.rank) := by
  by_cases h : exposuresWithElements st cfg.NumberOfExposures order = cfg.NumberOfExposures
  · obtain ⟨p, s, t⟩ := phases_of_complete L cfg st order h
    refine ⟨?_, s, ?_, ?_, fun _ => t, fun hn => absurd h hn, ?_,
      fun m m' => phaseStep_rank L cfg order m m'⟩
    · unfold phaseStep; rw [p]
    · rw [p]; exact ⟨fun _ => h, fun _ => rfl⟩
    · rw [p]; exact ⟨fun e => (by cases e), fun hn => absurd h hn⟩
    · rw [t]; decide
  · obtain ⟨p, s, t⟩ := phases_of_incomplete L cfg st order h
    refine ⟨?_, s, ?_, ?_, fun hc => absurd hc h, fun _ => t, ?_,
      fun m m' => phaseStep_rank L cfg order m m'⟩
    · unfold phaseStep; rw [p]
    · rw [p]; exact ⟨fun e => (by cases e), fun hc => absurd hc h⟩
    · rw [p]; exact ⟨fun _ => h, fun _ => rfl⟩
    · rw [t]; decide

/-- Witness of C20: in the example run the order 31, which all four exposures
have, goes through the five stages, and the order 30, which the third exposure
lacks, is skipped. -/
theorem order_state_machine_witness :
    exposuresWithElements (initialLoopState exampleLibrary exampleOptions)
        exampleOptions.toConfig.NumberOfExposures 31
      = exampleOptions.toConfig.NumberOfExposures
    ∧ phaseTrace exampleLibrary exampleOptions.toConfig 31 4
        (OrderMachine.start (initialLoopState exampleLibrary exampleOptions))
      = [OrderPhase.Pending, OrderPhase.DataGathered, OrderPhase.Canonicalized,
         OrderPhase.Computed, OrderPhase.Stored]
    ∧ exposuresWithElements (initialLoopState exampleLibrary exampleOptions)
        exampleOptions.toConfig.NumberOfExposures 30
      ≠ exampleOptions.toConfig.NumberOfExposures
    ∧ phaseTrace exampleLibrary exampleOptions.toConfig 30 4
        (OrderMachine.start (initialLoopState exampleLibrary exampleOptions))
      = [OrderPhase.Pending, OrderPhase.Skipped] :=
  ⟨by decide,
    (order_state_machine exampleLibrary exampleOptions.toConfig
      (initialLoopState exampleLibrary exampleOptions) 31).2.2.2.2.1 (by decide),
    by decide,
    (order_state_machine exampleLibrary exampleOptions.toConfig
      (initialLoopState exampleLibrary exampleOptions) 30).2.2.2.2.2.1 (by decide)⟩

/-! ## No state shared across orders -/

theorem gather_derefSpectralOrder (L : Library) (N : Nat) (order : Int) (st : LoopState)
    (i : Nat) (hi : i < N) :
    (gather L N order st).1.derefSpectralOrder i = gatheredExposure L st order i := by
  obtain ⟨-, -, -, -, -, g6, g7, -⟩ := gather_spec L N order st
  unfold LoopState.derefSpectralOrder gatheredExposure
  rw [g7, if_pos hi]
  simp only [operaSpectralOrderVector.GetSpectralOrder]
  rw [g6, if_pos ⟨hi, rfl⟩]

theorem gather_derefSpectralElements (L : Library) (N : Nat) (order : Int) (st : LoopState)
    (i : Nat) (hi : i < N)
    (hel : ((st.spectralOrdervector i).orders order).hasSpectralElements = true) :
    (gather L N order st).1.derefSpectralElements i
      = (gatheredExposure L st order i).SpectralElements := by
  obtain ⟨-, -, -, -, -, g6, -, g8⟩ := gather_spec L N order st
  unfold LoopState.derefSpectralElements gatheredExposure
  rw [g8, if_pos ⟨hi, hel⟩]
  simp only [operaSpectralOrderVector.GetSpectralOrder]
  rw [g6, if_pos ⟨hi, rfl⟩]

theorem iterationBeams_congr (L : Library) (cfg : Config) (st st' : LoopState) (order : Int)
    (hN : 0 < cfg.NumberOfExposures)
    (hin : ∀ i, i < cfg.NumberOfExposures →
      (st'.spectralOrdervector i).orders order = (st.spectralOrdervector i).orders order) :
    iterationBeams L cfg st' order = iterationBeams L cfg st order := by
  have hf : ∀ i, i < cfg.NumberOfExposures →
      (gather L cfg.NumberOfExposures order st').1.derefSpectralOrder i
        = (gather L cfg.NumberOfExposures order st).1.derefSpectralOrder i := by
    intro i hi
    rw [gather_derefSpectralOrder L _ order st' i hi, gather_derefSpectralOrder L _ order st i hi]
    unfold gatheredExposure
    rw [hin i hi]
  unfold iterationBeams baseLength
  rw [hf 0 hN]
  exact populate_congr _ _ _ _ hf

theorem iterationXCorrelation_congr (L : Library) (cfg : Config) (st st' : LoopState)
    (order : Int)
    (hin : ∀ i, i < cfg.NumberOfExposures →
      (st'.spectralOrdervector i).orders order = (st.spectralOrdervector i).orders order)
    (h : exposuresWithElements st cfg.NumberOfExposures order = cfg.NumberOfExposures)
    (indexElem : Nat) :
    iterationXCorrelation L cfg st' order indexElem
      = iterationXCorrelation L cfg st order indexElem := by
  have hall := (exposuresWithElements_eq_iff st cfg.NumberOfExposures order).mp h
  unfold iterationXCorrelation
  apply outputXCorrelation_congr
  intro i hi
  rw [gather_derefSpectralElements L _ order st' i hi (by rw [hin i hi]; exact hall i hi),
    gather_derefSpectralElements L _ order st i hi (hall i hi)]
  unfold gatheredExposure
  rw [hin i hi]

theorem processedOrderOf_congr (L : Library) (cfg : Config) (st st' : LoopState) (order : Int)
    (hN : 0 < cfg.NumberOfExposures)
    (hin : ∀ i, i < cfg.NumberOfExposures →
      (st'.spectralOrdervector i).orders order = (st.spectralOrdervector i).orders order)
    (hout : st'.outputorderVector.GetSpectralOrder order
      = st.outputorderVector.GetSpectralOrder order) :
    processedOrderOf L cfg st' order = processedOrderOf L cfg st order
    ∧ dataLinesOf L cfg st' order = dataLinesOf L cfg st order := by
  have hg : ∀ i, i < cfg.NumberOfExposures →
      gatheredExposure L st' order i = gatheredExposure L st order i := by
    intro i hi
    unfold gatheredExposure
    rw [hin i hi]
  have hge : ∀ i, i < cfg.NumberOfExposures →
      (gatheredExposure L st' order i).SpectralElements
        = (gatheredExposure L st order i).SpectralElements := by
    intro i hi
    rw [hg i hi]
  unfold processedOrderOf dataLinesOf
  rw [hout]
  exact ⟨processedOutputOrder_congr L cfg _ _ _ _ _ hN hg hge,
    processedDataLines_congr L cfg order _ _ _ _ _ hN hg hge⟩

theorem exposuresWithElements_of_inputs (cfg : Config) (st st' : LoopState) (order : Int)
    (hin : ∀ i, i < cfg.NumberOfExposures →
      (st'.spectralOrdervector i).orders order = (st.spectralOrdervector i).orders order) :
    exposuresWithElements st' cfg.NumberOfExposures order
      = exposuresWithElements st cfg.NumberOfExposures order :=
  exposuresWithElements_congr st st' _ _ (fun i hi => by rw [hin i hi])

theorem orderStep_output_congr (L : Library) (cfg : Config) (st st' : LoopState) (order : Int)
    (hN : 0 < cfg.NumberOfExposures)
    (hin : ∀ i, i < cfg.NumberOfExposures →
      (st'.spectralOrdervector i).orders order = (st.spectralOrdervector i).orders order)
    (hout : st'.outputorderVector.GetSpectralOrder order
      = st.outputorderVector.GetSpectralOrder order) :
    (orderStep L cfg st' order).outputorderVector.GetSpectralOrder order
      = (orderStep L cfg st order).outputorderVector.GetSpectralOrder order := by
  have hc := exposuresWithElements_of_inputs cfg st st' order hin
  by_cases h : exposuresWithElements st cfg.NumberOfExposures order = cfg.NumberOfExposures
  · rw [(orderStep_process L cfg st order hN h).1,
      (orderStep_process L cfg st' order hN (hc.trans h)).1,
      GetSpectralOrder_setSpectralOrder_self, GetSpectralOrder_setSpectralOrder_self]
    exact (processedOrderOf_congr L cfg st st' order hN hin hout).1
  · rw [(orderStep_skip L cfg st order h).1,
      (orderStep_skip L cfg st' order (by rw [hc]; exact h)).1]
    exact hout

theorem orderStep_output_other (L : Library) (cfg : Config) (st : LoopState) (o order : Int)
    (ho : order ≠ o) :
    (orderStep L cfg st o).outputorderVector.GetSpectralOrder order
      = st.outputorderVector.GetSpectralOrder order := by
  obtain ⟨st0, o1, -, -, -, -, e⟩ := orderStep_eq L cfg st o
  obtain ⟨g1, -, -, -, -, -, -, -⟩ := gather_spec L cfg.NumberOfExposures o st0
  rw [e]
  split_ifs
  · unfold processOrder
    simp only [GetSpectralOrder_setSpectralOrder, if_neg ho, g1, o1]
  · simp only [g1, o1]
  · simp only [g1, o1]

theorem runOrders_frame (L : Library) (cfg : Config) (order : Int) (pre : List Int) :
    ∀ st : LoopState, order ∉ pre →
      (∀ i, ((runOrders L cfg pre st).spectralOrdervector i).orders order
        = (st.spectralOrdervector i).orders order)
      ∧ (runOrders L cfg pre st).outputorderVector.GetSpectralOrder order
        = st.outputorderVector.GetSpectralOrder order := by
  induction pre with
  | nil => intro st _; exact ⟨fun _ => rfl, rfl⟩
  | cons o rest ih =>
    intro st h
    have ho : order ≠ o := fun e => h (by rw [e]; exact List.mem_cons_self _ _)
    have hr : order ∉ rest := fun e => h (List.mem_cons_of_mem _ e)
    obtain ⟨h1, h2⟩ := ih (orderStep L cfg st o) hr
    have e : runOrders L cfg (o :: rest) st = runOrders L cfg rest (orderStep L cfg st o) := rfl
    rw [e]
    refine ⟨fun i => ?_, ?_⟩
    · rw [h1 i, orderStep_inputs]
      rw [if_neg (fun hh => ho hh.2)]
    · rw [h2, orderStep_output_other L cfg st o order ho]

theorem runOrders_append_single (L : Library) (cfg : Config) (pre : List Int) (order : Int)
    (st : LoopState) :
    runOrders L cfg (pre ++ [order]) st = orderStep L cfg (runOrders L cfg pre st) order := by
  unfold runOrders
  rw [List.foldl_append]
  rfl

/-- C21. No state is shared across orders. Take two states in which an
iteration of the order loop on `order` may start, that agree on the data of
that order in the first N input vectors and in the output vector, and are
otherwise arbitrary: other pointer slots `spectralOrder`, `spectralElements`,
`wavelength`, other data at every other order. Both iterations take the same
branch and populate the same arrays `iE`, `iA`; when the order is processed
they compute the same cross-correlation values and the same lines of the data
file; and they leave the same output order. So, whatever orders are visited
before, the output order is the one an iteration started right away gives. -/
theorem no_state_shared_across_orders (L : Library) (cfg : Config) (st st' : LoopState)
    (order : Int) (hN : 0 < cfg.NumberOfExposures)
    (hin : ∀ i, i < cfg.NumberOfExposures →
      (st'.spectralOrdervector i).orders order = (st.spectralOrdervector i).orders order)
    (hout : st'.outputorderVector.GetSpectralOrder order
      = st.outputorderVector.GetSpectralOrder order) :
    exposuresWithElements st' cfg.NumberOfExposures order
        = exposuresWithElements st cfg.NumberOfExposures order
    ∧ iterationBeams L cfg st' order = iterationBeams L cfg st order
    ∧ (exposuresWithElements st cfg.NumberOfExposures order = cfg.NumberOfExposures →
        (∀ indexElem, iterationXCorrelation L cfg st' order indexElem
          = iterationXCorrelation L cfg st order indexElem)
        ∧ dataLinesOf L cfg st' order = dataLinesOf L cfg st order)
    ∧ (orderStep L cfg st' order).outputorderVector.GetSpectralOrder order
        = (orderStep L cfg st order).outputorderVector.GetSpectralOrder order
    ∧ (∀ pre : List Int, order ∉ pre →
        (runOrders L cfg (pre ++ [order]) st).outputorderVector.GetSpectralOrder order
          = (orderStep L cfg st order).outputorderVector.GetSpectralOrder order) := by
  refine ⟨exposuresWithElements_of_inputs cfg st st' order hin,
    iterationBeams_congr L cfg st st' order hN hin,
    fun h => ⟨iterationXCorrelation_congr L cfg st st' order hin h,
      (processedOrderOf_congr L cfg st st' order hN hin hout).2⟩,
    orderStep_output_congr L cfg st st' order hN hin hout, fun pre hpre => ?_⟩
  obtain ⟨h1, h2⟩ := runOrders_frame L cfg order pre st hpre
  rw [runOrders_append_single]
  exact orderStep_output_congr L cfg st _ order hN (fun i _ => h1 i) h2

/-- Witness of C21: the example run started on order 31 with every pointer slot
left pointing at order 30. -/
theorem no_state_shared_across_orders_witness :
    0 < exampleOptions.toConfig.NumberOfExposures
    ∧ iterationBeams exampleLibrary exampleOptions.toConfig staleSlotsState 31
        = iterationBeams exampleLibrary exampleOptions.toConfig
            (initialLoopState exampleLibrary exampleOptions) 31
    ∧ (orderStep exampleLibrary exampleOptions.toConfig staleSlotsState
          31).outputorderVector.GetSpectralOrder 31
        = (orderStep exampleLibrary exampleOptions.toConfig
            (initialLoopState exampleLibrary exampleOptions)
              31).outputorderVector.GetSpectralOrder 31 :=
  ⟨by decide,
    (no_state_shared_across_orders exampleLibrary exampleOptions.toConfig
      (initialLoopState exampleLibrary exampleOptions) staleSlotsState 31 (by decide)
      (fun _ _ => rfl) rfl).2.1,
    (no_state_shared_across_orders exampleLibrary exampleOptions.toConfig
      (initialLoopState exampleLibrary exampleOptions) staleSlotsState 31 (by decide)
      (fun _ _ => rfl) rfl).2.2.2.1⟩

/-! ## Exchanging exposures 3 and 4 under the Difference method -/

theorem populate_raw_getflux (spectralOrder : Nat → operaSpectralOrder) (length index : Nat) :
    (populate 4 spectralOrder length).getfluxE 0 index
        = (populateRaw 4 spectralOrder length).getfluxE 0 index
    ∧ (populate 4 spectralOrder length).getfluxA 0 index
        = (populateRaw 4 spectralOrder length).getfluxA 0 index
    ∧ (populate 4 spectralOrder length).getfluxE 1 index
        = (populateRaw 4 spectralOrder length).getfluxE 1 index
    ∧ (populate 4 spectralOrder length).getfluxA 1 index
        = (populateRaw 4 spectralOrder length).getfluxA 1 index
    ∧ (populate 4 spectralOrder length).getfluxE 2 index
        = (populateRaw 4 spectralOrder length).getfluxE 3 index
    ∧ (populate 4 spectralOrder length).getfluxA 2 index
        = (populateRaw 4 spectralOrder length).getfluxA 3 index
    ∧ (populate 4 spectralOrder length).getfluxE 3 index
        = (populateRaw 4 spectralOrder length).getfluxE 2 index
    ∧ (populate 4 spectralOrder length).getfluxA 3 index
        = (populateRaw 4 spectralOrder length).getfluxA 2 index := by
  rw [populate_four, populateRaw_four]
  refine ⟨rfl, rfl, rfl, rfl, rfl, rfl, rfl, rfl⟩

theorem populate_raw_slotG (spectralOrder : Nat → operaSpectralOrder) (length index : Nat) :
    slotG (populate 4 spectralOrder length) 0 index
        = slotG (populateRaw 4 spectralOrder length) 0 index
    ∧ slotG (populate 4 spectralOrder length) 1 index
        = slotG (populateRaw 4 spectralOrder length) 1 index
    ∧ slotG (populate 4 spectralOrder length) 2 index
        = slotG (populateRaw 4 spectralOrder length) 3 index
    ∧ slotG (populate 4 spectralOrder length) 3 index
        = slotG (populateRaw 4 spectralOrder length) 2 index := by
  obtain ⟨h0, h1, h2, h3, h4, h5, h6, h7⟩ := populate_raw_getflux spectralOrder length index
  unfold slotG
  rw [h0, h1, h2, h3, h4, h5, h6, h7]
  exact ⟨rfl, rfl, rfl, rfl⟩

theorem scenario_raw_sums_nonzero :
    ∀ n, n < 4 →
      (populateRaw 4 scenarioExposures (baseLength scenarioExposures)).getfluxE n 0
        + (populateRaw 4 scenarioExposures (baseLength scenarioExposures)).getfluxA n 0 ≠ 0 := by
  intro n hn
  have e : populateRaw 4 scenarioExposures (baseLength scenarioExposures) =
      { iE := [some { fluxes := [110], variances := [0] },
               some { fluxes := [90], variances := [0] },
               some { fluxes := [95], variances := [0] },
               some { fluxes := [105], variances := [0] }],
        iA := [some { fluxes := [90], variances := [0] },
               some { fluxes := [110], variances := [0] },
               some { fluxes := [105], variances := [0] },
               some { fluxes := [95], variances := [0] }] } := rfl
  rw [e]
  interval_cases n <;>
    simp [BeamSlots.getfluxE, BeamSlots.getfluxA, operaFluxVector.getflux] <;> norm_num

/-- C27. Four exposures, Difference method: for an element whose beam sums are
nonzero, the degree of polarization computed from the canonical arrays (the
populating loop of `main`, which exchanges exposures 3 and 4) is the first null
spectrum computed from the arrays in raw order, the first null spectrum from the
canonical arrays is the degree of polarization from the raw order, and the
second null spectrum is the same for both. -/
theorem exchange_of_exposures_three_and_four (Pow : ℚ → ℚ → ℚ)
    (spectralOrder : Nat → operaSpectralOrder) (length index : Nat)
    (_hsum : ∀ n, n < 4 →
      (populateRaw 4 spectralOrder length).getfluxE n index
        + (populateRaw 4 spectralOrder length).getfluxA n index ≠ 0) :
    some (Engine.elementAt Pow method_t.Difference 4
        (populate 4 spectralOrder length) index).degreeOfPolarization
      = (Engine.elementAt Pow method_t.Difference 4
          (populateRaw 4 spectralOrder length) index).firstNull
    ∧ (Engine.elementAt Pow method_t.Difference 4
        (populate 4 spectralOrder length) index).firstNull
      = some (Engine.elementAt Pow method_t.Difference 4
          (populateRaw 4 spectralOrder length) index).degreeOfPolarization
    ∧ (Engine.elementAt Pow method_t.Difference 4
        (populate 4 spectralOrder length) index).secondNull
      = (Engine.elementAt Pow method_t.Difference 4
          (populateRaw 4 spectralOrder length) index).secondNull := by
  obtain ⟨g0, g1, g2, g3⟩ := populate_raw_slotG spectralOrder length index
  rw [difference_element_four, difference_element_four]
  simp only [g0, g1, g2, g3, Option.some.injEq]
  refine ⟨?_, ?_, ?_⟩ <;> ring

/-- Witness of C27 on the exposures of the end-to-end scenario, whose beam sums
are all 200. -/
theorem exchange_of_exposures_three_and_four_witness :
    (∀ n, n < 4 →
      (populateRaw 4 scenarioExposures (baseLength scenarioExposures)).getfluxE n 0
        + (populateRaw 4 scenarioExposures (baseLength scenarioExposures)).getfluxA n 0 ≠ 0)
    ∧ some (Engine.elementAt rootPow method_t.Difference 4
        (populate 4 scenarioExposures (baseLength scenarioExposures)) 0).degreeOfPolarization
      = (Engine.elementAt rootPow method_t.Difference 4
          (populateRaw 4 scenarioExposures (baseLength scenarioExposures)) 0).firstNull :=
  ⟨scenario_raw_sums_nonzero,
    (exchange_of_exposures_three_and_four rootPow scenarioExposures
      (baseLength scenarioExposures) 0 scenario_raw_sums_nonzero).1⟩

/-! ## The parameter table tool: strings -/

namespace ParameterAccess

theorem find_single_cons (c x : Char) (xs : List Char) :
    find [c] (x :: xs) = if x = c then some 0 else (find [c] xs).map (· + 1) := by
  by_cases h : x = c
  · subst h
    simp [find]
  · have h2 : ¬ c = x := fun e => h e.symm
    simp [find, h, h2]

theorem find_single_none (c : Char) (s : List Char) (h : c ∉ s) : find [c] s = none := by
  induction s with
  | nil => simp [find]
  | cons x xs ih =>
    have hx : ¬ x = c := fun e => h (by rw [e]; exact List.mem_cons_self _ _)
    rw [find_single_cons, if_neg hx, ih (fun e => h (List.mem_cons_of_mem _ e))]
    rfl

theorem find_single_some (c : Char) (p : Char → Bool) (hp : p c = false) (s : List Char) :
    ∀ pos, find [c] s = some pos →
      (s.eraseIdx pos).filter p = s.filter p ∧ (s.eraseIdx pos).length + 1 = s.length := by
  induction s with
  | nil => intro pos h; simp [find] at h
  | cons x xs ih =>
    intro pos h
    rw [find_single_cons] at h
    by_cases hx : x = c
    · rw [if_pos hx] at h
      have h0 : pos = 0 := by simpa using h.symm
      subst h0
      simp [hx, hp]
    · rw [if_neg hx] at h
      cases hf : find [c] xs with
      | none => rw [hf] at h; simp at h
      | some pos1 =>
        rw [hf] at h
        have h1 : pos = pos1 + 1 := by simpa using h.symm
        subst h1
        obtain ⟨i1, i2⟩ := ih pos1 hf
        simp only [List.eraseIdx_cons_succ, List.length_cons]
        refine ⟨?_, by omega⟩
        simp only [List.filter_cons, i1]

theorem find_single_eq_none (c : Char) (s : List Char) (h : find [c] s = none) : c ∉ s := by
  induction s with
  | nil => simp
  | cons x xs ih =>
    rw [find_single_cons] at h
    by_cases hx : x = c
    · rw [if_pos hx] at h; simp at h
    · rw [if_neg hx] at h
      have h1 : find [c] xs = none := by simpa using h
      intro hm
      rcases List.mem_cons.mp hm with e | e
      · exact hx e.symm
      · exact ih h1 e

theorem stripLoop_eq_filter (c : Char) (fuel : Nat) :
    ∀ s : List Char, s.length ≤ fuel →
      stripLoop c fuel s = s.filter (fun x => decide (x ≠ c)) := by
  induction fuel with
  | zero =>
    intro s h
    have hs : s = [] := List.length_eq_zero.mp (Nat.le_zero.mp h)
    subst hs
    rfl
  | succ n ih =>
    intro s h
    unfold stripLoop
    cases hf : find [c] s with
    | none =>
      have hm := find_single_eq_none c s hf
      simp only
      symm
      apply List.filter_eq_self.mpr
      intro a ha
      simp only [ne_eq, decide_not, Bool.not_eq_true', decide_eq_false_iff_not]
      intro e
      exact hm (e ▸ ha)
    | some pos =>
      obtain ⟨i1, i2⟩ := find_single_some c (fun x => decide (x ≠ c)) (by simp) s pos hf
      simp only
      rw [ih (s.eraseIdx pos) (by omega), i1]

/-- The function `strip` removes every occurrence of the character: the loop
ends before its bound is reached. -/
theorem strip_eq_filter (s : List Char) (c : Char) :
    strip s c = s.filter (fun x => decide (x ≠ c)) :=
  stripLoop_eq_filter c s.length s (le_refl _)

theorem strip_strip (s : List Char) :
    strip (strip s ' ') '\t' = s.filter (fun x => decide (x ≠ ' ') && decide (x ≠ '\t')) := by
  rw [strip_eq_filter, strip_eq_filter, List.filter_filter]
  congr 1
  funext x
  exact Bool.and_comm _ _

theorem strip_strip_of_not_mem (s : List Char) (h1 : ' ' ∉ s) (h2 : '\t' ∉ s) :
    strip (strip s ' ') '\t' = s := by
  rw [strip_strip]
  apply List.filter_eq_self.mpr
  intro a ha
  have e1 : a ≠ ' ' := fun e => h1 (e ▸ ha)
  have e2 : a ≠ '\t' := fun e => h2 (e ▸ ha)
  simp [e1, e2]

theorem stripleft_eq_dropWhile (s : List Char) (c : Char) :
    stripleft s c = s.dropWhile (fun x => decide (x = c)) := by
  induction s with
  | nil => rfl
  | cons x xs ih =>
    by_cases h : x = c
    · simp [stripleft, h, ih]
    · simp [stripleft, h]

theorem stripleft_of_head (s : List Char) (c : Char) (h : s.head? ≠ some c) :
    stripleft s c = s := by
  cases s with
  | nil => rfl
  | cons x xs =>
    have hx : ¬ x = c := fun e => h (by rw [e]; rfl)
    simp [stripleft, hx]

end ParameterAccess

namespace ParameterAccess

theorem find_pair_cons (p q c : Char) (s : List Char) :
    find [p, q] (c :: s)
      = if c = p ∧ s.head? = some q then some 0 else (find [p, q] s).map (· + 1) := by
  cases s with
  | nil =>
    simp [find]
  | cons d t =>
    by_cases h1 : p = c
    · by_cases h2 : q = d
      · subst h1; subst h2
        simp [find]
      · have h3 : ¬ d = q := fun e => h2 e.symm
        subst h1
        rw [if_neg (by simp [h3])]
        conv_lhs => unfold find
        simp [h2]
    · have h3 : ¬ c = p := fun e => h1 e.symm
      rw [if_neg (by simp [h3])]
      conv_lhs => unfold find
      simp [h1]

theorem find_pair_self (p q : Char) (rest : List Char) :
    find [p, q] (p :: q :: rest) = some 0 := by
  rw [find_pair_cons, if_pos ⟨rfl, rfl⟩]

theorem find_pair_of_not_mem (p q : Char) (a : List Char) (h : q ∉ a) :
    find [p, q] a = none := by
  induction a with
  | nil => simp [find]
  | cons c s ih =>
    have hs : q ∉ s := fun e => h (List.mem_cons_of_mem _ e)
    rw [find_pair_cons, ih hs, if_neg]
    · rfl
    · rintro ⟨-, h2⟩
      exact hs (List.mem_of_mem_head? h2)

theorem find_pair_append (p q : Char) (tail : List Char) :
    ∀ a : List Char, find [p, q] a = none →
      (a.getLast? = some p → tail.head? ≠ some q) →
      find [p, q] (a ++ tail) = (find [p, q] tail).map (· + a.length) := by
  intro a
  induction a with
  | nil =>
    intro _ _
    simp
  | cons c s ih =>
    intro ha hl
    rw [find_pair_cons] at ha
    have hn : ¬ (c = p ∧ s.head? = some q) := by
      intro hh
      rw [if_pos hh] at ha
      simp at ha
    rw [if_neg hn] at ha
    have hs : find [p, q] s = none := by simpa using ha
    have hn2 : ¬ (c = p ∧ (s ++ tail).head? = some q) := by
      rintro ⟨e1, e2⟩
      cases s with
      | nil =>
        simp only [List.nil_append] at e2
        exact hl (by simp [e1]) e2
      | cons d t =>
        exact hn ⟨e1, by simpa using e2⟩
    have hl2 : s.getLast? = some p → tail.head? ≠ some q := by
      intro e
      apply hl
      cases s with
      | nil => simp at e
      | cons d t => simpa [List.getLast?_cons_cons] using e
    rw [List.cons_append, find_pair_cons, if_neg hn2, ih hs hl2, Option.map_map]
    congr 1

theorem find_single_append (c : Char) (a tail : List Char) (h : c ∉ a) :
    find [c] (a ++ c :: tail) = some a.length := by
  induction a with
  | nil => simp [find_single_cons]
  | cons x s ih =>
    have hx : ¬ x = c := fun e => h (by rw [e]; exact List.mem_cons_self _ _)
    rw [List.cons_append, find_single_cons, if_neg hx, ih (fun e => h (List.mem_cons_of_mem _ e))]
    rfl

/-- The position that `find` gives is the start of an occurrence. -/
theorem find_spec (pat : List Char) (s : List Char) :
    ∀ pos, find pat s = some pos → pat <+: s.drop pos := by
  induction s with
  | nil =>
    intro pos h
    unfold find at h
    by_cases hp : pat = []
    · subst hp
      simp
    · rw [if_neg hp] at h
      simp at h
  | cons c rest ih =>
    intro pos h
    unfold find at h
    by_cases hp : pat.isPrefixOf (c :: rest) = true
    · rw [if_pos hp] at h
      have h0 : pos = 0 := by simpa using h.symm
      subst h0
      simpa using hp
    · rw [if_neg hp] at h
      cases hf : find pat rest with
      | none => rw [hf] at h; simp at h
      | some pos1 =>
        rw [hf] at h
        have h1 : pos = pos1 + 1 := by simpa using h.symm
        subst h1
        simpa using ih pos1 hf

/-- Removing the leading spaces and then the leading tabs removes every leading
space and tab when no space follows the leading tabs. -/
theorem stripleft_blanks (s : List Char)
    (h : (stripleft (stripleft s ' ') '\t').head? ≠ some ' ') :
    stripleft (stripleft s ' ') '\t'
      = s.dropWhile (fun x => decide (x = ' ') || decide (x = '\t')) := by
  have tabs : ∀ r : List Char, (stripleft r '\t').head? ≠ some ' ' →
      stripleft r '\t' = r.dropWhile (fun x => decide (x = ' ') || decide (x = '\t')) := by
    intro r
    induction r with
    | nil => intro _; rfl
    | cons x xs ih =>
      intro hr
      by_cases hx : x = '\t'
      · subst hx
        simp only [stripleft, if_true] at hr ⊢
        rw [ih hr]
        simp
      · have e : stripleft (x :: xs) '\t' = x :: xs := by simp [stripleft, hx]
        rw [e] at hr ⊢
        have hx2 : ¬ x = ' ' := fun e2 => hr (by rw [e2]; rfl)
        simp [hx, hx2]
  induction s with
  | nil => rfl
  | cons x xs ih =>
    by_cases hx : x = ' '
    · subst hx
      simp only [stripleft, if_true] at h ⊢
      rw [ih h]
      simp
    · have e : stripleft (x :: xs) ' ' = x :: xs := by simp [stripleft, hx]
      rw [e] at h ⊢
      exact tabs (x :: xs) h

end ParameterAccess

/-! ## The parameter table tool: the table -/

namespace ParameterAccess

theorem keyLess_irrefl (a : List Char) : keyLess a a = false := by
  induction a with
  | nil => rfl
  | cons x xs ih => simp [keyLess, ih]

theorem keyLess_trans : ∀ a b c : List Char,
    keyLess a b = true → keyLess b c = true → keyLess a c = true := by
  intro a
  induction a with
  | nil =>
    intro b c h1 h2
    cases b with
    | nil => simp [keyLess] at h1
    | cons y ys =>
      cases c with
      | nil => simp [keyLess] at h2
      | cons z zs => rfl
  | cons x xs ih =>
    intro b c h1 h2
    cases b with
    | nil => simp [keyLess] at h1
    | cons y ys =>
      cases c with
      | nil => simp [keyLess] at h2
      | cons z zs =>
        simp only [keyLess] at h1 h2 ⊢
        by_cases hxy : x < y
        · by_cases hyz : y < z
          · simp [lt_trans hxy hyz]
          · rw [if_neg hyz] at h2
            by_cases eyz : y = z
            · subst eyz
              simp [hxy]
            · simp [eyz] at h2
        · rw [if_neg hxy] at h1
          by_cases exy : x = y
          · subst exy
            rw [if_pos rfl] at h1
            by_cases hyz : x < z
            · simp [hyz]
            · rw [if_neg hyz] at h2 ⊢
              by_cases eyz : x = z
              · subst eyz
                rw [if_pos rfl] at h2 ⊢
                exact ih ys zs h1 h2
              · simp [eyz] at h2
          · simp [exy] at h1

theorem keyLess_total : ∀ a b : List Char,
    a ≠ b → keyLess a b = true ∨ keyLess b a = true := by
  intro a
  induction a with
  | nil =>
    intro b h
    cases b with
    | nil => exact absurd rfl h
    | cons y ys => exact Or.inl rfl
  | cons x xs ih =>
    intro b h
    cases b with
    | nil => exact Or.inr rfl
    | cons y ys =>
      simp only [keyLess]
      rcases lt_trichotomy x y with hlt | heq | hgt
      · left; simp [hlt]
      · subst heq
        have hne : xs ≠ ys := fun e => h (by rw [e])
        simp only [lt_irrefl, if_false, if_true]
        exact ih ys hne
      · right; simp [hgt]

theorem keyLess_ne (a b : List Char) (h : keyLess a b = true) : a ≠ b := by
  intro e
  subst e
  rw [keyLess_irrefl] at h
  exact Bool.false_ne_true h

theorem keyLess_asymm (a b : List Char) (h1 : keyLess a b = true) (h2 : keyLess b a = true) :
    False := by
  have h := keyLess_trans a b a h1 h2
  rw [keyLess_irrefl] at h
  exact Bool.false_ne_true h

theorem lookup_cons (k : List Char) (e : List Char × List Char)
    (l : List (List Char × List Char)) :
    lookup k (e :: l) = if e.1 = k then some e.2 else lookup k l := rfl

theorem lookup_eq_none (k : List Char) (l : List (List Char × List Char)) :
    lookup k l = none ↔ ∀ e ∈ l, e.1 ≠ k := by
  induction l with
  | nil => simp [lookup]
  | cons x rest ih =>
    rw [lookup_cons]
    by_cases h : x.1 = k
    · simp [h]
    · simp [h, ih]

theorem lookup_insertEntry_self (k v : List Char) (l : List (List Char × List Char))
    (h : lookup k l = none) : lookup k (insertEntry (k, v) l) = some v := by
  induction l with
  | nil => simp [insertEntry, lookup]
  | cons x rest ih =>
    rw [lookup_cons] at h
    by_cases hx : x.1 = k
    · rw [if_pos hx] at h; simp at h
    · rw [if_neg hx] at h
      have hx2 : ¬ k = x.1 := fun e => hx e.symm
      unfold insertEntry
      by_cases hl : keyLess k x.1 = true
      · simp [hl, lookup]
      · simp only [hl, if_false, hx2, Bool.false_eq_true]
        rw [lookup_cons, if_neg hx, ih h]

theorem lookup_insertEntry_ne (k v k2 : List Char) (l : List (List Char × List Char))
    (h : k2 ≠ k) : lookup k2 (insertEntry (k, v) l) = lookup k2 l := by
  induction l with
  | nil => simp [insertEntry, lookup, h.symm]
  | cons x rest ih =>
    unfold insertEntry
    by_cases hl : keyLess k x.1 = true
    · simp only [hl, if_true]
      rw [lookup_cons, if_neg (fun e => h e.symm)]
    · by_cases hx : k = x.1
      · simp only [hl, if_false, Bool.false_eq_true]
        simp only [hx, if_true]
      · simp only [hl, hx, if_false, Bool.false_eq_true]
        rw [lookup_cons, lookup_cons, ih]

theorem lookup_filter_self (k : List Char) (l : List (List Char × List Char)) :
    lookup k (l.filter (fun e => decide (e.1 ≠ k))) = none := by
  rw [lookup_eq_none]
  intro e he
  have := (List.mem_filter.mp he).2
  simpa using this

theorem lookup_filter_ne (k k2 : List Char) (l : List (List Char × List Char)) (h : k2 ≠ k) :
    lookup k2 (l.filter (fun e => decide (e.1 ≠ k))) = lookup k2 l := by
  induction l with
  | nil => rfl
  | cons x rest ih =>
    by_cases hx : x.1 = k
    · have hx2 : ¬ x.1 = k2 := fun e => h (e.symm.trans hx)
      simp only [List.filter_cons, hx, ne_eq, not_true_eq_false, decide_False,
        Bool.false_eq_true, if_false]
      rw [lookup_cons, if_neg hx2, ih]
    · simp only [List.filter_cons, hx, ne_eq, not_false_eq_true, decide_True, if_true]
      rw [lookup_cons, lookup_cons, ih]

theorem filter_of_lookup_none (k : List Char) (l : List (List Char × List Char))
    (h : lookup k l = none) : l.filter (fun e => decide (e.1 ≠ k)) = l := by
  apply List.filter_eq_self.mpr
  intro e he
  simpa using (lookup_eq_none k l).mp h e he

theorem countP_of_lookup_none (k : List Char) (l : List (List Char × List Char))
    (h : lookup k l = none) : l.countP (fun e => decide (e.1 = k)) = 0 := by
  rw [List.countP_eq_zero]
  intro e he
  simpa using (lookup_eq_none k l).mp h e he

theorem countP_insertEntry (k v : List Char) (l : List (List Char × List Char))
    (h : lookup k l = none) :
    (insertEntry (k, v) l).countP (fun e => decide (e.1 = k)) = 1 := by
  induction l with
  | nil => simp [insertEntry]
  | cons x rest ih =>
    rw [lookup_cons] at h
    by_cases hx : x.1 = k
    · rw [if_pos hx] at h; simp at h
    · rw [if_neg hx] at h
      have hx2 : ¬ k = x.1 := fun e => hx e.symm
      unfold insertEntry
      by_cases hl : keyLess k x.1 = true
      · simp only [hl, if_true]
        rw [List.countP_cons_of_pos _ _ (by simp), List.countP_cons_of_neg _ _ (by simp [hx]),
          countP_of_lookup_none k rest h]
      · simp only [hl, if_false, hx2, Bool.false_eq_true]
        rw [List.countP_cons_of_neg _ _ (by simp [hx]), ih h]

theorem mem_insertEntry (e y : List Char × List Char) (l : List (List Char × List Char))
    (h : y ∈ insertEntry e l) : y = e ∨ y ∈ l := by
  induction l with
  | nil => simpa [insertEntry] using h
  | cons x rest ih =>
    unfold insertEntry at h
    by_cases hl : keyLess e.1 x.1 = true
    · simp only [hl, if_true] at h
      rcases List.mem_cons.mp h with h1 | h1
      · exact Or.inl h1
      · exact Or.inr h1
    · by_cases hx : e.1 = x.1
      · simp only [hl, if_false, Bool.false_eq_true] at h
        simp only [hx, if_true] at h
        exact Or.inr h
      · simp only [hl, hx, if_false, Bool.false_eq_true] at h
        rcases List.mem_cons.mp h with h1 | h1
        · exact Or.inr (by rw [h1]; exact List.mem_cons_self _ _)
        · rcases ih h1 with h2 | h2
          · exact Or.inl h2
          · exact Or.inr (List.mem_cons_of_mem _ h2)

theorem insertEntry_perm (e : List Char × List Char) (l : List (List Char × List Char))
    (h : lookup e.1 l = none) : (insertEntry e l).Perm (e :: l) := by
  induction l with
  | nil => simp [insertEntry]
  | cons x rest ih =>
    rw [lookup_cons] at h
    by_cases hx : x.1 = e.1
    · rw [if_pos hx] at h; simp at h
    · rw [if_neg hx] at h
      have hx2 : ¬ e.1 = x.1 := fun e2 => hx e2.symm
      unfold insertEntry
      by_cases hl : keyLess e.1 x.1 = true
      · simp only [hl, if_true]
        exact List.Perm.refl _
      · simp only [hl, if_false, hx2, Bool.false_eq_true]
        exact ((ih h).cons x).trans (List.Perm.swap e x rest)

theorem insertEntry_ordered (e : List Char × List Char) (l : List (List Char × List Char))
    (hl : l.Pairwise (fun a b => keyLess a.1 b.1 = true)) (h : lookup e.1 l = none) :
    (insertEntry e l).Pairwise (fun a b => keyLess a.1 b.1 = true) := by
  induction l with
  | nil => simp [insertEntry]
  | cons x rest ih =>
    rw [lookup_cons] at h
    by_cases hx : x.1 = e.1
    · rw [if_pos hx] at h; simp at h
    · rw [if_neg hx] at h
      have hx2 : ¬ e.1 = x.1 := fun e2 => hx e2.symm
      obtain ⟨hx3, hrest⟩ := List.pairwise_cons.mp hl
      unfold insertEntry
      by_cases hlt : keyLess e.1 x.1 = true
      · simp only [hlt, if_true]
        refine List.pairwise_cons.mpr ⟨?_, hl⟩
        intro y hy
        rcases List.mem_cons.mp hy with h1 | h1
        · rw [h1]; exact hlt
        · exact keyLess_trans _ _ _ hlt (hx3 y h1)
      · simp only [hlt, if_false, hx2, Bool.false_eq_true]
        refine List.pairwise_cons.mpr ⟨?_, ih hrest h⟩
        intro y hy
        rcases mem_insertEntry e y rest hy with h1 | h1
        · rw [h1]
          rcases keyLess_total x.1 e.1 hx with h2 | h2
          · exact h2
          · exact absurd h2 hlt
        · exact hx3 y h1

theorem ordered_unique (l1 l2 : List (List Char × List Char))
    (h1 : l1.Pairwise (fun a b => keyLess a.1 b.1 = true))
    (h2 : l2.Pairwise (fun a b => keyLess a.1 b.1 = true)) (hp : l1.Perm l2) : l1 = l2 := by
  haveI : IsAntisymm (List Char × List Char) (fun a b => keyLess a.1 b.1 = true) :=
    ⟨fun a b hab hba => (keyLess_asymm a.1 b.1 hab hba).elim⟩
  exact List.eq_of_perm_of_sorted hp h1 h2

end ParameterAccess

namespace ParameterAccess

theorem erase_of_find_none (t : Table) (k : List Char) (h : t.find k = none) :
    t.erase k = t := by
  cases t with
  | mk entries =>
    unfold Table.erase
    simp only [Table.mk.injEq]
    exact filter_of_lookup_none k entries h

theorem find_erase_self (t : Table) (k : List Char) : (t.erase k).find k = none :=
  lookup_filter_self k t.entries

theorem find_erase_ne (t : Table) (k k2 : List Char) (h : k2 ≠ k) :
    (t.erase k).find k2 = t.find k2 :=
  lookup_filter_ne k k2 t.entries h

theorem erase_ordered (t : Table) (k : List Char) (h : t.Ordered) : (t.erase k).Ordered :=
  List.Pairwise.filter _ h

theorem set_find_self (t : Table) (k v : List Char) :
    ((t.erase k).insert (k, v)).find k = some v :=
  lookup_insertEntry_self k v _ (lookup_filter_self k t.entries)

theorem set_find_ne (t : Table) (k v k2 : List Char) (h : k2 ≠ k) :
    ((t.erase k).insert (k, v)).find k2 = t.find k2 := by
  unfold Table.insert Table.find
  rw [lookup_insertEntry_ne k v k2 _ h]
  exact lookup_filter_ne k k2 t.entries h

theorem set_count (t : Table) (k v : List Char) :
    ((t.erase k).insert (k, v)).count k = 1 :=
  countP_insertEntry k v _ (lookup_filter_self k t.entries)

theorem set_ordered (t : Table) (k v : List Char) (h : t.Ordered) :
    ((t.erase k).insert (k, v)).Ordered :=
  insertEntry_ordered (k, v) _ (erase_ordered t k h) (lookup_filter_self k t.entries)

theorem tableAdd_assign (line : List Char) (pos : Nat) (t : Table)
    (h : find [':', '='] line = some pos) :
    tableAdd line t
      = some ((t.erase (strip (strip (line.take pos) ' ') '\t')).insert
          (strip (strip (line.take pos) ' ') '\t',
            stripleft (stripleft (line.drop (pos + 2)) ' ') '\t')) := by
  unfold tableAdd
  simp only [h]
  cases hf : t.find (strip (strip (line.take pos) ' ') '\t') with
  | none => simp only [erase_of_find_none t _ hf]
  | some w => rfl

theorem tableAdd_append (line : List Char) (pos : Nat) (t : Table)
    (h0 : find [':', '='] line = none) (h : find ['+', '='] line = some pos) :
    tableAdd line t
      = match t.find (strip (strip (line.take pos) ' ') '\t') with
        | none =>
          some ((t.erase (strip (strip (line.take pos) ' ') '\t')).insert
            (strip (strip (line.take pos) ' ') '\t',
              stripleft (stripleft (line.drop (pos + 2)) ' ') '\t'))
        | some _ => none := by
  unfold tableAdd
  simp only [h0, h]
  cases hf : t.find (strip (strip (line.take pos) ' ') '\t') with
  | none => simp only [erase_of_find_none t _ hf]
  | some w => rfl

theorem tableAdd_remove (line : List Char) (pos : Nat) (t : Table)
    (h0 : find [':', '='] line = none) (h1 : find ['+', '='] line = none)
    (h : find ['-', '='] line = some pos) :
    tableAdd line t
      = match t.find (strip (strip (line.take pos) ' ') '\t') with
        | none => some t
        | some _ => none := by
  unfold tableAdd
  simp only [h0, h1, h]
  cases hf : t.find (strip (strip (line.take pos) ' ') '\t') with
  | none => rfl
  | some w =>
    cases hr : removalValue w (stripleft (stripleft (line.drop (pos + 2)) ' ') '\t') with
    | none => simp only [hr]
    | some u => simp only [hr, insertAtErased]

theorem tableAdd_equals (line : List Char) (pos : Nat) (t : Table)
    (h0 : find [':', '='] line = none) (h1 : find ['+', '='] line = none)
    (h2 : find ['-', '='] line = none) (h : find ['='] line = some pos) :
    tableAdd line t
      = some ((t.erase (strip (strip (line.take pos) ' ') '\t')).insert
          (strip (strip (line.take pos) ' ') '\t',
            stripleft (stripleft (line.drop (pos + 1)) ' ') '\t')) := by
  unfold tableAdd
  simp only [h0, h1, h2, h]
  cases hf : t.find (strip (strip (line.take pos) ' ') '\t') with
  | none => simp only [erase_of_find_none t _ hf]
  | some w => rfl

theorem find_operator (p q : Char) (hq : q = '=') (hp : p ≠ '=') (var value : List Char)
    (hvar : '=' ∉ var) :
    find [p, q] (var ++ p :: q :: value) = some var.length := by
  subst hq
  rw [find_pair_append p '=' _ var (find_pair_of_not_mem p '=' var hvar)
    (fun _ => by simp [hp]), find_pair_self]
  simp

theorem find_operator_of_find (p : Char) (hp : p ≠ '=') (var value : List Char)
    (hvar : find [p, '='] var = none) :
    find [p, '='] (var ++ p :: '=' :: value) = some var.length := by
  rw [find_pair_append p '=' _ var hvar (fun _ => by simp [hp]), find_pair_self]
  simp

theorem take_drop_operator (var value : List Char) (p q : Char) :
    (var ++ p :: q :: value).take var.length = var
    ∧ (var ++ p :: q :: value).drop (var.length + 2) = value := by
  refine ⟨List.take_left' rfl, ?_⟩
  have e : var ++ p :: q :: value = (var ++ [p, q]) ++ value := by simp
  rw [e]
  exact List.drop_left' (by simp)

end ParameterAccess

/-! ## The parameter table tool: the four forms of a line -/

namespace ParameterAccess

theorem strip_withoutBlanks (var : List Char) :
    strip (strip var ' ') '\t' = withoutBlanks var :=
  strip_strip var

theorem stripleft_withoutLeadingBlanks (value : List Char) :
    stripleft (stripleft value ' ') '\t' = withoutLeadingBlanks value := by
  rw [stripleft_eq_dropWhile, stripleft_eq_dropWhile]
  rfl

theorem withoutLeadingBlanks_all (value : List Char)
    (h : (withoutLeadingBlanks value).head? ≠ some ' ') :
    withoutLeadingBlanks value
      = value.dropWhile (fun x => decide (x = ' ') || decide (x = '\t')) := by
  rw [← stripleft_withoutLeadingBlanks] at h ⊢
  exact stripleft_blanks value h

theorem tableAdd_assign_line (table : Table) (var value : List Char) (hvar : '=' ∉ var) :
    tableAdd (var ++ [':', '='] ++ value) table
      = some ((table.erase (withoutBlanks var)).insert
          (withoutBlanks var, withoutLeadingBlanks value)) := by
  have e : var ++ [':', '='] ++ value = var ++ ':' :: '=' :: value := by simp
  rw [e, tableAdd_assign _ var.length table
      (find_operator ':' '=' rfl (by decide) var value hvar),
    (take_drop_operator var value ':' '=').1, (take_drop_operator var value ':' '=').2,
    strip_withoutBlanks, stripleft_withoutLeadingBlanks]

theorem tableAdd_equals_line (table : Table) (var value : List Char) (hvar : '=' ∉ var)
    (h0 : find [':', '='] (var ++ ['='] ++ value) = none)
    (h1 : find ['+', '='] (var ++ ['='] ++ value) = none)
    (h2 : find ['-', '='] (var ++ ['='] ++ value) = none) :
    tableAdd (var ++ ['='] ++ value) table
      = some ((table.erase (withoutBlanks var)).insert
          (withoutBlanks var, withoutLeadingBlanks value)) := by
  have e : var ++ ['='] ++ value = var ++ '=' :: value := by simp
  rw [e] at h0 h1 h2 ⊢
  have hd : (var ++ '=' :: value).drop (var.length + 1) = value := by
    have e2 : var ++ '=' :: value = (var ++ ['=']) ++ value := by simp
    rw [e2]
    exact List.drop_left' (by simp)
  rw [tableAdd_equals _ var.length table h0 h1 h2 (find_single_append '=' var value hvar),
    List.take_left' rfl, hd, strip_withoutBlanks, stripleft_withoutLeadingBlanks]

theorem tableAdd_append_line (table : Table) (var v : List Char)
    (h0 : find [':', '='] (var ++ ['+', '='] ++ v) = none)
    (hvar : find ['+', '='] var = none) :
    tableAdd (var ++ ['+', '='] ++ v) table
      = match table.find (withoutBlanks var) with
        | none =>
          some ((table.erase (withoutBlanks var)).insert
            (withoutBlanks var, withoutLeadingBlanks v))
        | some _ => none := by
  have e : var ++ ['+', '='] ++ v = var ++ '+' :: '=' :: v := by simp
  rw [e] at h0 ⊢
  rw [tableAdd_append _ var.length table h0
      (find_operator_of_find '+' (by decide) var v hvar),
    (take_drop_operator var v '+' '=').1, (take_drop_operator var v '+' '=').2,
    strip_withoutBlanks, stripleft_withoutLeadingBlanks]

theorem tableAdd_remove_line (table : Table) (var v : List Char)
    (h0 : find [':', '='] (var ++ ['-', '='] ++ v) = none)
    (h1 : find ['+', '='] (var ++ ['-', '='] ++ v) = none)
    (hvar : find ['-', '='] var = none) :
    tableAdd (var ++ ['-', '='] ++ v) table
      = match table.find (withoutBlanks var) with
        | none => some table
        | some _ => none := by
  have e : var ++ ['-', '='] ++ v = var ++ '-' :: '=' :: v := by simp
  rw [e] at h0 h1 ⊢
  rw [tableAdd_remove _ var.length table h0 h1
      (find_operator_of_find '-' (by decide) var v hvar),
    (take_drop_operator var v '-' '=').1, strip_withoutBlanks]

/-- C22. Assignment to a variable. For a variable name `var` without `=` and
any value, `tableAdd` on the line `var:=value`, and on the line `var=value` when
that line holds none of `:=`, `+=`, `-=`, leaves a table that maps `var` without
its spaces and tabs to the value without its leading spaces and, after them,
its leading tabs; it holds one entry for that variable, every other entry is
unchanged and the entries stay in key order. The value stored is the value
without any leading space or tab whenever no space follows the leading tabs. -/
theorem table_assignment (table : Table) (var value line : List Char) (hvar : '=' ∉ var)
    (hline : line = var ++ [':', '='] ++ value
      ∨ (line = var ++ ['='] ++ value ∧ find [':', '='] line = none
          ∧ find ['+', '='] line = none ∧ find ['-', '='] line = none)) :
    ∃ t, tableAdd line table = some t
      ∧ t.find (withoutBlanks var) = some (withoutLeadingBlanks value)
      ∧ (∀ k, k ≠ withoutBlanks var → t.find k = table.find k)
      ∧ t.count (withoutBlanks var) = 1
      ∧ (table.Ordered → t.Ordered)
      ∧ ((withoutLeadingBlanks value).head? ≠ some ' ' →
          withoutLeadingBlanks value
            = value.dropWhile (fun x => decide (x = ' ') || decide (x = '\t'))) := by
  refine ⟨(table.erase (withoutBlanks var)).insert
      (withoutBlanks var, withoutLeadingBlanks value), ?_, set_find_self _ _ _,
    fun k hk => set_find_ne _ _ _ k hk, set_count _ _ _, set_ordered _ _ _,
    withoutLeadingBlanks_all value⟩
  rcases hline with h | ⟨h, h0, h1, h2⟩
  · rw [h]
    exact tableAdd_assign_line table var value hvar
  · subst h
    exact tableAdd_equals_line table var value hvar h0 h1 h2

/-- Witness of C22: the line `src=x.c` given to a table that holds `src`. -/
theorem table_assignment_witness :
    '=' ∉ "src".toList
    ∧ ∃ t, tableAdd "src=x.c".toList sourcesTable = some t
      ∧ t.find (withoutBlanks "src".toList) = some (withoutLeadingBlanks "x.c".toList) :=
  ⟨by decide,
    (table_assignment sourcesTable "src".toList "x.c".toList "src=x.c".toList (by decide)
      (Or.inr ⟨by decide, by decide, by decide, by decide⟩)).imp
      (fun _ h => ⟨h.1, h.2.1⟩)⟩

/-- C22, as stated, fails on two lines. The line that the tool
itself saves for the variable `k` of value ` v` (a space, then `v`) gives back
the value with its leading space, not `v`: the tab before the space stops the
removal of the spaces. And the line `a=x:=y` is read as an assignment of `y` to
the variable `a=x`: nothing is stored for `a`. -/
theorem assignment_misread :
    saveLines ⟨[("k".toList, " v".toList)]⟩ = ["k\t:=\t v".toList]
    ∧ '=' ∉ "k\t".toList
    ∧ tableAdd ("k\t".toList ++ [':', '='] ++ "\t v".toList) Table.clear
        = some ⟨[("k".toList, " v".toList)]⟩
    ∧ "\t v".toList.dropWhile (fun x => decide (x = ' ') || decide (x = '\t')) = "v".toList
    ∧ '=' ∉ "a".toList
    ∧ tableAdd ("a".toList ++ ['='] ++ "x:=y".toList) Table.clear
        = some ⟨[("a=x".toList, "y".toList)]⟩
    ∧ (∀ t, tableAdd ("a".toList ++ ['='] ++ "x:=y".toList) Table.clear = some t →
        t.find "a".toList = none) := by
  refine ⟨by decide, by decide, by decide, by decide, by decide, by decide, ?_⟩
  intro t h
  have e : tableAdd ("a".toList ++ ['='] ++ "x:=y".toList) Table.clear
      = some ⟨[("a=x".toList, "y".toList)]⟩ := by decide
  rw [e] at h
  cases h
  decide

end ParameterAccess

namespace ParameterAccess

/-- C23. What the line `var+=v` does. For a variable name `var` without `+=`
and a value `v` such that the line holds no `:=`: when the variable (`var`
without its spaces and tabs) is absent, `tableAdd` leaves it mapped to `v`
(without its leading spaces and, after them, its leading tabs), every other
entry is unchanged, the table holds exactly one entry for the variable and the
entries stay in key order. When the variable is present, the call has no
defined result: the entry is erased and the iterator that the erasure
invalidated is handed to `insert`. -/
theorem table_append (table : Table) (var v : List Char)
    (hline : find [':', '='] (var ++ ['+', '='] ++ v) = none)
    (hvar : find ['+', '='] var = none) :
    (table.find (withoutBlanks var) = none →
      ∃ t, tableAdd (var ++ ['+', '='] ++ v) table = some t
        ∧ t.find (withoutBlanks var) = some (withoutLeadingBlanks v)
        ∧ (∀ k, k ≠ withoutBlanks var → t.find k = table.find k)
        ∧ t.count (withoutBlanks var) = 1
        ∧ (table.Ordered → t.Ordered))
    ∧ (∀ w, table.find (withoutBlanks var) = some w →
        tableAdd (var ++ ['+', '='] ++ v) table = none) := by
  have e := tableAdd_append_line table var v hline hvar
  refine ⟨fun h => ?_, fun w h => ?_⟩
  · rw [h] at e
    exact ⟨_, e, set_find_self _ _ _, fun k hk => set_find_ne _ _ _ k hk, set_count _ _ _,
      set_ordered _ _ _⟩
  · rw [h] at e
    exact e

/-- Witness of C23: the line `src+=x.c` gives the empty table the one entry
`src` of value `x.c`, and has no defined result on the table that holds `src`;
nor has the run `operaParameterAccess src+=x.c` on a parameter file that holds
`src`. -/
theorem table_append_witness :
    find [':', '='] ("src".toList ++ ['+', '='] ++ "x.c".toList) = none
    ∧ find ['+', '='] "src".toList = none
    ∧ tableAdd ("src".toList ++ ['+', '='] ++ "x.c".toList) Table.clear
        = some ⟨[("src".toList, "x.c".toList)]⟩
    ∧ sourcesTable.find "src".toList = some "a.c foo.c b.c".toList
    ∧ tableAdd ("src".toList ++ ['+', '='] ++ "x.c".toList) sourcesTable = none
    ∧ main appendInvocation = none :=
  ⟨by decide, by decide, by decide, by decide,
    (table_append sourcesTable "src".toList "x.c".toList (by decide) (by decide)).2
      "a.c foo.c b.c".toList (by decide),
    by decide⟩

/-- C24. What the line `var-=v` does. For a variable name `var` without `-=`, a
value `v` such that the line holds no `:=` and no `+=`, and a table that holds
the variable (`var` without its spaces and tabs) with the value `w`:
`tableAdd` has no defined result, because the entry is erased and the
iterator that the erasure invalidated is handed to `insert`. The string
prepared for that insertion, when `v` (without its leading spaces and tabs)
occurs in `w`, first at position `pos`, is the piece of `w` that starts at the
occurrence and is `pos + |v| + 1` characters long at most: it starts with `v`,
so the value is kept and what stands before it is dropped. When `v` does not
occur, `substr` throws. -/
theorem value_removal_defects (table : Table) (var v w : List Char)
    (hline0 : find [':', '='] (var ++ ['-', '='] ++ v) = none)
    (hline1 : find ['+', '='] (var ++ ['-', '='] ++ v) = none)
    (hvar : find ['-', '='] var = none)
    (hw : table.find (withoutBlanks var) = some w) :
    tableAdd (var ++ ['-', '='] ++ v) table = none
    ∧ (∀ pos, find (withoutLeadingBlanks v) w = some pos →
        removalValue w (withoutLeadingBlanks v)
          = some ((w.drop pos).take (pos + (withoutLeadingBlanks v).length + 1))
        ∧ withoutLeadingBlanks v
          <+: (w.drop pos).take (pos + (withoutLeadingBlanks v).length + 1))
    ∧ (find (withoutLeadingBlanks v) w = none →
        removalValue w (withoutLeadingBlanks v) = none) := by
  have e := tableAdd_remove_line table var v hline0 hline1 hvar
  rw [hw] at e
  refine ⟨e, fun pos hpos => ⟨?_, ?_⟩, fun hnone => ?_⟩
  · unfold removalValue
    rw [hpos]
  · rw [List.prefix_take_iff]
    exact ⟨find_spec _ _ _ hpos, by omega⟩
  · unfold removalValue
    rw [hnone]

/-- Witness of C24: on the table that maps `src` to `a.c foo.c b.c` the line
`src-=foo.c` has no defined result, and the string prepared for the insertion
is `foo.c b.c`; the run `operaParameterAccess src-=foo.c` on a parameter file
that holds this variable has no defined outcome. -/
theorem value_removal_defects_witness :
    find [':', '='] ("src".toList ++ ['-', '='] ++ "foo.c".toList) = none
    ∧ find ['+', '='] ("src".toList ++ ['-', '='] ++ "foo.c".toList) = none
    ∧ find ['-', '='] "src".toList = none
    ∧ sourcesTable.find (withoutBlanks "src".toList) = some "a.c foo.c b.c".toList
    ∧ tableAdd ("src".toList ++ ['-', '='] ++ "foo.c".toList) sourcesTable = none
    ∧ removalValue "a.c foo.c b.c".toList "foo.c".toList = some "foo.c b.c".toList
    ∧ main removeValueInvocation = none :=
  ⟨by decide, by decide, by decide, by decide,
    (value_removal_defects sourcesTable "src".toList "foo.c".toList
      "a.c foo.c b.c".toList (by decide) (by decide) (by decide) (by decide)).1,
    by decide, by decide⟩

end ParameterAccess

/-! ## The parameter table tool: the command `rem` -/

namespace ParameterAccess

theorem argStep_variable (s : ArgState) (var : List Char)
    (hget : var ≠ "get".toList) (hadd : var ≠ "add".toList) (hrem : var ≠ "rem".toList)
    (hvar : '=' ∉ var) :
    argStep s var = some { s with line := var } := by
  unfold argStep
  rw [if_neg (by
    intro h
    rcases h with h | h | h
    · exact hget h
    · exact hadd h
    · exact hrem h), find_single_none '=' var hvar]

theorem argStep_rem (s : ArgState) :
    argStep s "rem".toList = some { s with command := "rem".toList } := by
  unfold argStep
  rw [if_pos (Or.inr (Or.inr rfl))]

theorem main_rem (inv : Invocation) (content var : List Char) (r : ReadState)
    (hfile : inv.parameterFile = some content)
    (hread : readTable inv.verbose content = some r)
    (hargs : inv.arguments = [var, "rem".toList])
    (hget : var ≠ "get".toList) (hadd : var ≠ "add".toList) (hrem : var ≠ "rem".toList)
    (hvar : '=' ∉ var) :
    main inv = some
      { status := EXIT_SUCCESS
        table := r.table.erase var
        cout := r.cout
        cerr := (if r.table.find var = none then [var ++ "not found.".toList] else []) ++
          (if inv.saveOpens = true then []
           else ["Unable to save parameter file ".toList ++ inv.filename])
        backup := some content
        saved :=
          if inv.saveOpens = true then some (fileOf (saveLines (r.table.erase var)))
          else none } := by
  have hne : ¬ "rem".toList = "get".toList := by decide
  unfold main
  simp only [hfile, hread, hargs, List.foldlM, argStep_variable _ var hget hadd hrem hvar,
    argStep_rem, Option.bind_eq_bind, Option.some_bind, Option.pure_def, hne, false_and,
    if_false, if_true, or_true, true_and]

/-- C25. The command `rem`. For a variable name that holds no `=` and is not one
of the words `get`, `add`, `rem`, the run `operaParameterAccess var rem` on a
parameter file that gives the table `r.table` ends with status 0 and leaves the
table without its entry for `var`: the variable is absent, every other entry
is unchanged and in place, and a table that did not hold the variable is
unchanged. When the parameter file can be written, what is written is the
resulting table, one line `name<TAB>:=<TAB>value` per entry, after a backup
copy of the file read. -/
theorem rem_command (inv : Invocation) (content var : List Char) (r : ReadState)
    (hfile : inv.parameterFile = some content)
    (hread : readTable inv.verbose content = some r)
    (hargs : inv.arguments = [var, "rem".toList])
    (hget : var ≠ "get".toList) (hadd : var ≠ "add".toList) (hrem : var ≠ "rem".toList)
    (hvar : '=' ∉ var) :
    ∃ out, main inv = some out
      ∧ out.status = EXIT_SUCCESS
      ∧ out.table.find var = none
      ∧ (∀ k, k ≠ var → out.table.find k = r.table.find k)
      ∧ out.table.entries = r.table.entries.filter (fun e => decide (e.1 ≠ var))
      ∧ (r.table.find var = none → out.table = r.table)
      ∧ (r.table.Ordered → out.table.Ordered)
      ∧ out.backup = some content
      ∧ out.saved = (if inv.saveOpens = true then some (fileOf (saveLines out.table)) else none)
      ∧ saveLines out.table
          = out.table.entries.map (fun e => e.1 ++ ['\t', ':', '=', '\t'] ++ e.2)
      ∧ (saveLines out.table).length = out.table.entries.length := by
  refine ⟨_, main_rem inv content var r hfile hread hargs hget hadd hrem hvar, rfl,
    find_erase_self _ _, fun k hk => find_erase_ne _ _ k hk, rfl,
    fun h => erase_of_find_none _ _ h, fun h => erase_ordered _ _ h, rfl, rfl, rfl, ?_⟩
  simp [saveLines]

/-- Witness of C25: the run `operaParameterAccess b rem` on a file that holds
the variables `add` and `b` writes back the line of `add` only. -/
theorem rem_command_witness :
    removeInvocation.parameterFile = some "add\t:=\tx\nb\t:=\ty\n".toList
    ∧ readTable removeInvocation.verbose "add\t:=\tx\nb\t:=\ty\n".toList
        = some { table := ⟨[("add".toList, "x".toList), ("b".toList, "y".toList)]⟩
                 line := []
                 cout := [] }
    ∧ removeInvocation.arguments = ["b".toList, "rem".toList]
    ∧ ∃ out, main removeInvocation = some out
      ∧ out.table.find "b".toList = none
      ∧ out.saved = some "add\t:=\tx\n".toList :=
  ⟨rfl, by decide, rfl,
    (rem_command removeInvocation "add\t:=\tx\nb\t:=\ty\n".toList "b".toList
      { table := ⟨[("add".toList, "x".toList), ("b".toList, "y".toList)]⟩
        line := []
        cout := [] }
      rfl (by decide) rfl (by decide) (by decide) (by decide) (by decide)).imp
      (fun _ h => ⟨h.1, h.2.2.1, by
        rw [h.2.2.2.2.2.2.2.2.1, h.2.2.2.2.2.2.2.2.2.1, h.2.2.2.2.1]
        decide⟩)⟩

/-- C25, as stated, fails for a variable named like a command:
the run `operaParameterAccess add rem` on a file that holds the variables `add`
and `b` takes `add` for the command, looks for the last line read (the empty
one) and writes the table back with `add` still in it. -/
theorem rem_of_command_word :
    (main removeAddInvocation).map (fun out => (out.status, out.table, out.saved, out.cerr))
      = some (EXIT_SUCCESS,
          ⟨[("add".toList, "x".toList), ("b".toList, "y".toList)]⟩,
          some "add\t:=\tx\nb\t:=\ty\n".toList,
          ["not found.".toList])
    ∧ (∀ out, main removeAddInvocation = some out →
        out.table.find "add".toList = some "x".toList) := by
  have e : (main removeAddInvocation).map
      (fun out => (out.status, out.table, out.saved, out.cerr))
      = some (EXIT_SUCCESS,
          ⟨[("add".toList, "x".toList), ("b".toList, "y".toList)]⟩,
          some "add\t:=\tx\nb\t:=\ty\n".toList,
          ["not found.".toList]) := by decide
  refine ⟨e, fun out h => ?_⟩
  rw [h] at e
  simp only [Option.map_some', Option.some.injEq, Prod.mk.injEq] at e
  rw [e.2.1]
  decide

end ParameterAccess

/-! ## The parameter table tool: the round trip through the parameter file -/

namespace ParameterAccess

theorem getlines_line (l rest : List Char) (h : '\n' ∉ l) :
    getlines (l ++ '\n' :: rest) = l :: getlines rest := by
  induction l with
  | nil => simp [getlines]
  | cons c s ih =>
    have hc : ¬ c = '\n' := fun e => h (by rw [e]; exact List.mem_cons_self _ _)
    have hs : '\n' ∉ s := fun e => h (List.mem_cons_of_mem _ e)
    rw [List.cons_append]
    simp only [getlines, if_neg hc, ih hs]

theorem getlines_fileOf (lines : List (List Char)) (h : ∀ l ∈ lines, '\n' ∉ l) :
    getlines (fileOf lines) = lines ++ [[]] := by
  induction lines with
  | nil => rfl
  | cons l ls ih =>
    have e : fileOf (l :: ls) = l ++ '\n' :: fileOf ls := by
      simp [fileOf]
    rw [e, getlines_line l _ (h l (List.mem_cons_self _ _)),
      ih (fun x hx => h x (List.mem_cons_of_mem _ hx))]
    rfl

theorem find_saved (key value : List Char) (hk : find [':', '='] key = none) :
    find [':', '='] (key ++ '\t' :: ':' :: '=' :: '\t' :: value) = some (key.length + 1) := by
  have h1 : ¬ ('\t' = ':' ∧ (':' :: '=' :: '\t' :: value).head? = some '=') :=
    fun hh => absurd hh.1 (by decide)
  rw [find_pair_append ':' '=' _ key hk (fun _ => by simp), find_pair_cons, if_neg h1,
    find_pair_self]
  simp
  omega

theorem tableAdd_saved (t : Table) (key value : List Char)
    (hk : find [':', '='] key = none) (h1 : ' ' ∉ key) (h2 : '\t' ∉ key)
    (hv : value.head? ≠ some '\t') :
    tableAdd (key ++ ['\t', ':', '=', '\t'] ++ value) t
      = some ((t.erase key).insert (key, value)) := by
  have e : key ++ ['\t', ':', '=', '\t'] ++ value
      = key ++ '\t' :: ':' :: '=' :: '\t' :: value := by simp
  have e1 : key ++ '\t' :: ':' :: '=' :: '\t' :: value
      = (key ++ ['\t']) ++ (':' :: '=' :: '\t' :: value) := by simp
  have e2 : key ++ '\t' :: ':' :: '=' :: '\t' :: value
      = (key ++ ['\t', ':', '=']) ++ ('\t' :: value) := by simp
  have t1 : (key ++ '\t' :: ':' :: '=' :: '\t' :: value).take (key.length + 1)
      = key ++ ['\t'] := by
    rw [e1]
    exact List.take_left' (by simp)
  have t2 : (key ++ '\t' :: ':' :: '=' :: '\t' :: value).drop (key.length + 1 + 2)
      = '\t' :: value := by
    rw [e2]
    exact List.drop_left' (by simp)
  have s1 : strip (strip (key ++ ['\t']) ' ') '\t' = key := by
    rw [strip_strip, List.filter_append]
    have := strip_strip_of_not_mem key h1 h2
    rw [strip_strip] at this
    rw [this]
    simp
  have s2 : stripleft (stripleft ('\t' :: value) ' ') '\t' = value := by
    have a : stripleft ('\t' :: value) ' ' = '\t' :: value := by
      simp [stripleft]
    rw [a]
    simp only [stripleft, if_true]
    exact stripleft_of_head value '\t' hv
  rw [e, tableAdd_assign _ (key.length + 1) t (find_saved key value hk), t1, t2, s1, s2]

theorem feed_saved (p : List (List Char × List Char)) :
    ∀ acc : Table,
      (∀ e ∈ p, find [':', '='] e.1 = none ∧ ' ' ∉ e.1 ∧ '\t' ∉ e.1
        ∧ e.2.head? ≠ some '\t') →
      (p.map (fun e => e.1 ++ ['\t', ':', '=', '\t'] ++ e.2)).foldlM
          (fun table line => tableAdd line table) acc
        = some (p.foldl (fun table e => (table.erase e.1).insert e) acc) := by
  induction p with
  | nil => intro acc _; rfl
  | cons x rest ih =>
    intro acc h
    obtain ⟨c1, c2, c3, c4⟩ := h x (List.mem_cons_self _ _)
    rw [List.map_cons, List.foldlM_cons, tableAdd_saved acc x.1 x.2 c1 c2 c3 c4]
    simp only [Option.bind_eq_bind, Option.some_bind, List.foldl_cons]
    exact ih _ (fun e he => h e (List.mem_cons_of_mem _ he))

theorem fold_set (p : List (List Char × List Char)) :
    ∀ acc : Table, acc.Ordered → (p.map Prod.fst).Nodup →
      (∀ e ∈ p, acc.find e.1 = none) →
      (p.foldl (fun table e => (table.erase e.1).insert e) acc).Ordered
      ∧ (p.foldl (fun table e => (table.erase e.1).insert e) acc).entries.Perm
          (p ++ acc.entries) := by
  induction p with
  | nil => intro acc h _ _; exact ⟨h, List.Perm.refl _⟩
  | cons x rest ih =>
    intro acc hacc hnd habs
    rw [List.map_cons, List.nodup_cons] at hnd
    have hx : acc.find x.1 = none := habs x (List.mem_cons_self _ _)
    have hprod : ((x.1, x.2) : List Char × List Char) = x := rfl
    have hstep : ((acc.erase x.1).insert x).entries.Perm (x :: acc.entries) := by
      rw [erase_of_find_none acc x.1 hx]
      exact insertEntry_perm x acc.entries hx
    have hord : ((acc.erase x.1).insert x).Ordered := set_ordered acc x.1 x.2 hacc
    have habs2 : ∀ e ∈ rest, ((acc.erase x.1).insert x).find e.1 = none := by
      intro e he
      have hne : e.1 ≠ x.1 := by
        intro eq
        exact hnd.1 (by rw [← eq]; exact List.mem_map_of_mem Prod.fst he)
      have := set_find_ne acc x.1 x.2 e.1 hne
      rw [hprod] at this
      rw [this]
      exact habs e (List.mem_cons_of_mem _ he)
    obtain ⟨i1, i2⟩ := ih _ hord hnd.2 habs2
    rw [List.foldl_cons]
    refine ⟨i1, i2.trans ?_⟩
    exact ((List.Perm.append_left rest hstep).trans List.perm_middle)

theorem keys_nodup (l : List (List Char × List Char))
    (h : l.Pairwise (fun a b => keyLess a.1 b.1 = true)) : (l.map Prod.fst).Nodup := by
  show List.Pairwise (fun a b => a ≠ b) (l.map Prod.fst)
  rw [List.pairwise_map]
  exact List.Pairwise.imp (fun hab => keyLess_ne _ _ hab) h

theorem perm_map_exists {α β : Type} (f : α → β) :
    ∀ (s : List α) (l : List β), l.Perm (s.map f) → ∃ p : List α, p.Perm s ∧ p.map f = l := by
  intro s
  induction s with
  | nil =>
    intro l h
    exact ⟨[], List.Perm.refl _, (List.Perm.eq_nil h).symm⟩
  | cons a s ih =>
    intro l h
    have hm : f a ∈ l := h.symm.subset (by simp)
    obtain ⟨l1, l2, e⟩ := List.append_of_mem hm
    subst e
    have h2 : (l1 ++ l2).Perm (s.map f) := by
      have := (List.perm_middle.symm.trans h)
      exact (List.perm_cons (f a)).mp (List.perm_middle.symm.trans h |> fun x => by
        simpa using x)
    obtain ⟨p, hp, hmap⟩ := ih (l1 ++ l2) h2
    obtain ⟨p1, p2, e1, e2, e3⟩ := List.map_eq_append_iff.mp hmap
    subst e1
    refine ⟨p1 ++ a :: p2, ?_, by simp [e2, e3]⟩
    exact List.perm_middle.trans (hp.cons a)

theorem read_fold (verbose : Bool) (ls : List (List Char)) :
    ∀ s : ReadState, (∀ l ∈ ls, 0 < l.length) →
      (ls.foldlM (readStep verbose) s).map (fun r => r.table)
        = ls.foldlM (fun table line => tableAdd line table) s.table := by
  induction ls with
  | nil => intro s _; rfl
  | cons l rest ih =>
    intro s h
    have hl : l.length > 0 := h l (List.mem_cons_self _ _)
    rw [List.foldlM_cons, List.foldlM_cons]
    unfold readStep
    simp only [hl, if_true]
    cases ht : tableAdd l s.table with
    | none => rfl
    | some t1 =>
      simp only [Option.map_some', Option.bind_eq_bind, Option.some_bind]
      exact ih _ (fun x hx => h x (List.mem_cons_of_mem _ hx))

theorem readTable_fileOf (verbose : Bool) (lines : List (List Char))
    (h1 : ∀ l ∈ lines, '\n' ∉ l) (h2 : ∀ l ∈ lines, 0 < l.length) :
    (readTable verbose (fileOf lines)).map (fun r => r.table)
      = lines.foldlM (fun table line => tableAdd line table) Table.clear := by
  have hrf : (lines.foldlM (readStep verbose)
        { table := Table.clear, line := [], cout := [] }).map (fun r => r.table)
      = lines.foldlM (fun table line => tableAdd line table) Table.clear :=
    read_fold verbose lines _ h2
  unfold readTable
  rw [getlines_fileOf lines h1, List.foldlM_append, ← hrf]
  cases hf : lines.foldlM (readStep verbose) { table := Table.clear, line := [], cout := [] } with
  | none => rfl
  | some s =>
    simp [readStep]

theorem round_trip_entries (t : Table) (hord : t.Ordered)
    (hkeys : ∀ e ∈ t.entries,
      ' ' ∉ e.1 ∧ '\t' ∉ e.1 ∧ '\n' ∉ e.1 ∧ find [':', '='] e.1 = none)
    (hvals : ∀ e ∈ t.entries, '\n' ∉ e.2 ∧ e.2.head? ≠ some '\t')
    (p : List (List Char × List Char)) (hp : p.Perm t.entries) :
    (p.map (fun e => e.1 ++ ['\t', ':', '=', '\t'] ++ e.2)).foldlM
        (fun table line => tableAdd line table) Table.clear = some t := by
  rw [feed_saved p Table.clear (fun e he =>
    ⟨(hkeys e (hp.subset he)).2.2.2, (hkeys e (hp.subset he)).1, (hkeys e (hp.subset he)).2.1,
      (hvals e (hp.subset he)).2⟩)]
  have hnd : (p.map Prod.fst).Nodup :=
    ((hp.map Prod.fst).nodup_iff).mpr (keys_nodup t.entries hord)
  obtain ⟨i1, i2⟩ := fold_set p Table.clear List.Pairwise.nil hnd (fun _ _ => rfl)
  have i3 : (p.foldl (fun table e => (table.erase e.1).insert e) Table.clear).entries.Perm
      t.entries := by
    have e : p ++ Table.clear.entries = p := List.append_nil p
    rw [e] at i2
    exact i2.trans hp
  have i4 := ordered_unique _ _ i1 hord i3
  congr 1
  cases t with
  | mk entries =>
    cases hq : p.foldl (fun table e => (table.erase e.1).insert e) Table.clear with
    | mk entries2 =>
      rw [hq] at i4
      simp only at i4
      rw [i4]

end ParameterAccess

namespace ParameterAccess

/-- C28. The round trip through the parameter file. Take a table, its entries
in key order, whose keys hold no space, tab, newline or `:=` and whose values
hold no newline and do not start with a tab. Its saved lines (key, tab, `:=`,
tab, value), fed in any order to `tableAdd` from the empty table, give the same
table back; and so does reading, with the loop of `main`, a file that holds
these lines in any order, each ended by a newline. -/
theorem parameter_file_round_trip (t : Table) (hord : t.Ordered)
    (hkeys : ∀ e ∈ t.entries,
      ' ' ∉ e.1 ∧ '\t' ∉ e.1 ∧ '\n' ∉ e.1 ∧ find [':', '='] e.1 = none)
    (hvals : ∀ e ∈ t.entries, '\n' ∉ e.2 ∧ e.2.head? ≠ some '\t')
    (lines : List (List Char)) (hperm : lines.Perm (saveLines t)) (verbose : Bool) :
    lines.foldlM (fun table line => tableAdd line table) Table.clear = some t
    ∧ (readTable verbose (fileOf lines)).map (fun r => r.table) = some t := by
  obtain ⟨p, hp, hmap⟩ :=
    perm_map_exists (fun e : List Char × List Char => e.1 ++ ['\t', ':', '=', '\t'] ++ e.2)
      t.entries lines hperm
  subst hmap
  have h := round_trip_entries t hord hkeys hvals p hp
  refine ⟨h, ?_⟩
  rw [readTable_fileOf verbose _ ?_ ?_, h]
  · intro l hl
    obtain ⟨e, he, rfl⟩ := List.mem_map.mp hl
    have k := hkeys e (hp.subset he)
    have v := hvals e (hp.subset he)
    intro hm
    rcases List.mem_append.mp hm with h1 | h1
    · rcases List.mem_append.mp h1 with h2 | h2
      · exact k.2.2.1 h2
      · revert h2
        decide
    · exact v.1 h1
  · intro l hl
    obtain ⟨e, _, rfl⟩ := List.mem_map.mp hl
    simp

/-- Witness of C28: a table of two variables, one with `=` in its name and one
whose value starts with a space and holds `:=`, its two lines fed in reverse
order. -/
theorem parameter_file_round_trip_witness :
    twoVariables.Ordered
    ∧ (∀ e ∈ twoVariables.entries,
        ' ' ∉ e.1 ∧ '\t' ∉ e.1 ∧ '\n' ∉ e.1 ∧ find [':', '='] e.1 = none)
    ∧ (∀ e ∈ twoVariables.entries, '\n' ∉ e.2 ∧ e.2.head? ≠ some '\t')
    ∧ ["src\t:=\t x:=y z".toList, "a=b\t:=\t1".toList].Perm (saveLines twoVariables)
    ∧ (readTable false "src\t:=\t x:=y z\na=b\t:=\t1\n".toList).map (fun r => r.table)
        = some twoVariables :=
  ⟨by unfold Table.Ordered; decide, by decide, by decide,
    List.Perm.swap "a=b\t:=\t1".toList "src\t:=\t x:=y z".toList [],
    (parameter_file_round_trip twoVariables (by unfold Table.Ordered; decide) (by decide)
      (by decide) ["src\t:=\t x:=y z".toList, "a=b\t:=\t1".toList]
      (List.Perm.swap "a=b\t:=\t1".toList "src\t:=\t x:=y z".toList []) false).2⟩

end ParameterAccess

/-! ## The calibration dispatch of `ExtendedSpectrumCreation` -/

namespace ExtendedSpectrumCreation

theorem normalizationCall_normalization (StarPlusSky PolarimetryCorrection : Bool)
    (a : Arguments) (minorder maxorder : Int) :
    (normalizationCall StarPlusSky PolarimetryCorrection a minorder maxorder).normalization
      = some
        (if a.inputWavelengthMaskForUncalContinuum ≠ "" then
          if a.fluxCalibration ≠ "" then Normalization.fluxCalibration
          else if a.flatResponse ≠ "" then Normalization.flatResponse
          else Normalization.plain
        else Normalization.orderByOrder) := by
  unfold normalizationCall
  split_ifs <;> rfl

theorem normalizationsApplied_eq (StarPlusSky PolarimetryCorrection : Bool)
    (a : Arguments) (minorder maxorder : Int) :
    normalizationsApplied StarPlusSky PolarimetryCorrection a minorder maxorder
      = [if a.inputWavelengthMaskForUncalContinuum ≠ "" then
          if a.fluxCalibration ≠ "" then Normalization.fluxCalibration
          else if a.flatResponse ≠ "" then Normalization.flatResponse
          else Normalization.plain
        else Normalization.orderByOrder] := by
  unfold normalizationsApplied calibrationCalls
  have h1 : (if a.telluriccorrection ≠ "" then
      [LibraryCall.readTelluricRVINTOExtendendSpectra a.telluriccorrection minorder maxorder]
    else []).filterMap LibraryCall.normalization = [] := by
    split_ifs <;> rfl
  have h2 : (if a.radialvelocitycorrection ≠ "" then
      [LibraryCall.readRVCorrectionINTOExtendendSpectra a.radialvelocitycorrection
        a.wavelengthCalibration minorder maxorder]
    else []).filterMap LibraryCall.normalization = [] := by
    split_ifs <;> rfl
  have h3 : (if a.inputFlatFluxCalibration ≠ "" then
      [LibraryCall.correctFlatField a.inputFlatFluxCalibration minorder maxorder StarPlusSky
        a.starplusskyInvertSkyFiber,
       LibraryCall.saveExtendedRawFlux minorder maxorder]
    else []).filterMap LibraryCall.normalization = [] := by
    split_ifs <;> rfl
  rw [List.filterMap_append, List.filterMap_append, List.filterMap_append, h1, h2, h3]
  simp only [List.nil_append, List.filterMap_cons, List.filterMap_nil,
    normalizationCall_normalization]

/-- C26. The calibration dispatch. In a run that reaches it, exactly one of the
four normalizations is applied, by the last call on the spectrum: with a
continuum wavelength mask it is the flux calibration when `fluxCalibration` is
given, else the flat response when `flatResponse` is given, else the plain
normalization; without a mask it is the order-by-order normalization whatever
the two files. So the flat response is applied only with a mask, with
`flatResponse` given and `fluxCalibration` not given. -/
theorem calibration_dispatch (StarPlusSky PolarimetryCorrection : Bool) (a : Arguments)
    (minorder maxorder : Int) :
    normalizationsApplied StarPlusSky PolarimetryCorrection a minorder maxorder
      = [if a.inputWavelengthMaskForUncalContinuum ≠ "" then
          if a.fluxCalibration ≠ "" then Normalization.fluxCalibration
          else if a.flatResponse ≠ "" then Normalization.flatResponse
          else Normalization.plain
        else Normalization.orderByOrder]
    ∧ (normalizationsApplied StarPlusSky PolarimetryCorrection a minorder maxorder).length = 1
    ∧ (calibrationCalls StarPlusSky PolarimetryCorrection a minorder maxorder).getLast?
        = some (normalizationCall StarPlusSky PolarimetryCorrection a minorder maxorder)
    ∧ (Normalization.flatResponse
          ∈ normalizationsApplied StarPlusSky PolarimetryCorrection a minorder maxorder
        ↔ a.inputWavelengthMaskForUncalContinuum ≠ "" ∧ a.fluxCalibration = ""
          ∧ a.flatResponse ≠ "")
    ∧ (Normalization.fluxCalibration
          ∈ normalizationsApplied StarPlusSky PolarimetryCorrection a minorder maxorder
        ↔ a.inputWavelengthMaskForUncalContinuum ≠ "" ∧ a.fluxCalibration ≠ "")
    ∧ (Normalization.plain
          ∈ normalizationsApplied StarPlusSky PolarimetryCorrection a minorder maxorder
        ↔ a.inputWavelengthMaskForUncalContinuum ≠ "" ∧ a.fluxCalibration = ""
          ∧ a.flatResponse = "")
    ∧ (Normalization.orderByOrder
          ∈ normalizationsApplied StarPlusSky PolarimetryCorrection a minorder maxorder
        ↔ a.inputWavelengthMaskForUncalContinuum = "") := by
  rw [normalizationsApplied_eq]
  refine ⟨rfl, rfl, ?_, ?_, ?_, ?_, ?_⟩
  · unfold calibrationCalls
    rw [List.getLast?_append]
    rfl
  · by_cases h1 : a.inputWavelengthMaskForUncalContinuum = "" <;>
      by_cases h2 : a.fluxCalibration = "" <;>
      by_cases h3 : a.flatResponse = "" <;> simp [h1, h2, h3]
  · by_cases h1 : a.inputWavelengthMaskForUncalContinuum = "" <;>
      by_cases h2 : a.fluxCalibration = "" <;>
      by_cases h3 : a.flatResponse = "" <;> simp [h1, h2, h3]
  · by_cases h1 : a.inputWavelengthMaskForUncalContinuum = "" <;>
      by_cases h2 : a.fluxCalibration = "" <;>
      by_cases h3 : a.flatResponse = "" <;> simp [h1, h2, h3]
  · by_cases h1 : a.inputWavelengthMaskForUncalContinuum = "" <;>
      by_cases h2 : a.fluxCalibration = "" <;>
      by_cases h3 : a.flatResponse = "" <;> simp [h1, h2, h3]

end ExtendedSpectrumCreation

/-! ## The order scan of `ExtendedSpectrumCreation` -/

namespace ExtendedSpectrumCreation

theorem scanStep_usable (v : operaSpectralOrderVector) (p : PossibleOrders) (order : Int)
    (h : Usable v order) :
    scanStep v p order =
      { minPossibleOrder :=
          if order < p.minPossibleOrder ∨ p.minPossibleOrder = 0 then order
          else p.minPossibleOrder
        maxPossibleOrder :=
          if order > p.maxPossibleOrder then order else p.maxPossibleOrder } := by
  unfold scanStep
  unfold Usable at h
  rw [if_pos h]

theorem scanStep_unusable (v : operaSpectralOrderVector) (p : PossibleOrders) (order : Int)
    (h : ¬ Usable v order) : scanStep v p order = p := by
  unfold scanStep
  unfold Usable at h
  rw [if_neg h]

theorem scanStep_invariant (v : operaSpectralOrderVector) (p : PossibleOrders)
    (seen : List Int) (order : Int) (hseen : ∀ o ∈ seen, 0 < o) (ho : 0 < order)
    (h : ScanInvariant v p seen) : ScanInvariant v (scanStep v p order) (seen ++ [order]) := by
  by_cases hu : Usable v order
  · rw [scanStep_usable v p order hu]
    rcases h with ⟨hp, hno⟩ | ⟨u1, u2, m1, m2, hb⟩
    · subst hp
      right
      have e1 : (if order < (0 : Int) ∨ (0 : Int) = 0 then order else 0) = order := by simp
      have e2 : (if order > (0 : Int) then order else 0) = order := by simp [ho]
      rw [e1, e2]
      refine ⟨hu, hu, by simp, by simp, ?_⟩
      intro o hm hou
      rcases List.mem_append.mp hm with h1 | h1
      · exact absurd hou (hno o h1)
      · have : o = order := by simpa using h1
        simp only
        omega
    · right
      have hmin := hseen _ m1
      have hmax := hseen _ m2
      have hle := (hb _ m1 u1).2
      by_cases c1 : order < p.minPossibleOrder
      · have c2 : ¬ order > p.maxPossibleOrder := by omega
        simp only [c1, true_or, if_true, c2, if_false]
        refine ⟨hu, u2, by simp, by simp [m2], ?_⟩
        intro o hm hou
        rcases List.mem_append.mp hm with h1 | h1
        · have := hb o h1 hou
          omega
        · have : o = order := by simpa using h1
          omega
      · have c0 : ¬ (order < p.minPossibleOrder ∨ p.minPossibleOrder = 0) := by
          intro hh
          rcases hh with hh | hh
          · exact c1 hh
          · omega
        by_cases c2 : order > p.maxPossibleOrder
        · simp only [c0, if_false, c2, if_true]
          refine ⟨u1, hu, by simp [m1], by simp, ?_⟩
          intro o hm hou
          rcases List.mem_append.mp hm with h1 | h1
          · have := hb o h1 hou
            omega
          · have : o = order := by simpa using h1
            omega
        · simp only [c0, if_false, c2]
          refine ⟨u1, u2, by simp [m1], by simp [m2], ?_⟩
          intro o hm hou
          rcases List.mem_append.mp hm with h1 | h1
          · exact hb o h1 hou
          · have : o = order := by simpa using h1
            omega
  · rw [scanStep_unusable v p order hu]
    rcases h with ⟨hp, hno⟩ | ⟨u1, u2, m1, m2, hb⟩
    · left
      refine ⟨hp, ?_⟩
      intro o hm
      rcases List.mem_append.mp hm with h1 | h1
      · exact hno o h1
      · have : o = order := by simpa using h1
        rw [this]
        exact hu
    · right
      refine ⟨u1, u2, by simp [m1], by simp [m2], ?_⟩
      intro o hm hou
      rcases List.mem_append.mp hm with h1 | h1
      · exact hb o h1 hou
      · have : o = order := by simpa using h1
        rw [this] at hou
        exact absurd hou hu

theorem scan_invariant (v : operaSpectralOrderVector) (l : List Int) :
    ∀ (seen : List Int) (p : PossibleOrders), (∀ o ∈ seen, 0 < o) → (∀ o ∈ l, 0 < o) →
      ScanInvariant v p seen → ScanInvariant v (l.foldl (scanStep v) p) (seen ++ l) := by
  induction l with
  | nil =>
    intro seen p _ _ h
    simpa using h
  | cons x rest ih =>
    intro seen p hseen hl h
    have hx : 0 < x := hl x (List.mem_cons_self _ _)
    have h1 := scanStep_invariant v p seen x hseen hx h
    have h2 := ih (seen ++ [x]) (scanStep v p x)
      (by
        intro o hm
        rcases List.mem_append.mp hm with h3 | h3
        · exact hseen o h3
        · have : o = x := by simpa using h3
          omega)
      (fun o ho => hl o (List.mem_cons_of_mem _ ho)) h1
    rw [List.foldl_cons]
    have e : seen ++ x :: rest = seen ++ [x] ++ rest := by simp
    rw [e]
    exact h2

theorem scanOrders_invariant (v : operaSpectralOrderVector) (minorder maxorder : Int)
    (hpos : 0 < minorder) :
    ScanInvariant v (scanOrders v minorder maxorder) (orderRange minorder maxorder) := by
  have h := scan_invariant v (orderRange minorder maxorder) []
    { minPossibleOrder := 0, maxPossibleOrder := 0 } (by simp)
    (by
      intro o ho
      have := (mem_orderRange minorder maxorder o).mp ho
      omega)
    (Or.inl ⟨rfl, by simp⟩)
  simpa using h

/-- C29. The clipping of the order limits. For a requested range of positive
orders `minorder ≤ maxorder` that holds an order with spectral elements and a
wavelength solution, the limits after the scan are the smallest and the
largest such order of the range: both are usable, they lie in the requested
range, the lower is at most the upper, and every usable order of the requested
range lies between them. -/
theorem order_limit_clipping (spectralOrders : operaSpectralOrderVector)
    (minorder maxorder : Int) (hpos : 0 < minorder) (_hle : minorder ≤ maxorder)
    (hex : ∃ o, minorder ≤ o ∧ o ≤ maxorder ∧ Usable spectralOrders o) :
    Usable spectralOrders (clippedOrderLimits spectralOrders minorder maxorder).1
    ∧ Usable spectralOrders (clippedOrderLimits spectralOrders minorder maxorder).2
    ∧ minorder ≤ (clippedOrderLimits spectralOrders minorder maxorder).1
    ∧ (clippedOrderLimits spectralOrders minorder maxorder).1
        ≤ (clippedOrderLimits spectralOrders minorder maxorder).2
    ∧ (clippedOrderLimits spectralOrders minorder maxorder).2 ≤ maxorder
    ∧ (∀ o, minorder ≤ o → o ≤ maxorder → Usable spectralOrders o →
        (clippedOrderLimits spectralOrders minorder maxorder).1 ≤ o
        ∧ o ≤ (clippedOrderLimits spectralOrders minorder maxorder).2)
    ∧ clippedOrderLimits spectralOrders minorder maxorder
        = ((scanOrders spectralOrders minorder maxorder).minPossibleOrder,
           (scanOrders spectralOrders minorder maxorder).maxPossibleOrder) := by
  obtain ⟨o0, a0, b0, u0⟩ := hex
  rcases scanOrders_invariant spectralOrders minorder maxorder hpos with
    ⟨_, hno⟩ | ⟨u1, u2, m1, m2, hb⟩
  · exact absurd u0 (hno o0 ((mem_orderRange minorder maxorder o0).mpr ⟨a0, b0⟩))
  · have r1 := (mem_orderRange minorder maxorder _).mp m1
    have r2 := (mem_orderRange minorder maxorder _).mp m2
    have hmm := (hb _ m1 u1).2
    have e : clippedOrderLimits spectralOrders minorder maxorder
        = ((scanOrders spectralOrders minorder maxorder).minPossibleOrder,
           (scanOrders spectralOrders minorder maxorder).maxPossibleOrder) := by
      unfold clippedOrderLimits
      simp only [Prod.mk.injEq]
      constructor
      · split_ifs <;> omega
      · split_ifs <;> omega
    rw [e]
    exact ⟨u1, u2, r1.1, hmm, r2.2,
      fun o ha hb2 hu => hb o ((mem_orderRange minorder maxorder o).mpr ⟨ha, hb2⟩) hu, rfl⟩

/-- Witness of C29: of the requested orders 22 to 62 of a spectrum whose orders
24 to 30 have spectral elements and whose orders 22 to 28 have a wavelength
solution, the limits become 24 and 28. -/
theorem order_limit_clipping_witness :
    (0 : Int) < 22 ∧ (22 : Int) ≤ 62
    ∧ (∃ o : Int, 22 ≤ o ∧ o ≤ 62 ∧ Usable gappedSpectrum o)
    ∧ clippedOrderLimits gappedSpectrum 22 62 = (24, 28)
    ∧ Usable gappedSpectrum (clippedOrderLimits gappedSpectrum 22 62).1 :=
  ⟨by decide, by decide, ⟨25, by decide, by decide, by decide⟩, by decide,
    (order_limit_clipping gappedSpectrum 22 62 (by decide) (by decide)
      ⟨25, by decide, by decide, by decide⟩).1⟩

end ExtendedSpectrumCreation

/-! ## The order limits of `operaStarOnly` -/

namespace StarOnly

theorem readOption_leavesMaxorder (v : OrderVariables) (o : OrderOption)
    (h : o.leavesMaxorder = true) :
    (readOption v o).maxorder = v.maxorder
    ∧ (readOption v o).maxorderprovided = v.maxorderprovided
    ∧ (readOption v o).ordernumber = v.ordernumber := by
  cases o with
  | ordernumber value => simp [OrderOption.leavesMaxorder] at h
  | minorder value => exact ⟨rfl, rfl, rfl⟩
  | maxorder value => simp [OrderOption.leavesMaxorder] at h

theorem readOption_leavesMinorder (v : OrderVariables) (o : OrderOption)
    (h : o.leavesMinorder = true) :
    (readOption v o).minorder = v.minorder
    ∧ (readOption v o).minorderprovided = v.minorderprovided
    ∧ (readOption v o).ordernumber = v.ordernumber := by
  cases o with
  | ordernumber value => simp [OrderOption.leavesMinorder] at h
  | minorder value => simp [OrderOption.leavesMinorder] at h
  | maxorder value => exact ⟨rfl, rfl, rfl⟩

theorem foldl_leavesMaxorder (options : List OrderOption) :
    ∀ v : OrderVariables, options.all OrderOption.leavesMaxorder = true →
      (options.foldl readOption v).maxorder = v.maxorder
      ∧ (options.foldl readOption v).maxorderprovided = v.maxorderprovided
      ∧ (options.foldl readOption v).ordernumber = v.ordernumber := by
  induction options with
  | nil => intro v _; exact ⟨rfl, rfl, rfl⟩
  | cons o rest ih =>
    intro v h
    rw [List.all_cons, Bool.and_eq_true] at h
    obtain ⟨a1, a2, a3⟩ := readOption_leavesMaxorder v o h.1
    obtain ⟨b1, b2, b3⟩ := ih (readOption v o) h.2
    rw [List.foldl_cons]
    exact ⟨b1.trans a1, b2.trans a2, b3.trans a3⟩

theorem foldl_leavesMinorder (options : List OrderOption) :
    ∀ v : OrderVariables, options.all OrderOption.leavesMinorder = true →
      (options.foldl readOption v).minorder = v.minorder
      ∧ (options.foldl readOption v).minorderprovided = v.minorderprovided
      ∧ (options.foldl readOption v).ordernumber = v.ordernumber := by
  induction options with
  | nil => intro v _; exact ⟨rfl, rfl, rfl⟩
  | cons o rest ih =>
    intro v h
    rw [List.all_cons, Bool.and_eq_true] at h
    obtain ⟨a1, a2, a3⟩ := readOption_leavesMinorder v o h.1
    obtain ⟨b1, b2, b3⟩ := ih (readOption v o) h.2
    rw [List.foldl_cons]
    exact ⟨b1.trans a1, b2.trans a2, b3.trans a3⟩

theorem orderLimits_without_ordernumber (v : OrderVariables)
    (spectralOrders : operaSpectralOrderVector) (h : v.ordernumber = NOTPROVIDED) :
    (orderLimits v spectralOrders).maxorder = v.maxorder
    ∧ (orderLimits v spectralOrders).minorder
        = (if v.minorderprovided = false then spectralOrders.Minorder else v.minorder) := by
  unfold orderLimits
  cases h1 : v.minorderprovided <;> cases h2 : v.maxorderprovided <;> simp [h, h1, h2]

theorem orderLimits_with_ordernumber (v : OrderVariables)
    (spectralOrders : operaSpectralOrderVector) (h : v.ordernumber ≠ NOTPROVIDED) :
    (orderLimits v spectralOrders).minorder = v.ordernumber
    ∧ (orderLimits v spectralOrders).maxorder = v.ordernumber := by
  unfold orderLimits
  cases h1 : v.minorderprovided <;> cases h2 : v.maxorderprovided <;> simp [h, h1, h2]

theorem readOptions_ordernumber (before after : List OrderOption) (value : Int)
    (h : after.all OrderOption.leavesOrdernumber = true) :
    (readOptions (before ++ [OrderOption.ordernumber value] ++ after)).ordernumber = value := by
  unfold readOptions
  rw [List.foldl_append, List.foldl_append]
  generalize (List.foldl readOption {} before) = v0
  simp only [List.foldl_cons, List.foldl_nil]
  have key : ∀ (l : List OrderOption) (v : OrderVariables),
      (∀ o ∈ l, o.leavesOrdernumber = true) →
      (l.foldl readOption v).ordernumber = v.ordernumber := by
    intro l
    induction l with
    | nil => intro v _; rfl
    | cons o rest ih =>
      intro v hl
      rw [List.foldl_cons, ih _ (fun x hx => hl x (List.mem_cons_of_mem _ hx))]
      have ho := hl o (List.mem_cons_self _ _)
      cases o with
      | ordernumber n => simp [OrderOption.leavesOrdernumber] at ho
      | minorder n => rfl
      | maxorder n => rfl
  rw [key after _ (fun o ho => List.all_eq_true.mp h o ho)]
  rfl

/-- C30. The order limits of `operaStarOnly`. Without `--maxorder` and without
`--ordernumber` among the options the upper limit is 62, whatever the spectrum
provides; without `--minorder` and without `--ordernumber` the lower limit is
the minimum order of the spectrum; and with an order number (a value other
than the one the variable holds when the option is absent) both limits are the
order number, whatever else is given, and the loop visits that order only.
Whether `--maxorder` is given or not, the upper limit is the value of the
variable `maxorder` whenever no order number is given. -/
theorem star_only_order_limits (spectralOrders : operaSpectralOrderVector)
    (options : List OrderOption) :
    (options.all OrderOption.leavesMaxorder = true →
      (orderLimits (readOptions options) spectralOrders).maxorder = 62)
    ∧ (options.all OrderOption.leavesMinorder = true →
      (orderLimits (readOptions options) spectralOrders).minorder = spectralOrders.Minorder)
    ∧ ((readOptions options).ordernumber ≠ NOTPROVIDED →
      (orderLimits (readOptions options) spectralOrders).minorder
          = (readOptions options).ordernumber
      ∧ (orderLimits (readOptions options) spectralOrders).maxorder
          = (readOptions options).ordernumber
      ∧ processedOrders options spectralOrders = [(readOptions options).ordernumber])
    ∧ ((readOptions options).ordernumber = NOTPROVIDED →
      (orderLimits (readOptions options) spectralOrders).maxorder
        = (readOptions options).maxorder)
    ∧ (∀ (before after : List OrderOption) (value : Int),
        after.all OrderOption.leavesOrdernumber = true →
        (readOptions (before ++ [OrderOption.ordernumber value] ++ after)).ordernumber
          = value) := by
  refine ⟨fun h => ?_, fun h => ?_, fun h => ?_, fun h => ?_,
    fun before after value h => readOptions_ordernumber before after value h⟩
  · obtain ⟨a1, -, a3⟩ := foldl_leavesMaxorder options {} h
    have e := (orderLimits_without_ordernumber (readOptions options) spectralOrders a3).1
    rw [e]
    exact a1
  · obtain ⟨-, a2, a3⟩ := foldl_leavesMinorder options {} h
    have e := (orderLimits_without_ordernumber (readOptions options) spectralOrders a3).2
    rw [e]
    have a2b : (readOptions options).minorderprovided = false := a2
    simp [a2b]
  · obtain ⟨e1, e2⟩ := orderLimits_with_ordernumber (readOptions options) spectralOrders h
    refine ⟨e1, e2, ?_⟩
    unfold processedOrders
    rw [e1, e2, orderRange_single]
  · exact (orderLimits_without_ordernumber (readOptions options) spectralOrders h).1

/-- Witness of C30: on a spectrum whose orders run from 22 to 30, a run
without order options has the limits 22 and 62, a run with `--minorder=40` the
upper limit 62, and a run with `--ordernumber=31` and `--maxorder=50` visits the
order 31. -/
theorem star_only_order_limits_witness :
    (orderLimits (readOptions []) ExtendedSpectrumCreation.gappedSpectrum).maxorder = 62
    ∧ (orderLimits (readOptions []) ExtendedSpectrumCreation.gappedSpectrum).minorder = ExtendedSpectrumCreation.gappedSpectrum.Minorder
    ∧ ExtendedSpectrumCreation.gappedSpectrum.Maxorder = 30
    ∧ (orderLimits (readOptions [OrderOption.minorder 40]) ExtendedSpectrumCreation.gappedSpectrum).maxorder = 62
    ∧ processedOrders [OrderOption.ordernumber 31, OrderOption.maxorder 50] ExtendedSpectrumCreation.gappedSpectrum
        = [31] :=
  ⟨(star_only_order_limits ExtendedSpectrumCreation.gappedSpectrum []).1 rfl,
    (star_only_order_limits ExtendedSpectrumCreation.gappedSpectrum []).2.1 rfl,
    by decide,
    (star_only_order_limits ExtendedSpectrumCreation.gappedSpectrum [OrderOption.minorder 40]).1 rfl,
    ((star_only_order_limits ExtendedSpectrumCreation.gappedSpectrum
      [OrderOption.ordernumber 31, OrderOption.maxorder 50]).2.2.1 (by decide)).2.2⟩

end StarOnly

end Opera
